import Mathlib

/-!
# DSU (cemuhook) motion server: embedding of `src/platform/windows/dsu_server.{h,cpp}`

Conventions of the embedding.

* Machine integers are natural numbers; a `uintN_t` value is a `Nat` below `2^N`, and every
  narrowing store applies `% 2^N` explicitly.
* Memory is a list of bytes (`List Nat`); reading an `unsigned char` yields the cell `% 256`.
  The target is little-endian (x86 / x64 Windows), structs are laid out under `#pragma pack(1)`.
* A `float` is represented by its IEEE-754 binary32 bit pattern (a `Nat` below `2^32`); the only
  floating point operations of the server are unary minus (sign bit flip) and `!= 0.0f`.
* `std::chrono::steady_clock::now()` is an explicit argument `now` (ticks of one nanosecond).
* Everything handed to `socket_.send_to` is appended to the trace field `sent` of the server state.
-/

namespace platf

/-! ## Bytes and little-endian words -/

/-- The `w` low-order bytes of `v`, least significant first (how a `w`-byte unsigned integer
lies in memory on the little-endian target). -/
def le_bytes : Nat → Nat → List Nat
  | 0, _ => []
  | w + 1, v => (v % 256) :: le_bytes w (v / 256)

/-- Read the `w`-byte little-endian unsigned integer at offset `off` of `mem`
(`*reinterpret_cast<const uintN_t *>(mem + off)`); cells outside `mem` read as zero. -/
def load_le (mem : List Nat) (off : Nat) : Nat → Nat
  | 0 => 0
  | w + 1 => mem.getD off 0 % 256 + 256 * load_le mem (off + 1) w

/-- Read a `uint32_t` at byte offset `off`. -/
def load_u32 (mem : List Nat) (off : Nat) : Nat := load_le mem off 4

/-- Overwrite the cells of `mem` from offset `off` on with `bs`. -/
def store_bytes (mem : List Nat) (off : Nat) (bs : List Nat) : List Nat :=
  mem.take off ++ bs ++ mem.drop (off + bs.length)

/-- Write a `uint32_t` at byte offset `off` (`*reinterpret_cast<uint32_t *>(mem + off) = v`). -/
def store_u32 (mem : List Nat) (off : Nat) (v : Nat) : List Nat :=
  store_bytes mem off (le_bytes 4 v)

/-! ## CRC32 (`dsu_server_t::crc32`) -/

/-- The inner loop `for (k = 0; k < 8; k++) crc = crc & 1 ? (crc >> 1) ^ 0xedb88320 : crc >> 1;`
run for `k` remaining iterations. -/
def crc32_bits : Nat → Nat → Nat
  | 0, crc => crc
  | k + 1, crc =>
    crc32_bits k (if crc &&& 1 ≠ 0 then (crc >>> 1) ^^^ 0xedb88320 else crc >>> 1)

/-- The outer loop `while (n--) { crc ^= *s++; for ... }`: `n` bytes remain, `i` is the offset of
the read pointer `s` into the buffer. -/
def crc32_loop (s : List Nat) : Nat → Nat → Nat → Nat
  | 0, _, crc => crc
  | n + 1, i, crc => crc32_loop s n (i + 1) (crc32_bits 8 (crc ^^^ (s.getD i 0 % 256)))

/-- Function `dsu_server_t::crc32(const unsigned char *s, size_t n)`:
`crc = 0xFFFFFFFF`, the loop, `return ~crc` (complement of a `uint32_t`). -/
def crc32 (s : List Nat) (n : Nat) : Nat :=
  (0xFFFFFFFF - crc32_loop s n 0 0xFFFFFFFF % 2 ^ 32) % 2 ^ 32

/-! ### Reference CRC-32, written from the specification -/

/-- One bit step of the reflected CRC-32: shift right by one and, when the bit shifted out was
set, add (xor) the polynomial `0xEDB88320`. -/
def crc32_spec_bit (r : Nat) : Nat :=
  (r / 2) ^^^ (if r % 2 = 1 then 0xEDB88320 else 0)

/-- One byte step of the reflected CRC-32: the byte is xored into the register and the
polynomial is applied bit by bit, 8 iterations. -/
def crc32_spec_byte (r b : Nat) : Nat :=
  crc32_spec_bit^[8] (r ^^^ b)

/-- The standard reflected CRC-32 of a byte sequence: register seeded at `0xFFFFFFFF`, one byte
step per byte, result complemented (xor with `0xFFFFFFFF`). -/
def crc32_spec (s : List Nat) : Nat :=
  (s.foldl crc32_spec_byte 0xFFFFFFFF) ^^^ 0xFFFFFFFF

/-! ## Wire structures (`dsu_server.h`, laid out under `#pragma pack(push, 1)`) -/

/-- Structure `dsu_header`: `uint32_t magic; uint16_t version; uint16_t length; uint32_t crc32;
uint32_t client_id;`. -/
structure dsu_header where
  magic : Nat
  version : Nat
  length : Nat
  crc32 : Nat
  client_id : Nat
deriving DecidableEq, Repr

/-- Structure `dsu_shared_response`: `uint32_t message_type; uint8_t slot, slot_state,
device_model, connection_type; uint8_t mac_address[6]; uint8_t battery_status;`. -/
structure dsu_shared_response where
  message_type : Nat
  slot : Nat
  slot_state : Nat
  device_model : Nat
  connection_type : Nat
  mac_address : List Nat
  battery_status : Nat
deriving DecidableEq, Repr

/-- Structure `dsu_motion_data`: `uint64_t motion_timestamp;` and six `float`s (bit patterns). -/
structure dsu_motion_data where
  motion_timestamp : Nat
  accelerometer_x : Nat
  accelerometer_y : Nat
  accelerometer_z : Nat
  gyroscope_pitch : Nat
  gyroscope_yaw : Nat
  gyroscope_roll : Nat
deriving DecidableEq, Repr

/-- Structure `dsu_info_response`: header, shared response, one padding byte. -/
structure dsu_info_response where
  header : dsu_header
  shared : dsu_shared_response
  padding : Nat
deriving DecidableEq, Repr

/-- Structure `dsu_data_packet`: header, shared response, the controller data fields and the
motion data. -/
structure dsu_data_packet where
  header : dsu_header
  shared : dsu_shared_response
  connected : Nat
  packet_id : Nat
  extra_buttons : Nat
  main_buttons : Nat
  ps_extra_input : Nat
  left_stick_xy : Nat
  right_stick_xy : Nat
  dpad_analog : Nat
  main_buttons_analog : Nat
  touch1 : List Nat
  touch2 : List Nat
  motion : dsu_motion_data
deriving DecidableEq, Repr

/-- Memory image of a `uint8_t[n]` array held as a list. -/
def array_bytes : Nat → List Nat → List Nat
  | 0, _ => []
  | n + 1, a => (a.headD 0 % 256) :: array_bytes n a.tail

/-- The value of `sizeof(dsu_header)`. -/
def sizeof_dsu_header : Nat := 4 + 2 + 2 + 4 + 4

/-- The value of `sizeof(dsu_shared_response)`. -/
def sizeof_dsu_shared_response : Nat := 4 + 1 + 1 + 1 + 1 + 6 + 1

/-- The value of `sizeof(dsu_motion_data)`. -/
def sizeof_dsu_motion_data : Nat := 8 + 4 + 4 + 4 + 4 + 4 + 4

/-- The value of `sizeof(dsu_info_response)`. -/
def sizeof_dsu_info_response : Nat := sizeof_dsu_header + sizeof_dsu_shared_response + 1

/-- The value of `sizeof(dsu_data_packet)`. -/
def sizeof_dsu_data_packet : Nat :=
  sizeof_dsu_header + sizeof_dsu_shared_response + 1 + 4 + 1 + 1 + 2 + 2 + 2 + 4 + 8 + 6 + 6
    + sizeof_dsu_motion_data

/-- Memory image of a `dsu_header`. -/
def dsu_header.to_bytes (h : dsu_header) : List Nat :=
  le_bytes 4 h.magic ++ le_bytes 2 h.version ++ le_bytes 2 h.length ++ le_bytes 4 h.crc32
    ++ le_bytes 4 h.client_id

/-- Memory image of a `dsu_shared_response`. -/
def dsu_shared_response.to_bytes (r : dsu_shared_response) : List Nat :=
  le_bytes 4 r.message_type ++ le_bytes 1 r.slot ++ le_bytes 1 r.slot_state
    ++ le_bytes 1 r.device_model ++ le_bytes 1 r.connection_type ++ array_bytes 6 r.mac_address
    ++ le_bytes 1 r.battery_status

/-- Memory image of a `dsu_motion_data`. -/
def dsu_motion_data.to_bytes (m : dsu_motion_data) : List Nat :=
  le_bytes 8 m.motion_timestamp ++ le_bytes 4 m.accelerometer_x ++ le_bytes 4 m.accelerometer_y
    ++ le_bytes 4 m.accelerometer_z ++ le_bytes 4 m.gyroscope_pitch ++ le_bytes 4 m.gyroscope_yaw
    ++ le_bytes 4 m.gyroscope_roll

/-- Memory image of a `dsu_info_response`. -/
def dsu_info_response.to_bytes (p : dsu_info_response) : List Nat :=
  p.header.to_bytes ++ p.shared.to_bytes ++ le_bytes 1 p.padding

/-- The controller data fields of a `dsu_data_packet` (`connected` .. `touch2`) in memory. -/
def dsu_data_packet.controller_bytes (p : dsu_data_packet) : List Nat :=
  le_bytes 1 p.connected ++ le_bytes 4 p.packet_id ++ le_bytes 1 p.extra_buttons
    ++ le_bytes 1 p.main_buttons ++ le_bytes 2 p.ps_extra_input ++ le_bytes 2 p.left_stick_xy
    ++ le_bytes 2 p.right_stick_xy ++ le_bytes 4 p.dpad_analog ++ le_bytes 8 p.main_buttons_analog
    ++ array_bytes 6 p.touch1 ++ array_bytes 6 p.touch2

/-- Memory image of a `dsu_data_packet`. -/
def dsu_data_packet.to_bytes (p : dsu_data_packet) : List Nat :=
  p.header.to_bytes ++ p.shared.to_bytes ++ p.controller_bytes ++ p.motion.to_bytes

/-- The all-zero `dsu_header` (after `memset(.., 0, ..)`). -/
def dsu_header.zero : dsu_header :=
  { magic := 0, version := 0, length := 0, crc32 := 0, client_id := 0 }

/-- The all-zero `dsu_shared_response`. -/
def dsu_shared_response.zero : dsu_shared_response :=
  { message_type := 0, slot := 0, slot_state := 0, device_model := 0, connection_type := 0,
    mac_address := List.replicate 6 0, battery_status := 0 }

/-- The all-zero `dsu_motion_data`. -/
def dsu_motion_data.zero : dsu_motion_data :=
  { motion_timestamp := 0, accelerometer_x := 0, accelerometer_y := 0, accelerometer_z := 0,
    gyroscope_pitch := 0, gyroscope_yaw := 0, gyroscope_roll := 0 }

/-- The `dsu_info_response` left by `memset(&info_packet_, 0, sizeof(info_packet_))`. -/
def dsu_info_response.zero : dsu_info_response :=
  { header := dsu_header.zero, shared := dsu_shared_response.zero, padding := 0 }

/-- The `dsu_data_packet` left by `memset(&data_packet_, 0, sizeof(data_packet_))`. -/
def dsu_data_packet.zero : dsu_data_packet :=
  { header := dsu_header.zero, shared := dsu_shared_response.zero, connected := 0, packet_id := 0,
    extra_buttons := 0, main_buttons := 0, ps_extra_input := 0, left_stick_xy := 0,
    right_stick_xy := 0, dpad_analog := 0, main_buttons_analog := 0,
    touch1 := List.replicate 6 0, touch2 := List.replicate 6 0, motion := dsu_motion_data.zero }

/-! ### Reading the wire format back (all integers little-endian, no padding) -/

/-- Decode a `dsu_header` found at offset `off` of packet `p`. -/
def dsu_header.of_bytes (p : List Nat) (off : Nat) : dsu_header :=
  { magic := load_le p off 4, version := load_le p (off + 4) 2, length := load_le p (off + 6) 2,
    crc32 := load_le p (off + 8) 4, client_id := load_le p (off + 12) 4 }

/-- Decode a `dsu_shared_response` found at offset `off` of packet `p`. -/
def dsu_shared_response.of_bytes (p : List Nat) (off : Nat) : dsu_shared_response :=
  { message_type := load_le p off 4, slot := load_le p (off + 4) 1,
    slot_state := load_le p (off + 5) 1, device_model := load_le p (off + 6) 1,
    connection_type := load_le p (off + 7) 1, mac_address := (p.drop (off + 8)).take 6,
    battery_status := load_le p (off + 14) 1 }

/-- Decode a `dsu_motion_data` found at offset `off` of packet `p`. -/
def dsu_motion_data.of_bytes (p : List Nat) (off : Nat) : dsu_motion_data :=
  { motion_timestamp := load_le p off 8, accelerometer_x := load_le p (off + 8) 4,
    accelerometer_y := load_le p (off + 12) 4, accelerometer_z := load_le p (off + 16) 4,
    gyroscope_pitch := load_le p (off + 20) 4, gyroscope_yaw := load_le p (off + 24) 4,
    gyroscope_roll := load_le p (off + 28) 4 }

/-- Decode an INFO response packet. -/
def dsu_info_response.of_bytes (p : List Nat) : dsu_info_response :=
  { header := dsu_header.of_bytes p 0, shared := dsu_shared_response.of_bytes p 16,
    padding := load_le p 31 1 }

/-- Decode a DATA response packet. -/
def dsu_data_packet.of_bytes (p : List Nat) : dsu_data_packet :=
  { header := dsu_header.of_bytes p 0, shared := dsu_shared_response.of_bytes p 16,
    connected := load_le p 31 1, packet_id := load_le p 32 4, extra_buttons := load_le p 36 1,
    main_buttons := load_le p 37 1, ps_extra_input := load_le p 38 2,
    left_stick_xy := load_le p 40 2, right_stick_xy := load_le p 42 2,
    dpad_analog := load_le p 44 4, main_buttons_analog := load_le p 48 8,
    touch1 := (p.drop 56).take 6, touch2 := (p.drop 62).take 6,
    motion := dsu_motion_data.of_bytes p 68 }

/-! ## Floats as binary32 bit patterns -/

/-- Unary minus on a `float`: the sign bit is flipped. -/
def f32_neg (x : Nat) : Nat := (x % 2 ^ 32) ^^^ 0x80000000

/-- The test `x != 0.0f`: false exactly for the patterns of `+0.0f` and `-0.0f`. -/
def f32_ne_zero (x : Nat) : Bool := x % 2 ^ 31 != 0

/-- The number a binary32 bit pattern stands for (sign bit 31, exponent bits 30..23, fraction
bits 22..0); `none` for infinities and NaN. -/
def f32_value (x : Nat) : Option ℚ :=
  let sign : ℚ := if x / 2 ^ 31 % 2 = 1 then -1 else 1
  let e : Nat := x / 2 ^ 23 % 256
  let f : Nat := x % 2 ^ 23
  if e = 255 then none
  else if e = 0 then some (sign * (f : ℚ) / 2 ^ 149)
  else some (sign * ((2 ^ 23 + f : Nat) : ℚ) * 2 ^ e / 2 ^ 150)

/-! ## Ordered maps (`std::map`) as association lists kept in key order -/

/-- Lookup `m.find(k)`: the value stored under `k`, if any. -/
def map_find {K V : Type} [DecidableEq K] (k : K) : List (K × V) → Option V
  | [] => none
  | (k', v) :: rest => if k' = k then some v else map_find k rest

/-- Assignment `m[k] = v`: overwrite the value under `k`, or insert it at its place in key order. -/
def map_assign {K V : Type} [DecidableEq K] [LT K] [DecidableRel (fun a b : K => a < b)]
    (k : K) (v : V) : List (K × V) → List (K × V)
  | [] => [(k, v)]
  | (k', v') :: rest =>
    if k' = k then (k, v) :: rest
    else if k < k' then (k, v) :: (k', v') :: rest
    else (k', v') :: map_assign k v rest

/-- In-place update through an iterator obtained from `m.find(k)`: `f` is applied to the value
stored under `k`. -/
def map_modify {K V : Type} [DecidableEq K] (k : K) (f : V → V) : List (K × V) → List (K × V)
  | [] => []
  | (k', v) :: rest => if k' = k then (k', f v) :: rest else (k', v) :: map_modify k f rest

/-! ## Server state (`class dsu_server_t`) -/

/-- An endpoint `boost::asio::ip::udp::endpoint` of the IPv4 socket: address (as a 32-bit
number, most significant byte first in dotted notation) and port. -/
structure udp_endpoint where
  address : Nat
  port : Nat
deriving DecidableEq, Repr

/-- Structure `client_info_t`; `sendTimeout` is an `int`. -/
structure client_info_t where
  endpoint : udp_endpoint
  last_seen : Nat
  controller_id : Nat
  client_id : Nat
  sendTimeout : Int
deriving DecidableEq, Repr

/-- Constructor `client_info_t(ep, ctrl_id, cli_id)`: `last_seen` is the current time and
`sendTimeout` is 0. -/
def client_info_t.init (ep : udp_endpoint) (ctrl_id cli_id now : Nat) : client_info_t :=
  { endpoint := ep, last_seen := now, controller_id := ctrl_id, client_id := cli_id,
    sendTimeout := 0 }

/-- Structure `motion_data_t`; the six `float`s are bit patterns. -/
structure motion_data_t where
  accel_x : Nat
  accel_y : Nat
  accel_z : Nat
  gyro_x : Nat
  gyro_y : Nat
  gyro_z : Nat
  last_update : Nat
  has_accel : Bool
  has_gyro : Bool
deriving DecidableEq, Repr

/-- Default member initialisers of `motion_data_t`: all values `0.0f`, both flags false,
`last_update` the current time. -/
def motion_data_t.init (now : Nat) : motion_data_t :=
  { accel_x := 0, accel_y := 0, accel_z := 0, gyro_x := 0, gyro_y := 0, gyro_z := 0,
    last_update := now, has_accel := false, has_gyro := false }

/-- Constant `MAX_PACKET_SIZE`. -/
def MAX_PACKET_SIZE : Nat := 100

/-- Constant `CLIENT_TIMEOUT`. -/
def CLIENT_TIMEOUT : Int := 40

/-- Constant `DSU_PROTOCOL_VERSION`. -/
def DSU_PROTOCOL_VERSION : Nat := 1001

/-- Constant `DSU_MESSAGE_TYPE_INFO`. -/
def DSU_MESSAGE_TYPE_INFO : Nat := 0x100001

/-- Constant `DSU_MESSAGE_TYPE_DATA`. -/
def DSU_MESSAGE_TYPE_DATA : Nat := 0x100002

/-- The data members of `dsu_server_t` that the modelled operations touch, and the trace `sent`
of everything handed to `socket_.send_to` (oldest first). -/
structure dsu_server_t where
  socket_open : Bool
  remote_endpoint_ : udp_endpoint
  recv_buffer_ : List Nat
  clients_ : List (String × client_info_t)
  motion_data_ : List (Nat × motion_data_t)
  info_packet_ : dsu_info_response
  data_packet_ : dsu_data_packet
  server_thread_ : Bool
  running_ : Bool
  port_ : Nat
  packet_counter_ : Nat
  sent : List (udp_endpoint × List Nat)
deriving DecidableEq, Repr

/-- Constructor `dsu_server_t(port)`: `recv_buffer_(MAX_PACKET_SIZE)`, `running_(false)`,
`packet_counter_(0)`, empty maps, closed socket, no thread. -/
def dsu_server_t.init (port : Nat) : dsu_server_t :=
  { socket_open := false, remote_endpoint_ := { address := 0, port := 0 },
    recv_buffer_ := List.replicate MAX_PACKET_SIZE 0, clients_ := [], motion_data_ := [],
    info_packet_ := dsu_info_response.zero, data_packet_ := dsu_data_packet.zero,
    server_thread_ := false, running_ := false, port_ := port, packet_counter_ := 0, sent := [] }

/-- Member `is_running()`. -/
def is_running (s : dsu_server_t) : Bool := s.running_

/-- Member `get_client_count()`: `clients_.size()`. -/
def get_client_count (s : dsu_server_t) : Nat := s.clients_.length

/-- Dotted decimal form of an IPv4 address (`address().to_string()`). -/
def address_to_string (a : Nat) : String :=
  toString (a / 2 ^ 24 % 256) ++ "." ++ toString (a / 2 ^ 16 % 256) ++ "."
    ++ toString (a / 2 ^ 8 % 256) ++ "." ++ toString (a % 256)

/-- Function `generate_client_key`: `address().to_string() + ":" + std::to_string(port())`. -/
def generate_client_key (client_endpoint : udp_endpoint) : String :=
  address_to_string client_endpoint.address ++ ":" ++ toString client_endpoint.port

/-! ## Sending -/

/-- Function `send_packet_to_client`: the first `size` bytes of `data` are handed to
`socket_.send_to` for `client_endpoint` (a failure of the transport is logged and swallowed). -/
def send_packet_to_client (s : dsu_server_t) (client_endpoint : udp_endpoint) (data : List Nat)
    (size : Nat) : dsu_server_t :=
  { s with sent := s.sent ++ [(client_endpoint, data.take size)] }

/-- Function `parse_client_id`: `*reinterpret_cast<const uint32_t *>(data + 8)`. -/
def parse_client_id (data : List Nat) : Nat := load_u32 data 8

/-- Function `send_packet_with_crc`: `*crc32_ptr = 0; *crc32_ptr = crc32(packet, packet_size);`
with `crc32_ptr` at byte offset 8, then `send_packet_to_client`. Returns the new server state and
the packet memory as the call leaves it. -/
def send_packet_with_crc (s : dsu_server_t) (client_endpoint : udp_endpoint) (packet : List Nat)
    (packet_size : Nat) : dsu_server_t × List Nat :=
  let packet0 := store_u32 packet 8 0
  let packet1 := store_u32 packet0 8 (crc32 packet0 packet_size)
  (send_packet_to_client s client_endpoint packet1 packet_size, packet1)

/-! ## Request handling -/

/-- The packet `handle_info_request` builds in `info_packet_` before it is stamped and sent:
`memset` to zero (which is what `header.crc32` keeps), then one assignment per field; the
hardware address is zeroed and its byte 0 then set to 1. -/
def build_info_packet (client_id slot : Nat) : dsu_info_response :=
  { header :=
      { magic := 0x53555344,
        version := DSU_PROTOCOL_VERSION % 2 ^ 16,
        length := (sizeof_dsu_info_response - sizeof_dsu_header) % 2 ^ 16,
        crc32 := 0,
        client_id := client_id },
    shared :=
      { message_type := DSU_MESSAGE_TYPE_INFO,
        slot := slot,
        slot_state := 2,
        device_model := 2,
        connection_type := 2,
        mac_address := (List.replicate 6 0).set 0 1,
        battery_status := 2 },
    padding := 0 }

/-- Function `handle_info_request(client_endpoint, data, size)`. -/
def handle_info_request (s : dsu_server_t) (client_endpoint : udp_endpoint) (data : List Nat)
    (size : Nat) : dsu_server_t :=
  if size < 20 then s
  else
    let client_id := parse_client_id data
    let slot := data.getD (16 + 4) 0 % 256
    let p := build_info_packet client_id slot
    let (s1, mem) := send_packet_with_crc s client_endpoint p.to_bytes sizeof_dsu_info_response
    { s1 with info_packet_ := { p with header := { p.header with crc32 := load_u32 mem 8 } } }

/-- Function `handle_data_request(client_endpoint, data, size)`. -/
def handle_data_request (s : dsu_server_t) (client_endpoint : udp_endpoint) (data : List Nat)
    (size : Nat) (now : Nat) : dsu_server_t :=
  if size < 20 then s
  else
    let client_id := parse_client_id data
    let slot := data.getD (16 + 4) 0 % 256
    let controller_id := slot
    let client_key := generate_client_key client_endpoint
    match map_find client_key s.clients_ with
    | none =>
      let info := client_info_t.init client_endpoint controller_id client_id now
      { s with clients_ := map_assign client_key info s.clients_ }
    | some _ =>
      let reset := fun (ci : client_info_t) => { ci with sendTimeout := 0 }
      { s with clients_ := map_modify client_key reset s.clients_ }

/-- Function `handle_receive_sync(ec, bytes_transferred)`; `ec` tells whether an error code is
set. The datagram lies in `recv_buffer_`, its sender in `remote_endpoint_`. -/
def handle_receive_sync (s : dsu_server_t) (ec : Bool) (bytes_transferred : Nat) (now : Nat) :
    dsu_server_t :=
  if !s.running_ then s
  else if ec then s
  else if bytes_transferred < 4 then s
  else if bytes_transferred < 16 then s
  else
    let message_type := load_u32 s.recv_buffer_ 16
    if message_type = DSU_MESSAGE_TYPE_INFO then
      handle_info_request s s.remote_endpoint_ s.recv_buffer_ bytes_transferred
    else if message_type = DSU_MESSAGE_TYPE_DATA then
      handle_data_request s s.remote_endpoint_ s.recv_buffer_ bytes_transferred now
    else s

/-- A successful `socket_.receive_from(buffer(recv_buffer_), remote_endpoint_, 0, ec)` for a
datagram `datagram` sent by `sender`: the datagram, cut to the buffer size, overwrites the start
of `recv_buffer_` (the rest of the buffer keeps its content) and `remote_endpoint_` is set.
Returns the new state and `bytes_transferred`. -/
def receive_from (s : dsu_server_t) (sender : udp_endpoint) (datagram : List Nat) :
    dsu_server_t × Nat :=
  let received := datagram.take s.recv_buffer_.length
  ({ s with recv_buffer_ := store_bytes s.recv_buffer_ 0 received, remote_endpoint_ := sender },
    received.length)

/-- One pass of `server_loop` in which a datagram arrives: `receive_from` without error, then
`handle_receive_sync(ec, bytes_transferred)`. -/
def server_loop_receive (s : dsu_server_t) (sender : udp_endpoint) (datagram : List Nat)
    (now : Nat) : dsu_server_t :=
  let (s1, bytes_transferred) := receive_from s sender datagram
  handle_receive_sync s1 false bytes_transferred now

/-! ## Motion data -/

/-- The packet `send_motion_data` builds in `data_packet_` from the cache entry `motion` before
the per-client fields are filled in: `memset` to zero, then one assignment per field.
`last_update` is converted to microseconds; `slot` is a `uint8_t`. -/
def build_data_packet (controller_id : Nat) (motion : motion_data_t) : dsu_data_packet :=
  { header :=
      { magic := 0x53555344,
        version := DSU_PROTOCOL_VERSION % 2 ^ 16,
        length := (sizeof_dsu_data_packet - sizeof_dsu_header) % 2 ^ 16,
        crc32 := 0,
        client_id := 0 },
    shared :=
      { message_type := DSU_MESSAGE_TYPE_DATA,
        slot := controller_id % 2 ^ 8,
        slot_state := 2,
        device_model := 2,
        connection_type := 1,
        mac_address := List.replicate 6 0,
        battery_status := 0 },
    connected := 1,
    packet_id := 0,
    extra_buttons := 0,
    main_buttons := 0,
    ps_extra_input := 0,
    left_stick_xy := 0,
    right_stick_xy := 0,
    dpad_analog := 0,
    main_buttons_analog := 0,
    touch1 := List.replicate 6 0,
    touch2 := List.replicate 6 0,
    motion :=
      { motion_timestamp := motion.last_update / 1000 % 2 ^ 64,
        accelerometer_x := f32_neg motion.accel_x,
        accelerometer_y := f32_neg motion.accel_z,
        accelerometer_z := motion.accel_y,
        gyroscope_pitch := motion.gyro_x,
        gyroscope_yaw := f32_neg motion.gyro_y,
        gyroscope_roll := motion.gyro_z } }

/-- Body of the loop `for (const auto &[client_key, client_info] : clients_)` of
`send_motion_data`: per-client header field, `++packet_counter_`, stamp and send. -/
def send_motion_data_to (s : dsu_server_t) (client_info : client_info_t) : dsu_server_t :=
  let p := s.data_packet_
  let p := { p with header := { p.header with client_id := client_info.client_id } }
  let counter := (s.packet_counter_ + 1) % 2 ^ 32
  let s := { s with packet_counter_ := counter }
  let p := { p with packet_id := counter }
  let (s1, mem) := send_packet_with_crc s client_info.endpoint p.to_bytes sizeof_dsu_data_packet
  { s1 with data_packet_ := { p with header := { p.header with crc32 := load_u32 mem 8 } } }

/-- The cache update of `send_motion_data`: the entry `motion_data_[controller_id]` with
`last_update` refreshed and each axis group overwritten when its triple is not all `0.0f`. -/
def update_motion (motion : motion_data_t) (accel_x accel_y accel_z gyro_x gyro_y gyro_z : Nat)
    (now : Nat) : motion_data_t :=
  let motion := { motion with last_update := now }
  let motion :=
    if f32_ne_zero accel_x || f32_ne_zero accel_y || f32_ne_zero accel_z then
      { motion with accel_x := accel_x, accel_y := accel_y, accel_z := accel_z, has_accel := true }
    else motion
  if f32_ne_zero gyro_x || f32_ne_zero gyro_y || f32_ne_zero gyro_z then
    { motion with gyro_x := gyro_x, gyro_y := gyro_y, gyro_z := gyro_z, has_gyro := true }
  else motion

/-- Function `send_motion_data(controller_id, accel_x, accel_y, accel_z, gyro_x, gyro_y, gyro_z)`.
The entry `motion_data_[controller_id]` is created with default values when absent. -/
def send_motion_data (s : dsu_server_t) (controller_id : Nat)
    (accel_x accel_y accel_z gyro_x gyro_y gyro_z : Nat) (now : Nat) : dsu_server_t :=
  if !s.running_ || s.clients_.isEmpty then s
  else
    let entry := (map_find controller_id s.motion_data_).getD (motion_data_t.init now)
    let motion := update_motion entry accel_x accel_y accel_z gyro_x gyro_y gyro_z now
    let s := { s with motion_data_ := map_assign controller_id motion s.motion_data_ }
    if !motion.has_accel && !motion.has_gyro then s
    else
      let s := { s with data_packet_ := build_data_packet controller_id motion }
      if s.clients_.isEmpty then s
      else s.clients_.foldl (fun st kv => send_motion_data_to st kv.2) s

/-! ## Vocabulary of the statements -/

/-- Stamping as the specification words it: the CRC32 is computed over the complete packet with
the 4-byte CRC field (offsets 8..11) zeroed, and is written into that field, little-endian. -/
def stamp (p : List Nat) : List Nat :=
  p.take 8 ++ le_bytes 4 (crc32 (p.take 8 ++ [0, 0, 0, 0] ++ p.drop 12) p.length) ++ p.drop 12

/-- What was handed to the transport between state `before` and the later state `after`. -/
def sent_during (before after : dsu_server_t) : List (udp_endpoint × List Nat) :=
  after.sent.drop before.sent.length

/-- The DATA response sent to one client: the packet `base` prepared by `send_motion_data` with
the client's id in the header and `packet_id` filled in, stamped. -/
def data_response (base : dsu_data_packet) (client_id packet_id : Nat) : List Nat :=
  stamp ({ base with header := { base.header with client_id := client_id },
                     packet_id := packet_id }).to_bytes

/-- The datagrams one pass over the sessions `clients` hands to the transport, in iteration
order, when the packet counter is `counter` before the pass. -/
def broadcast (base : dsu_data_packet) :
    Nat → List (String × client_info_t) → List (udp_endpoint × List Nat)
  | _, [] => []
  | counter, kv :: rest =>
    (kv.2.endpoint, data_response base kv.2.client_id ((counter + 1) % 2 ^ 32))
      :: broadcast base ((counter + 1) % 2 ^ 32) rest

/-! ## Scenario data -/

/-- A server as a successful `start()` leaves a freshly constructed one: socket open, loop
thread started, `running_` set. -/
def running_server : dsu_server_t :=
  { dsu_server_t.init 26760 with socket_open := true, server_thread_ := true, running_ := true }

/-- A client endpoint, 127.0.0.1:5000. -/
def client_E : udp_endpoint := { address := 0x7F000001, port := 5000 }

/-- The 20-byte INFO request of Scenario A: magic "DSUC", version 1001, length 4, a valid CRC32
(0x9604658A) at offsets 8..11, `client_id = 0x11223344` at offsets 12..15, message type
0x100001 at offsets 16..19. -/
def scenario_A_request : List Nat :=
  [0x44, 0x53, 0x55, 0x43, 0xE9, 0x03, 0x04, 0x00, 0x8A, 0x65, 0x04, 0x96,
   0x44, 0x33, 0x22, 0x11, 0x01, 0x00, 0x10, 0x00]

/-- An INFO request that carries a slot byte (3) at offset 20. -/
def info_request_slot3 : List Nat :=
  [0x44, 0x53, 0x55, 0x43, 0xE9, 0x03, 0x08, 0x00, 0x00, 0x00, 0x00, 0x00,
   0x44, 0x33, 0x22, 0x11, 0x01, 0x00, 0x10, 0x00, 0x03, 0x00, 0x00, 0x00]

/-- A DATA request from a client with `client_id = 0x11223344` (offsets 12..15), a valid CRC32
(0x21A220EE) at offsets 8..11, message type 0x100002 and slot byte 0 at offset 20. -/
def scenario_B_request : List Nat :=
  [0x44, 0x53, 0x55, 0x43, 0xE9, 0x03, 0x05, 0x00, 0xEE, 0x20, 0xA2, 0x21,
   0x44, 0x33, 0x22, 0x11, 0x02, 0x00, 0x10, 0x00, 0x00]

/-- A second DATA request with other field values: client id `0xAABBCCDD` at offsets 12..15,
bytes `1,2,3,4` at offsets 8..11 and slot byte 5. -/
def other_data_request : List Nat :=
  [0x44, 0x53, 0x55, 0x43, 0xE9, 0x03, 0x05, 0x00, 0x01, 0x02, 0x03, 0x04,
   0xDD, 0xCC, 0xBB, 0xAA, 0x02, 0x00, 0x10, 0x00, 0x05]

/-- The server of Scenario B: `client_E` has registered with its DATA request. -/
def scenario_B_server : dsu_server_t :=
  server_loop_receive running_server client_E scenario_B_request 0

/-- The sample of Scenario B, the floats 1, 2, 3 (accelerometer) and 4, 5, 6 (gyroscope), pushed
for controller 0 at time 7000 ns. -/
def scenario_B_after : dsu_server_t :=
  send_motion_data scenario_B_server 0 0x3F800000 0x40000000 0x40400000 0x40800000 0x40A00000
    0x40C00000 7000

/-- The 100 bytes of the DATA response of Scenario B. -/
def scenario_B_response : List Nat :=
  [0x44, 0x53, 0x55, 0x53, 0xE9, 0x03, 0x54, 0x00, 0xDD, 0xFA, 0xA4, 0x74, 0xEE, 0x20, 0xA2, 0x21,
   0x02, 0x00, 0x10, 0x00, 0x00, 0x02, 0x02, 0x01, 0x00, 0x00, 0x00, 0x00, 0x00, 0x00, 0x00,
   0x01, 0x01, 0x00, 0x00, 0x00, 0x00, 0x00, 0x00, 0x00, 0x00, 0x00, 0x00, 0x00, 0x00, 0x00, 0x00,
   0x00, 0x00, 0x00, 0x00, 0x00, 0x00, 0x00, 0x00, 0x00, 0x00, 0x00, 0x00, 0x00, 0x00, 0x00, 0x00,
   0x00, 0x00, 0x00, 0x00, 0x00,
   0x07, 0x00, 0x00, 0x00, 0x00, 0x00, 0x00, 0x00,
   0x00, 0x00, 0x80, 0xBF, 0x00, 0x00, 0x40, 0xC0, 0x00, 0x00, 0x00, 0x40,
   0x00, 0x00, 0x80, 0x40, 0x00, 0x00, 0xA0, 0xC0, 0x00, 0x00, 0xC0, 0x40]

/-- The 32 bytes of the INFO response of Scenario A as the server sends it. -/
def scenario_A_response : List Nat :=
  [0x44, 0x53, 0x55, 0x53, 0xE9, 0x03, 0x10, 0x00, 0xE5, 0x47, 0x7C, 0xA7, 0x8A, 0x65, 0x04, 0x96,
   0x01, 0x00, 0x10, 0x00, 0x00, 0x02, 0x02, 0x02, 0x01, 0x00, 0x00, 0x00, 0x00, 0x00, 0x02, 0x00]

/-! ## Session ageing, activity, start and stop -/

/-- A value brought into the range of a 32-bit `int` (two's complement wrap-around). -/
def int32_wrap (x : Int) : Int := (x + 2 ^ 31) % 2 ^ 32 - 2 ^ 31

/-- The loop of `cleanup_timeout_clients` over the entries of `clients_` in iteration order:
`sendTimeout++`, then the entry is erased when `sendTimeout >= CLIENT_TIMEOUT`. The counter is
an `int`: the increment is taken with 32-bit wrap-around (incrementing `INT_MAX` is undefined in
the source language). -/
def cleanup_loop : List (String × client_info_t) → List (String × client_info_t)
  | [] => []
  | (key, info) :: rest =>
    let info1 := { info with sendTimeout := int32_wrap (info.sendTimeout + 1) }
    if info1.sendTimeout ≥ CLIENT_TIMEOUT then cleanup_loop rest
    else (key, info1) :: cleanup_loop rest

/-- Function `cleanup_timeout_clients()`. -/
def cleanup_timeout_clients (s : dsu_server_t) : dsu_server_t :=
  { s with clients_ := cleanup_loop s.clients_ }

/-- Function `update_clients_activity(client_endpoints)`: for every listed endpoint that has an
entry in `clients_`, `last_seen` is set to the current time. -/
def update_clients_activity (s : dsu_server_t) (client_endpoints : List udp_endpoint)
    (now : Nat) : dsu_server_t :=
  client_endpoints.foldl
    (fun st endpoint =>
      let client_key := generate_client_key endpoint
      match map_find client_key st.clients_ with
      | some _ =>
        let touch := fun (ci : client_info_t) => { ci with last_seen := now }
        { st with clients_ := map_modify client_key touch st.clients_ }
      | none => st)
    s

/-- Function `stop()`: nothing when not running; otherwise `running_ = false`, the socket is
closed, the loop thread is joined and `clients_` is cleared. -/
def stop (s : dsu_server_t) : dsu_server_t :=
  if !s.running_ then s
  else { s with running_ := false, socket_open := false, server_thread_ := false, clients_ := [] }

/-- Function `start()`, returning the new state and the return value. `open_ok`, `options_ok`
and `bind_ok` tell whether `socket_.open`, the option calls (`set_option`, `non_blocking`) and
`socket_.bind` succeed in the environment; `socket_.open` also throws when the socket is already
open. Every exception is caught and turned into the return value -1, leaving the members as
they are at the throw. -/
def start (s : dsu_server_t) (open_ok options_ok bind_ok : Bool) : dsu_server_t × Int :=
  if s.running_ then (s, 0)
  else if s.socket_open || !open_ok then (s, -1)
  else
    let s1 := { s with socket_open := true }
    if !options_ok then (s1, -1)
    else if !bind_ok then (s1, -1)
    else ({ s1 with running_ := true, server_thread_ := true }, 0)

/-- What can happen to a server: a datagram is received by the loop, the loop runs its cleanup
tick, the producer pushes a sample, a caller reports client activity, or the server is started
or stopped. -/
inductive server_op where
  | receive (sender : udp_endpoint) (datagram : List Nat) (now : Nat)
  | cleanup
  | motion (controller_id accel_x accel_y accel_z gyro_x gyro_y gyro_z now : Nat)
  | activity (client_endpoints : List udp_endpoint) (now : Nat)
  | start (open_ok options_ok bind_ok : Bool)
  | stop
deriving Repr

/-- The state after one operation. -/
def server_step (s : dsu_server_t) : server_op → dsu_server_t
  | .receive sender datagram now => server_loop_receive s sender datagram now
  | .cleanup => cleanup_timeout_clients s
  | .motion controller_id accel_x accel_y accel_z gyro_x gyro_y gyro_z now =>
    send_motion_data s controller_id accel_x accel_y accel_z gyro_x gyro_y gyro_z now
  | .activity client_endpoints now => update_clients_activity s client_endpoints now
  | .start open_ok options_ok bind_ok => (start s open_ok options_ok bind_ok).1
  | .stop => stop s

/-- The state after a sequence of operations. -/
def server_run (s : dsu_server_t) (ops : List server_op) : dsu_server_t :=
  ops.foldl server_step s

/-- The state after `k` consecutive cleanup ticks. -/
def cleanup_ticks (k : Nat) (s : dsu_server_t) : dsu_server_t :=
  cleanup_timeout_clients^[k] s

/-- Whether an operation is none of: a DATA request of endpoint `e` (a datagram of at least 20
bytes from `e` whose message type is `DSU_MESSAGE_TYPE_DATA`), a datagram from a sender whose
address is not an IPv4 address, `stop()`. -/
def leaves_alone (e : udp_endpoint) : server_op → Bool
  | .receive sender datagram _ =>
    (decide (sender ≠ e) && decide (sender.address < 2 ^ 32))
      || decide (datagram.length < 20)
      || decide (load_u32 datagram 16 ≠ DSU_MESSAGE_TYPE_DATA)
  | .stop => false
  | _ => true

/-- The number of cleanup ticks in a sequence of operations. -/
def count_ticks : List server_op → Nat
  | [] => 0
  | .cleanup :: rest => count_ticks rest + 1
  | _ :: rest => count_ticks rest

/-- The packet ids of the DATA responses (the datagrams of `sizeof(dsu_data_packet)` bytes)
among what was handed to the transport, oldest first. -/
def data_packet_ids (out : List (udp_endpoint × List Nat)) : List Nat :=
  (out.filter (fun q => decide (q.2.length = sizeof_dsu_data_packet))).map
    (fun q => (dsu_data_packet.of_bytes q.2).packet_id)

/-- Whether an operation is a `send_motion_data` call for controller `c` whose accelerometer
triple is not all `0.0f`. -/
def supplies_accel (c : Nat) : server_op → Bool
  | .motion controller_id accel_x accel_y accel_z _ _ _ _ =>
    decide (controller_id = c) && (f32_ne_zero accel_x || f32_ne_zero accel_y || f32_ne_zero accel_z)
  | _ => false

/-- Whether an operation is a `send_motion_data` call for controller `c` whose gyroscope triple
is not all `0.0f`. -/
def supplies_gyro (c : Nat) : server_op → Bool
  | .motion controller_id _ _ _ gyro_x gyro_y gyro_z _ =>
    decide (controller_id = c) && (f32_ne_zero gyro_x || f32_ne_zero gyro_y || f32_ne_zero gyro_z)
  | _ => false

/-! ## Offsets read while parsing, and the registry invariant -/

/-- The offsets `parse_client_id` reads: the four bytes of `*(const uint32_t *)(data + 8)`. -/
def parse_client_id_reads : List Nat := [8, 9, 10, 11]

/-- The offsets of `data` that `handle_info_request(client_endpoint, data, size)` reads, in
order: none when `size < 20`, else those of `parse_client_id(data)` and `*(data + 16 + 4)`. -/
def handle_info_request_reads (size : Nat) : List Nat :=
  if size < 20 then [] else parse_client_id_reads ++ [16 + 4]

/-- The offsets of `data` that `handle_data_request(client_endpoint, data, size)` reads. -/
def handle_data_request_reads (size : Nat) : List Nat :=
  if size < 20 then [] else parse_client_id_reads ++ [16 + 4]

/-- The offsets of `recv_buffer_` that `handle_receive_sync(ec, bytes_transferred)` reads, in
order: after the checks `bytes_transferred < 4` and `bytes_transferred < 16`, the four bytes of
`*(const uint32_t *)(recv_buffer_.data() + 16)`, then those of the handler the message type
selects. -/
def handle_receive_sync_reads (s : dsu_server_t) (ec : Bool) (bytes_transferred : Nat) :
    List Nat :=
  if !s.running_ then []
  else if ec then []
  else if bytes_transferred < 4 then []
  else if bytes_transferred < 16 then []
  else
    let message_type := load_u32 s.recv_buffer_ 16
    [16, 17, 18, 19] ++
      (if message_type = DSU_MESSAGE_TYPE_INFO then handle_info_request_reads bytes_transferred
       else if message_type = DSU_MESSAGE_TYPE_DATA then
         handle_data_request_reads bytes_transferred
       else [])

/-- The registry as the operations keep it: empty while the server is not running, one entry
per key, every entry stored under the key of its endpoint with an idle counter from 0 to 39. -/
def registry_invariant (s : dsu_server_t) : Prop :=
  (s.running_ = false → s.clients_ = []) ∧
  (s.clients_.map Prod.fst).Nodup ∧
  ∀ kv ∈ s.clients_, kv.1 = generate_client_key kv.2.endpoint ∧
    0 ≤ kv.2.sendTimeout ∧ kv.2.sendTimeout ≤ 39

/-- Whether an operation is a cleanup tick or an `update_clients_activity` call. -/
def activity_or_cleanup : server_op → Bool
  | .cleanup => true
  | .activity _ _ => true
  | _ => false

/-! # Theorems -/

/-! ## Little-endian words and memory -/

theorem le_bytes_length (w v : Nat) : (le_bytes w v).length = w := by
  induction w generalizing v with
  | zero => rfl
  | succ w ih => simp [le_bytes, ih]

theorem load_le_append_left (pre l : List Nat) (off w : Nat) :
    load_le (pre ++ l) (pre.length + off) w = load_le l off w := by
  induction w generalizing off with
  | zero => rfl
  | succ w ih =>
    have hget : (pre ++ l).getD (pre.length + off) 0 = l.getD off 0 := by
      rw [List.getD_eq_getElem?_getD, List.getD_eq_getElem?_getD,
        List.getElem?_append_right (Nat.le_add_right _ _)]
      simp
    rw [load_le, load_le, hget, Nat.add_assoc, ih]

theorem load_le_append_right (l post : List Nat) (off w : Nat) (h : off + w ≤ l.length) :
    load_le (l ++ post) off w = load_le l off w := by
  induction w generalizing off with
  | zero => rfl
  | succ w ih =>
    have hget : (l ++ post).getD off 0 = l.getD off 0 := by
      rw [List.getD_eq_getElem?_getD, List.getD_eq_getElem?_getD,
        List.getElem?_append_left (by omega)]
    rw [load_le, load_le, hget, ih (off + 1) (by omega)]

theorem load_le_take (l : List Nat) (n off w : Nat) (h : off + w ≤ n) :
    load_le (l.take n) off w = load_le l off w := by
  induction w generalizing off with
  | zero => rfl
  | succ w ih =>
    have hget : (l.take n).getD off 0 = l.getD off 0 := by
      rw [List.getD_eq_getElem?_getD, List.getD_eq_getElem?_getD,
        List.getElem?_take_of_lt (by omega)]
    rw [load_le, load_le, hget, ih (off + 1) (by omega)]

theorem load_le_le_bytes (w v : Nat) (post : List Nat) :
    load_le (le_bytes w v ++ post) 0 w = v % 256 ^ w := by
  induction w generalizing v with
  | zero => simp [load_le, Nat.mod_one]
  | succ w ih =>
    have hshift : load_le (v % 256 :: (le_bytes w (v / 256) ++ post)) (0 + 1) w
        = load_le (le_bytes w (v / 256) ++ post) 0 w :=
      load_le_append_left [v % 256] _ 0 w
    rw [le_bytes, List.cons_append, load_le, hshift, ih, pow_succ, Nat.mul_comm (256 ^ w) 256,
      Nat.mod_mul]
    simp

theorem store_bytes_middle (pre mid post bs : List Nat) (off : Nat) (hoff : pre.length = off)
    (hlen : bs.length = mid.length) :
    store_bytes (pre ++ mid ++ post) off bs = pre ++ bs ++ post := by
  subst hoff
  have hassoc : pre ++ mid ++ post = pre ++ (mid ++ post) := List.append_assoc _ _ _
  unfold store_bytes
  rw [hassoc, List.take_left, List.drop_append, hlen, List.drop_left, List.append_assoc]

theorem split_at_crc_field (p : List Nat) (h : 12 ≤ p.length) :
    p = p.take 8 ++ (p.drop 8).take 4 ++ p.drop 12 ∧ (p.take 8).length = 8 ∧
      ((p.drop 8).take 4).length = 4 := by
  refine ⟨?_, ?_, ?_⟩
  · have h1 : p.drop 12 = (p.drop 8).drop 4 := by rw [List.drop_drop]
    rw [h1, List.append_assoc, List.take_append_drop, List.take_append_drop]
  · simp; omega
  · simp; omega

theorem store_u32_crc_field (p : List Nat) (h : 12 ≤ p.length) (v : Nat) :
    store_u32 p 8 v = p.take 8 ++ le_bytes 4 v ++ p.drop 12 := by
  obtain ⟨hsplit, h8, h4⟩ := split_at_crc_field p h
  unfold store_u32
  conv_lhs => rw [hsplit]
  exact store_bytes_middle _ _ _ _ 8 h8 (by rw [le_bytes_length, h4])

theorem crc32_lt (s : List Nat) (n : Nat) : crc32 s n < 2 ^ 32 := by
  unfold crc32
  exact Nat.mod_lt _ (by norm_num)

theorem send_packet_with_crc_eq (s : dsu_server_t) (e : udp_endpoint) (p : List Nat)
    (h : 12 ≤ p.length) :
    send_packet_with_crc s e p p.length
      = ({ s with sent := s.sent ++ [(e, stamp p)] }, stamp p) := by
  have hz : store_u32 p 8 0 = p.take 8 ++ [0, 0, 0, 0] ++ p.drop 12 := by
    rw [store_u32_crc_field p h]; rfl
  have hzlen : (p.take 8 ++ [0, 0, 0, 0] ++ p.drop 12).length = p.length := by
    simp; omega
  have hst : store_u32 (store_u32 p 8 0) 8 (crc32 (store_u32 p 8 0) p.length) = stamp p := by
    rw [hz]
    unfold store_u32
    rw [store_bytes_middle _ _ _ _ 8 (by simp; omega) (by rw [le_bytes_length]; rfl)]
    rfl
  have hlen : (stamp p).length = p.length := by
    unfold stamp; simp [le_bytes_length]; omega
  unfold send_packet_with_crc send_packet_to_client
  simp only [hst]
  rw [← hlen, List.take_length]

/-! ## CRC32 -/

theorem not32_eq_xor (x : Nat) (h : x < 2 ^ 32) : 0xFFFFFFFF - x = x ^^^ 0xFFFFFFFF := by
  apply Nat.eq_of_testBit_eq
  intro i
  have hsub := Nat.testBit_two_pow_sub_succ h i
  simp only [Nat.reducePow, Nat.reduceSubDiff] at hsub
  have h2 : (4294967295 : Nat) = 2 ^ 32 - 1 := by norm_num
  rw [hsub, Nat.testBit_xor, h2, Nat.testBit_two_pow_sub_one]
  by_cases hi : i < 32
  · simp [hi]
  · have hx : x.testBit i = false :=
      Nat.testBit_lt_two_pow (lt_of_lt_of_le h (Nat.pow_le_pow_right (by norm_num) (by omega)))
    simp [hi, hx]

theorem crc32_bits_eq_iterate (k crc : Nat) : crc32_bits k crc = crc32_spec_bit^[k] crc := by
  induction k generalizing crc with
  | zero => rfl
  | succ k ih =>
    rw [crc32_bits, ih, Function.iterate_succ_apply]
    congr 1
    unfold crc32_spec_bit
    rw [Nat.and_one_is_mod, Nat.shiftRight_one]
    rcases Nat.mod_two_eq_zero_or_one crc with h | h <;> simp [h]

theorem crc32_spec_bit_lt (r : Nat) (h : r < 2 ^ 32) : crc32_spec_bit r < 2 ^ 32 := by
  unfold crc32_spec_bit
  apply Nat.xor_lt_two_pow
  · omega
  · split <;> norm_num

theorem crc32_spec_bit_iterate_lt (k r : Nat) (h : r < 2 ^ 32) : crc32_spec_bit^[k] r < 2 ^ 32 := by
  induction k generalizing r with
  | zero => simpa using h
  | succ k ih =>
    rw [Function.iterate_succ_apply]
    exact ih _ (crc32_spec_bit_lt r h)

theorem crc32_spec_byte_lt (r b : Nat) (hr : r < 2 ^ 32) (hb : b < 256) :
    crc32_spec_byte r b < 2 ^ 32 := by
  unfold crc32_spec_byte
  apply crc32_spec_bit_iterate_lt
  exact Nat.xor_lt_two_pow hr (by omega)

theorem crc32_spec_fold_lt (s : List Nat) (hs : ∀ b ∈ s, b < 256) (r : Nat) (hr : r < 2 ^ 32) :
    s.foldl crc32_spec_byte r < 2 ^ 32 := by
  induction s generalizing r with
  | nil => simpa using hr
  | cons b t ih =>
    rw [List.foldl_cons]
    exact ih (fun x hx => hs x (List.mem_cons_of_mem _ hx)) _
      (crc32_spec_byte_lt r b hr (hs b (List.mem_cons_self _ _)))

theorem crc32_loop_eq_fold (rest : List Nat) (hs : ∀ b ∈ rest, b < 256) (pre : List Nat)
    (crc : Nat) :
    crc32_loop (pre ++ rest) rest.length pre.length crc = rest.foldl crc32_spec_byte crc := by
  induction rest generalizing pre crc with
  | nil => rfl
  | cons b t ih =>
    have hb : b < 256 := hs b (List.mem_cons_self _ _)
    have hget : (pre ++ b :: t).getD pre.length 0 = b := by
      rw [List.getD_eq_getElem?_getD, List.getElem?_append_right (le_refl _)]
      simp
    rw [List.length_cons, crc32_loop, hget, Nat.mod_eq_of_lt hb, crc32_bits_eq_iterate,
      List.foldl_cons]
    have hpre : pre ++ b :: t = (pre ++ [b]) ++ t := by simp
    have hlen : pre.length + 1 = (pre ++ [b]).length := by simp
    rw [hpre, hlen]
    exact ih (fun x hx => hs x (List.mem_cons_of_mem _ hx)) (pre ++ [b]) _

theorem crc32_eq_spec (s : List Nat) (hs : ∀ b ∈ s, b < 256) : crc32 s s.length = crc32_spec s := by
  have hloop := crc32_loop_eq_fold s hs [] 0xFFFFFFFF
  simp only [List.nil_append, List.length_nil] at hloop
  have hlt := crc32_spec_fold_lt s hs 0xFFFFFFFF (by norm_num)
  unfold crc32 crc32_spec
  rw [hloop, Nat.mod_eq_of_lt hlt, not32_eq_xor _ hlt]
  exact Nat.mod_eq_of_lt (Nat.xor_lt_two_pow hlt (by norm_num))

set_option maxRecDepth 100000 in
/-- C1. For every byte sequence `s`, `crc32` over all of `s` is the standard reflected CRC-32 of
`s` (polynomial 0xEDB88320 applied bit by bit, register seeded at 0xFFFFFFFF, result
complemented); the CRC of the empty sequence is 0 and that of the ASCII bytes of "123456789" is
0xCBF43926. -/
theorem crc32_standard (s : List Nat) (hs : ∀ b ∈ s, b < 256) :
    crc32 s s.length = crc32_spec s ∧ crc32 [] 0 = 0 ∧
    crc32 [0x31, 0x32, 0x33, 0x34, 0x35, 0x36, 0x37, 0x38, 0x39] 9 = 0xCBF43926 :=
  ⟨crc32_eq_spec s hs, by decide, by decide⟩

set_option maxRecDepth 100000 in
/-- Witness for C1: the bytes of "123456789". -/
theorem crc32_standard_witness :
    (∀ b ∈ [0x31, 0x32, 0x33, 0x34, 0x35, 0x36, 0x37, 0x38, 0x39], b < 256) ∧
    crc32 [0x31, 0x32, 0x33, 0x34, 0x35, 0x36, 0x37, 0x38, 0x39] 9 = 0xCBF43926 ∧
    crc32_spec [0x31, 0x32, 0x33, 0x34, 0x35, 0x36, 0x37, 0x38, 0x39] = 0xCBF43926 := by
  have hs : ∀ b ∈ [0x31, 0x32, 0x33, 0x34, 0x35, 0x36, 0x37, 0x38, 0x39], b < 256 := by decide
  have h := crc32_standard [0x31, 0x32, 0x33, 0x34, 0x35, 0x36, 0x37, 0x38, 0x39] hs
  exact ⟨hs, h.2.2, h.1 ▸ h.2.2⟩

/-! ## Floats -/

theorem f32_neg_eq (x : Nat) (h : x < 2 ^ 32) :
    f32_neg x = if x < 2 ^ 31 then x + 2 ^ 31 else x - 2 ^ 31 := by
  unfold f32_neg
  rw [Nat.mod_eq_of_lt h]
  have hpow : (0x80000000 : Nat) = 2 ^ 31 := by norm_num
  rw [hpow]
  apply Nat.eq_of_testBit_eq
  intro i
  rw [Nat.testBit_xor, Nat.testBit_two_pow]
  split
  · rename_i hlt
    rw [Nat.add_comm]
    rcases Nat.lt_trichotomy i 31 with hi | hi | hi
    · rw [Nat.testBit_two_pow_add_gt hi]
      have : ¬ (31 = i) := by omega
      simp [this]
    · subst hi
      rw [Nat.testBit_two_pow_add_eq, Nat.testBit_lt_two_pow hlt]
      simp
    · have h1 : x.testBit i = false :=
        Nat.testBit_lt_two_pow (lt_of_lt_of_le hlt (Nat.pow_le_pow_right (by norm_num) (by omega)))
      have h2 : (2 ^ 31 + x).testBit i = false :=
        Nat.testBit_lt_two_pow (lt_of_lt_of_le (by omega : 2 ^ 31 + x < 2 ^ 32)
          (Nat.pow_le_pow_right (by norm_num) (by omega)))
      have : ¬ (31 = i) := by omega
      rw [h1, h2]
      simp [this]
  · rename_i hge
    obtain ⟨y, hy⟩ : ∃ y, x = 2 ^ 31 + y := ⟨x - 2 ^ 31, by omega⟩
    subst hy
    have hylt : y < 2 ^ 31 := by omega
    rw [Nat.add_sub_cancel_left]
    rcases Nat.lt_trichotomy i 31 with hi | hi | hi
    · rw [Nat.testBit_two_pow_add_gt hi]
      have : ¬ (31 = i) := by omega
      simp [this]
    · subst hi
      rw [Nat.testBit_two_pow_add_eq, Nat.testBit_lt_two_pow hylt]
      simp
    · have h1 : y.testBit i = false :=
        Nat.testBit_lt_two_pow (lt_of_lt_of_le hylt (Nat.pow_le_pow_right (by norm_num) (by omega)))
      have h2 : (2 ^ 31 + y).testBit i = false :=
        Nat.testBit_lt_two_pow (lt_of_lt_of_le h
          (Nat.pow_le_pow_right (by norm_num) (by omega)))
      have : ¬ (31 = i) := by omega
      rw [h1, h2]
      simp [this]

/-- The bit-pattern negation is the negation of the value. -/
theorem f32_value_neg (x : Nat) (h : x < 2 ^ 32) :
    f32_value (f32_neg x) = (f32_value x).map (fun v => -v) := by
  rw [f32_neg_eq x h]
  unfold f32_value
  split
  · rename_i hlt
    have e1 : (x + 2 ^ 31) / 2 ^ 23 % 256 = x / 2 ^ 23 % 256 := by omega
    have e2 : (x + 2 ^ 31) % 2 ^ 23 = x % 2 ^ 23 := by omega
    have e3 : (x + 2 ^ 31) / 2 ^ 31 % 2 = 1 := by omega
    have e4 : ¬ (x / 2 ^ 31 % 2 = 1) := by omega
    simp only [e1, e2, e3, e4, if_true, if_false]
    split
    · rfl
    · split
      · simp only [Option.map_some', Option.some.injEq]; ring
      · simp only [Option.map_some', Option.some.injEq]; ring
  · rename_i hge
    have e1 : (x - 2 ^ 31) / 2 ^ 23 % 256 = x / 2 ^ 23 % 256 := by omega
    have e2 : (x - 2 ^ 31) % 2 ^ 23 = x % 2 ^ 23 := by omega
    have e3 : ¬ ((x - 2 ^ 31) / 2 ^ 31 % 2 = 1) := by omega
    have e4 : x / 2 ^ 31 % 2 = 1 := by omega
    simp only [e1, e2, e3, e4, if_true, if_false]
    split
    · rfl
    · split
      · simp only [Option.map_some', Option.some.injEq]; ring
      · simp only [Option.map_some', Option.some.injEq]; ring

/-- The test `!= 0.0f` on bit patterns is the test that the value is not zero (NaN and the
infinities compare unequal to zero). -/
theorem f32_ne_zero_iff (x : Nat) :
    f32_ne_zero x = true ↔ f32_value x ≠ some 0 := by
  unfold f32_ne_zero f32_value
  have hx : x % 2 ^ 31 = (x / 2 ^ 23 % 256) * 2 ^ 23 + x % 2 ^ 23 := by omega
  simp only [bne_iff_ne, ne_eq]
  by_cases he255 : x / 2 ^ 23 % 256 = 255
  · simp only [he255, if_true]
    constructor
    · intro _ h; cases h
    · intro _; omega
  · simp only [he255, if_false]
    by_cases he0 : x / 2 ^ 23 % 256 = 0
    · simp only [he0, if_true, Option.some.injEq]
      rw [hx, he0]
      constructor
      · intro hne hz
        apply hne
        have hf : ((x % 2 ^ 23 : Nat) : ℚ) = 0 := by
          rcases div_eq_zero_iff.mp hz with h | h
          · rcases mul_eq_zero.mp h with h | h
            · split at h <;> norm_num at h
            · exact h
          · norm_num at h
        have : x % 2 ^ 23 = 0 := by exact_mod_cast hf
        omega
      · intro hne hz
        apply hne
        have : x % 2 ^ 23 = 0 := by omega
        rw [this]
        simp
    · simp only [he0, if_false, Option.some.injEq]
      constructor
      · intro _ hz
        rcases div_eq_zero_iff.mp hz with h | h
        · rcases mul_eq_zero.mp h with h | h
          · rcases mul_eq_zero.mp h with h | h
            · split at h <;> norm_num at h
            · have : (2 ^ 23 + x % 2 ^ 23 : Nat) = 0 := by exact_mod_cast h
              omega
          · exact absurd h (pow_ne_zero _ (by norm_num))
        · norm_num at h
      · intro _; omega

/-! ## Stamping -/

theorem stamp_length (p : List Nat) (h : 12 ≤ p.length) : (stamp p).length = p.length := by
  unfold stamp
  simp [le_bytes_length]
  omega

theorem take_append_length (a b : List Nat) (n : Nat) (h : a.length = n) :
    (a ++ b).take n = a := by
  subst h
  exact List.take_left _ _

theorem drop_append_length (a b : List Nat) (n : Nat) (h : a.length = n) :
    (a ++ b).drop n = b := by
  subst h
  exact List.drop_left _ _

theorem stamp_take (p : List Nat) (h : 12 ≤ p.length) : (stamp p).take 8 = p.take 8 := by
  unfold stamp
  rw [List.append_assoc]
  exact take_append_length _ _ 8 (by simp; omega)

theorem stamp_drop (p : List Nat) (h : 12 ≤ p.length) : (stamp p).drop 12 = p.drop 12 := by
  unfold stamp
  exact drop_append_length _ _ 12 (by simp [le_bytes_length]; omega)

theorem load_u32_stamp (p : List Nat) (h : 12 ≤ p.length) :
    load_u32 (stamp p) 8 = crc32 (p.take 8 ++ [0, 0, 0, 0] ++ p.drop 12) p.length := by
  have h8 : (p.take 8).length = 8 := by simp; omega
  have hoff : load_le (p.take 8 ++ (le_bytes 4 (crc32 (p.take 8 ++ [0, 0, 0, 0] ++ p.drop 12)
      p.length) ++ p.drop 12)) ((p.take 8).length + 0) 4 = _ := load_le_append_left _ _ 0 4
  rw [h8] at hoff
  unfold load_u32 stamp
  rw [List.append_assoc, hoff, load_le_le_bytes]
  exact Nat.mod_eq_of_lt (crc32_lt _ _)

theorem stamp_getElem? (p : List Nat) (h : 12 ≤ p.length) (i : Nat) (hi : i < 8 ∨ 12 ≤ i) :
    (stamp p)[i]? = p[i]? := by
  rcases hi with hi | hi
  · have h1 : ((stamp p).take 8)[i]? = (stamp p)[i]? := List.getElem?_take_of_lt hi
    have h2 : (p.take 8)[i]? = p[i]? := List.getElem?_take_of_lt hi
    rw [← h1, stamp_take p h, h2]
  · have h1 : ((stamp p).drop 12)[i - 12]? = (stamp p)[12 + (i - 12)]? := List.getElem?_drop _ _ _
    have h2 : (p.drop 12)[i - 12]? = p[12 + (i - 12)]? := List.getElem?_drop _ _ _
    have h3 : 12 + (i - 12) = i := by omega
    rw [h3] at h1 h2
    rw [← h1, stamp_drop p h, h2]

/-- C2. For a packet `p` of at least 12 bytes `send_packet_with_crc` hands exactly one datagram
`out` to the transport: `p` with bytes 8..11 replaced by the little-endian CRC32 of `p` with
bytes 8..11 zeroed; every other byte is the byte of `p`; a receiver that zeroes bytes 8..11 of
`out` and recomputes the CRC32 obtains the value stored in `out`. -/
theorem send_packet_with_crc_stamps (s : dsu_server_t) (e : udp_endpoint) (p : List Nat)
    (h : 12 ≤ p.length) :
    ∃ out : List Nat,
      (send_packet_with_crc s e p p.length).1.sent = s.sent ++ [(e, out)] ∧
      out = p.take 8 ++ le_bytes 4 (crc32 (p.take 8 ++ [0, 0, 0, 0] ++ p.drop 12) p.length)
        ++ p.drop 12 ∧
      out.length = p.length ∧
      (∀ i : Nat, i < 8 ∨ 12 ≤ i → out[i]? = p[i]?) ∧
      load_u32 out 8 = crc32 (p.take 8 ++ [0, 0, 0, 0] ++ p.drop 12) p.length ∧
      crc32 (out.take 8 ++ [0, 0, 0, 0] ++ out.drop 12) out.length = load_u32 out 8 := by
  refine ⟨stamp p, ?_, rfl, stamp_length p h, stamp_getElem? p h, load_u32_stamp p h, ?_⟩
  · rw [send_packet_with_crc_eq s e p h]
  · rw [stamp_take p h, stamp_drop p h, stamp_length p h, load_u32_stamp p h]

set_option maxRecDepth 100000 in
/-- Witness for C2: a 12-byte packet. -/
theorem send_packet_with_crc_stamps_witness :
    12 ≤ [1, 2, 3, 4, 5, 6, 7, 8, 9, 10, 11, 12].length ∧
    ∃ out : List Nat,
      (send_packet_with_crc (dsu_server_t.init 26760) ⟨0x7F000001, 5000⟩
        [1, 2, 3, 4, 5, 6, 7, 8, 9, 10, 11, 12] 12).1.sent = [(⟨0x7F000001, 5000⟩, out)] ∧
      load_u32 out 8 = 142776809 := by
  refine ⟨by decide, ?_⟩
  obtain ⟨out, h1, h2, -, -, h5, -⟩ :=
    send_packet_with_crc_stamps (dsu_server_t.init 26760) ⟨0x7F000001, 5000⟩
      [1, 2, 3, 4, 5, 6, 7, 8, 9, 10, 11, 12] (by decide)
  refine ⟨out, h1, ?_⟩
  rw [h5]
  decide

/-! ## Decoding a stamped packet block by block -/

theorem array_bytes_length (n : Nat) (a : List Nat) : (array_bytes n a).length = n := by
  induction n generalizing a with
  | zero => rfl
  | succ n ih => simp [array_bytes, ih]

theorem load_le_skip (b rest : List Nat) (off w : Nat) (h : b.length ≤ off) :
    load_le (b ++ rest) off w = load_le rest (off - b.length) w := by
  have hoff : off = b.length + (off - b.length) := by omega
  conv_lhs => rw [hoff]
  exact load_le_append_left b rest _ w

theorem load_le_le_bytes_end (w v : Nat) : load_le (le_bytes w v) 0 w = v % 256 ^ w := by
  have h := load_le_le_bytes w v []
  rwa [List.append_nil] at h

theorem drop_skip (b rest : List Nat) (off : Nat) (h : b.length ≤ off) :
    (b ++ rest).drop off = rest.drop (off - b.length) := by
  have hoff : off = b.length + (off - b.length) := by omega
  conv_lhs => rw [hoff]
  exact List.drop_append _

theorem take_block (b rest : List Nat) (n : Nat) (h : b.length = n) : (b ++ rest).take n = b :=
  take_append_length b rest n h

theorem stamp_blocks (pre rest : List Nat) (c : Nat) (h : pre.length = 8) :
    stamp (pre ++ (le_bytes 4 c ++ rest)) =
      pre ++ (le_bytes 4 (crc32 (pre ++ [0, 0, 0, 0] ++ rest) (12 + rest.length)) ++ rest) := by
  have htake : (pre ++ (le_bytes 4 c ++ rest)).take 8 = pre := take_append_length _ _ 8 h
  have hdrop : (pre ++ (le_bytes 4 c ++ rest)).drop 12 = rest := by
    rw [← List.append_assoc]
    exact drop_append_length _ _ 12 (by simp [le_bytes_length, h])
  have hlen : (pre ++ (le_bytes 4 c ++ rest)).length = 12 + rest.length := by
    simp [le_bytes_length, h]; omega
  unfold stamp
  rw [htake, hdrop, hlen, List.append_assoc]

/-- Every INFO packet image, once stamped, decodes to its own fields (each reduced to the width
of the field) and some 32-bit CRC. -/
theorem info_of_bytes_stamp (m v l c id mt sl ss dm ct : Nat) (mac : List Nat) (bs pad : Nat) :
    ∃ crc : Nat, crc < 2 ^ 32 ∧
      dsu_info_response.of_bytes (stamp (dsu_info_response.to_bytes
        ⟨⟨m, v, l, c, id⟩, ⟨mt, sl, ss, dm, ct, mac, bs⟩, pad⟩)) =
      ⟨⟨m % 256 ^ 4, v % 256 ^ 2, l % 256 ^ 2, crc, id % 256 ^ 4⟩,
        ⟨mt % 256 ^ 4, sl % 256 ^ 1, ss % 256 ^ 1, dm % 256 ^ 1, ct % 256 ^ 1, array_bytes 6 mac,
          bs % 256 ^ 1⟩, pad % 256 ^ 1⟩ := by
  have hbytes : dsu_info_response.to_bytes ⟨⟨m, v, l, c, id⟩, ⟨mt, sl, ss, dm, ct, mac, bs⟩, pad⟩
      = (le_bytes 4 m ++ (le_bytes 2 v ++ le_bytes 2 l)) ++ (le_bytes 4 c ++ (le_bytes 4 id ++
        (le_bytes 4 mt ++ (le_bytes 1 sl ++ (le_bytes 1 ss ++ (le_bytes 1 dm ++ (le_bytes 1 ct ++
        (array_bytes 6 mac ++ (le_bytes 1 bs ++ le_bytes 1 pad))))))))) := by
    simp only [dsu_info_response.to_bytes, dsu_header.to_bytes, dsu_shared_response.to_bytes,
      List.append_assoc]
  rw [hbytes, stamp_blocks _ _ _ (by simp [le_bytes_length])]
  generalize crc32 _ _ = crc
  refine ⟨crc % 256 ^ 4, Nat.mod_lt _ (by norm_num), ?_⟩
  simp only [dsu_info_response.of_bytes, dsu_header.of_bytes, dsu_shared_response.of_bytes,
    List.append_assoc]
  simp [load_le_skip, drop_skip, load_le_le_bytes, load_le_le_bytes_end, take_block,
    le_bytes_length, array_bytes_length]

/-! ## Receiving and dispatching -/

theorem info_to_bytes_length (p : dsu_info_response) :
    p.to_bytes.length = sizeof_dsu_info_response := by
  simp [dsu_info_response.to_bytes, dsu_header.to_bytes, dsu_shared_response.to_bytes,
    le_bytes_length, array_bytes_length, sizeof_dsu_info_response, sizeof_dsu_header,
    sizeof_dsu_shared_response]

theorem build_info_packet_eq (client_id slot : Nat) :
    build_info_packet client_id slot =
      ⟨⟨0x53555344, 1001, 16, 0, client_id⟩, ⟨0x100001, slot, 2, 2, 2, [1, 0, 0, 0, 0, 0], 2⟩, 0⟩ :=
  rfl

theorem handle_info_request_eq (s : dsu_server_t) (e : udp_endpoint) (data : List Nat)
    (size : Nat) (h : 20 ≤ size) :
    ∃ pkt : dsu_info_response,
      handle_info_request s e data size =
        { s with
          sent := s.sent ++
            [(e, stamp (build_info_packet (parse_client_id data) (data.getD 20 0 % 256)).to_bytes)],
          info_packet_ := pkt } := by
  have hsize : sizeof_dsu_info_response
      = (build_info_packet (parse_client_id data) (data.getD 20 0 % 256)).to_bytes.length :=
    (info_to_bytes_length _).symm
  have h12 : 12 ≤ (build_info_packet (parse_client_id data)
      (data.getD 20 0 % 256)).to_bytes.length := by
    rw [info_to_bytes_length]; decide
  unfold handle_info_request
  rw [if_neg (by omega)]
  simp only [Nat.reduceAdd]
  rw [hsize, send_packet_with_crc_eq _ _ _ h12]
  exact ⟨_, rfl⟩

theorem receive_from_load (buf d : List Nat) (off w : Nat) (hd : off + w ≤ d.length)
    (hb : off + w ≤ buf.length) :
    load_le (store_bytes buf 0 (d.take buf.length)) off w = load_le d off w := by
  unfold store_bytes
  rw [List.take_zero, List.nil_append, load_le_append_right _ _ _ _ (by simp; omega),
    load_le_take _ _ _ _ hb]

theorem receive_from_getD (buf d : List Nat) (i : Nat) (hd : i < d.length) (hb : i < buf.length) :
    (store_bytes buf 0 (d.take buf.length)).getD i 0 = d.getD i 0 := by
  unfold store_bytes
  rw [List.take_zero, List.nil_append, List.getD_eq_getElem?_getD, List.getD_eq_getElem?_getD,
    List.getElem?_append_left (by simp; omega), List.getElem?_take_of_lt hb]

theorem receive_from_length (buf d : List Nat) :
    (store_bytes buf 0 (d.take buf.length)).length = buf.length := by
  unfold store_bytes
  simp

theorem server_loop_receive_info (s : dsu_server_t) (sender : udp_endpoint) (d : List Nat)
    (now : Nat) (hrun : s.running_ = true) (hbuf : s.recv_buffer_.length = MAX_PACKET_SIZE)
    (hlen : 20 ≤ d.length) (htype : load_u32 d 16 = DSU_MESSAGE_TYPE_INFO) :
    server_loop_receive s sender d now =
      handle_info_request
        { s with recv_buffer_ := store_bytes s.recv_buffer_ 0 (d.take s.recv_buffer_.length),
                 remote_endpoint_ := sender }
        sender (store_bytes s.recv_buffer_ 0 (d.take s.recv_buffer_.length))
        (d.take s.recv_buffer_.length).length := by
  have hb : 16 + 4 ≤ s.recv_buffer_.length := by rw [hbuf]; decide
  have hn : 20 ≤ (d.take s.recv_buffer_.length).length := by
    rw [List.length_take]; omega
  have hty : load_u32 (store_bytes s.recv_buffer_ 0 (d.take s.recv_buffer_.length)) 16
      = DSU_MESSAGE_TYPE_INFO := by
    unfold load_u32
    rw [receive_from_load _ _ 16 4 hlen hb]
    exact htype
  unfold server_loop_receive receive_from handle_receive_sync
  simp only [hrun, Bool.not_true, Bool.false_eq_true, if_false]
  rw [if_neg (by omega), if_neg (by omega), if_pos hty]

/-! ## INFO responses -/

/-- C5. Every INFO request of at least 20 bytes makes the running server hand exactly one packet
`p` to the transport, addressed to the sender; its shared fields are message type 0x100001, slot
state 2, device model 2, connection type 2, hardware address `1,0,0,0,0,0`, and the padding byte
is 0. The slot field is the byte found at offset 20 of the receive buffer, which is the
request's slot byte `sl` whenever the request has one. -/
theorem info_request_answered (s : dsu_server_t) (sender : udp_endpoint) (d : List Nat)
    (now : Nat) (hrun : s.running_ = true) (hbuf : s.recv_buffer_.length = MAX_PACKET_SIZE)
    (hlen : 20 ≤ d.length) (htype : load_u32 d 16 = DSU_MESSAGE_TYPE_INFO) :
    ∃ p : List Nat,
      (server_loop_receive s sender d now).sent = s.sent ++ [(sender, p)] ∧
      p.length = 32 ∧
      (dsu_info_response.of_bytes p).shared.message_type = 0x100001 ∧
      (dsu_info_response.of_bytes p).shared.slot
        = (server_loop_receive s sender d now).recv_buffer_.getD 20 0 % 256 ∧
      (∀ sl : Nat, d[20]? = some sl → sl < 256 → (dsu_info_response.of_bytes p).shared.slot = sl) ∧
      (dsu_info_response.of_bytes p).shared.slot_state = 2 ∧
      (dsu_info_response.of_bytes p).shared.device_model = 2 ∧
      (dsu_info_response.of_bytes p).shared.connection_type = 2 ∧
      (dsu_info_response.of_bytes p).shared.mac_address = [1, 0, 0, 0, 0, 0] ∧
      (dsu_info_response.of_bytes p).padding = 0 := by
  have hb21 : 20 < s.recv_buffer_.length := by rw [hbuf]; decide
  obtain ⟨pkt, hreq⟩ := handle_info_request_eq
    { s with recv_buffer_ := store_bytes s.recv_buffer_ 0 (d.take s.recv_buffer_.length),
             remote_endpoint_ := sender }
    sender (store_bytes s.recv_buffer_ 0 (d.take s.recv_buffer_.length))
    (d.take s.recv_buffer_.length).length (by rw [List.length_take]; omega)
  rw [server_loop_receive_info s sender d now hrun hbuf hlen htype, hreq]
  generalize hcid : parse_client_id (store_bytes s.recv_buffer_ 0 (d.take s.recv_buffer_.length))
    = cid
  generalize hslot : (store_bytes s.recv_buffer_ 0 (d.take s.recv_buffer_.length)).getD 20 0
    = slot
  obtain ⟨crc, -, hdec⟩ := info_of_bytes_stamp 0x53555344 1001 16 0 cid 0x100001 (slot % 256) 2 2 2
    [1, 0, 0, 0, 0, 0] 2 0
  refine ⟨stamp (build_info_packet cid (slot % 256)).to_bytes, rfl, ?_, ?_⟩
  · rw [stamp_length _ (by rw [info_to_bytes_length]; decide), info_to_bytes_length]
    rfl
  · rw [build_info_packet_eq, hdec]
    refine ⟨rfl, ?_, ?_, rfl, rfl, rfl, rfl, rfl⟩
    · show slot % 256 % 256 ^ 1 = slot % 256
      rw [pow_one, Nat.mod_mod]
    · intro sl hsl hlt
      have hd : 20 < d.length := by
        rcases Nat.lt_or_ge 20 d.length with h | h
        · exact h
        · rw [List.getElem?_eq_none h] at hsl; cases hsl
      have hget : slot = sl := by
        rw [← hslot, receive_from_getD _ _ 20 hd hb21, List.getD_eq_getElem?_getD, hsl]
        rfl
      show slot % 256 % 256 ^ 1 = sl
      rw [pow_one, Nat.mod_mod, hget, Nat.mod_eq_of_lt hlt]

set_option maxRecDepth 100000 in
/-- Witness for C5: an INFO request with slot byte 3 sent to a running server. -/
theorem info_request_answered_witness :
    running_server.running_ = true ∧ running_server.recv_buffer_.length = MAX_PACKET_SIZE ∧
    20 ≤ info_request_slot3.length ∧ load_u32 info_request_slot3 16 = DSU_MESSAGE_TYPE_INFO ∧
    ∃ p : List Nat,
      (server_loop_receive running_server client_E info_request_slot3 0).sent = [(client_E, p)] ∧
      p.length = 32 ∧ (dsu_info_response.of_bytes p).shared.slot = 3 := by
  refine ⟨rfl, by decide, by decide, by decide, ?_⟩
  obtain ⟨p, h1, h2, -, -, h5, -⟩ :=
    info_request_answered running_server client_E info_request_slot3 0 rfl (by decide)
      (by decide) (by decide)
  exact ⟨p, h1, h2, h5 3 (by decide) (by decide)⟩

set_option maxRecDepth 100000 in
/-- C4 (code evaluated at the failing input). The Scenario A request carries
`client_id = 0x11223344` at offsets 12..15 and its CRC32 `0x9604658A` at offsets 8..11; the
INFO response echoes `0x9604658A` as client id, and a DATA request with client id `0x11223344`
and CRC32 `0x21A220EE` registers a session whose stored client id is `0x21A220EE`. -/
theorem parse_client_id_scenario_A :
    load_u32 scenario_A_request 12 = 0x11223344 ∧
    (server_loop_receive running_server client_E scenario_A_request 0).sent.map
      (fun q => (dsu_info_response.of_bytes q.2).header.client_id) = [0x9604658A] ∧
    load_u32 scenario_B_request 12 = 0x11223344 ∧
    (server_loop_receive running_server client_E scenario_B_request 0).clients_.map
      (fun kv => kv.2.client_id) = [0x21A220EE] := by
  decide

set_option maxRecDepth 100000 in
/-- C6 (code evaluated at the failing input). The INFO response to the Scenario A request has
`battery_status = 2`, which `dsu_server.h` documents as Low; Charging is 6. -/
theorem battery_status_scenario_A :
    (server_loop_receive running_server client_E scenario_A_request 0).sent.map
      (fun q => (dsu_info_response.of_bytes q.2).shared.battery_status) = [2] := by
  decide

/-! ## Ordered maps -/

section maps

variable {K V : Type} [DecidableEq K] [LT K] [DecidableRel (fun a b : K => a < b)]

theorem map_find_assign_self (k : K) (v : V) (m : List (K × V)) :
    map_find k (map_assign k v m) = some v := by
  induction m with
  | nil => simp [map_assign, map_find]
  | cons kv rest ih =>
    obtain ⟨k', v'⟩ := kv
    unfold map_assign
    by_cases h1 : k' = k
    · simp [h1, map_find]
    · by_cases h2 : k < k'
      · simp [h1, h2, map_find]
      · simp [h1, h2, map_find, ih]

theorem map_assign_length (k : K) (v : V) (m : List (K × V)) (h : map_find k m = none) :
    (map_assign k v m).length = m.length + 1 := by
  induction m with
  | nil => simp [map_assign]
  | cons kv rest ih =>
    obtain ⟨k', v'⟩ := kv
    unfold map_find at h
    by_cases h1 : k' = k
    · simp [h1] at h
    · simp only [h1, if_false] at h
      unfold map_assign
      by_cases h2 : k < k'
      · simp [h1, h2]
      · simp [h1, h2, ih h]

theorem map_assign_filter (k : K) (v : V) (m : List (K × V)) :
    (map_assign k v m).filter (fun kv => decide (kv.1 ≠ k)) =
      m.filter (fun kv => decide (kv.1 ≠ k)) := by
  induction m with
  | nil => simp [map_assign]
  | cons kv rest ih =>
    obtain ⟨k', v'⟩ := kv
    unfold map_assign
    by_cases h1 : k' = k
    · simp [h1]
    · by_cases h2 : k < k'
      · simp [h1, h2]
      · simpa [h1, h2] using ih

theorem map_find_assign_other (k k' : K) (v : V) (m : List (K × V)) (h : k' ≠ k) :
    map_find k' (map_assign k v m) = map_find k' m := by
  induction m with
  | nil => simp [map_assign, map_find, Ne.symm h]
  | cons kv rest ih =>
    obtain ⟨k1, v1⟩ := kv
    unfold map_assign
    by_cases h1 : k1 = k
    · subst h1
      simp [map_find, Ne.symm h]
    · by_cases h2 : k < k1
      · simp [h1, h2, map_find, Ne.symm h]
      · simp only [h1, h2, if_false]
        unfold map_find
        rw [ih]

end maps

section maps_modify

variable {K V : Type} [DecidableEq K]

theorem map_modify_length (k : K) (f : V → V) (m : List (K × V)) :
    (map_modify k f m).length = m.length := by
  induction m with
  | nil => rfl
  | cons kv rest ih =>
    obtain ⟨k', v'⟩ := kv
    unfold map_modify
    by_cases h1 : k' = k
    · simp [h1]
    · simp [h1, ih]

theorem map_find_modify_self (k : K) (f : V → V) (m : List (K × V)) :
    map_find k (map_modify k f m) = (map_find k m).map f := by
  induction m with
  | nil => rfl
  | cons kv rest ih =>
    obtain ⟨k', v'⟩ := kv
    unfold map_modify
    by_cases h1 : k' = k
    · simp [h1, map_find]
    · simp [h1, map_find, ih]

theorem map_find_modify_other (k k' : K) (f : V → V) (m : List (K × V)) (h : k' ≠ k) :
    map_find k' (map_modify k f m) = map_find k' m := by
  induction m with
  | nil => rfl
  | cons kv rest ih =>
    obtain ⟨k1, v1⟩ := kv
    unfold map_modify
    by_cases h1 : k1 = k
    · subst h1
      simp [map_find, Ne.symm h]
    · simp only [h1, if_false]
      unfold map_find
      rw [ih]

theorem map_modify_filter (k : K) (f : V → V) (m : List (K × V)) :
    (map_modify k f m).filter (fun kv => decide (kv.1 ≠ k)) =
      m.filter (fun kv => decide (kv.1 ≠ k)) := by
  induction m with
  | nil => rfl
  | cons kv rest ih =>
    obtain ⟨k', v'⟩ := kv
    unfold map_modify
    by_cases h1 : k' = k
    · simp [h1]
    · simpa [h1] using ih

end maps_modify

/-! ## Client keys -/

theorem digitChar_inj (a b : Fin 10) (h : Nat.digitChar a = Nat.digitChar b) : a = b := by
  revert a b
  decide

theorem digitChar_ne_sep (a : Fin 10) : Nat.digitChar a ≠ '.' ∧ Nat.digitChar a ≠ ':' := by
  revert a
  decide

theorem toDigitsCore_eq (fuel n : Nat) (ds : List Char) (hn : 0 < n) (hf : n < fuel) :
    Nat.toDigitsCore 10 fuel n ds = (Nat.digits 10 n).reverse.map Nat.digitChar ++ ds := by
  induction fuel generalizing n ds with
  | zero => omega
  | succ fuel ih =>
    rw [Nat.toDigitsCore, Nat.digits_def' (by norm_num) hn]
    by_cases h0 : n / 10 = 0
    · simp [h0]
    · simp only [h0, if_false]
      rw [ih (n / 10) _ (by omega) (by omega)]
      simp

theorem toDigits_pos (n : Nat) (hn : 0 < n) :
    Nat.toDigits 10 n = (Nat.digits 10 n).reverse.map Nat.digitChar := by
  rw [Nat.toDigits, toDigitsCore_eq (n + 1) n [] hn (by omega), List.append_nil]

theorem toDigits_ne_sep (n : Nat) (c : Char) (hc : c ∈ Nat.toDigits 10 n) :
    c ≠ '.' ∧ c ≠ ':' := by
  rcases Nat.eq_zero_or_pos n with h0 | hpos
  · subst h0
    have : Nat.toDigits 10 0 = ['0'] := rfl
    rw [this, List.mem_singleton] at hc
    subst hc
    decide
  · rw [toDigits_pos n hpos, List.mem_map] at hc
    obtain ⟨d, hd, rfl⟩ := hc
    have hlt : d < 10 := Nat.digits_lt_base (by norm_num) (List.mem_reverse.mp hd)
    exact digitChar_ne_sep ⟨d, hlt⟩

theorem map_digitChar_inj (l1 l2 : List Nat) (h1 : ∀ d ∈ l1, d < 10) (h2 : ∀ d ∈ l2, d < 10)
    (h : l1.map Nat.digitChar = l2.map Nat.digitChar) : l1 = l2 := by
  induction l1 generalizing l2 with
  | nil =>
    cases l2 with
    | nil => rfl
    | cons b t => simp at h
  | cons a t ih =>
    cases l2 with
    | nil => simp at h
    | cons b t2 =>
      simp only [List.map_cons, List.cons.injEq] at h
      have ha : a < 10 := h1 a (List.mem_cons_self _ _)
      have hb : b < 10 := h2 b (List.mem_cons_self _ _)
      have hab : a = b := by
        have := digitChar_inj ⟨a, ha⟩ ⟨b, hb⟩ h.1
        exact congrArg Fin.val this
      rw [hab, ih t2 (fun d hd => h1 d (List.mem_cons_of_mem _ hd))
        (fun d hd => h2 d (List.mem_cons_of_mem _ hd)) h.2]

theorem toDigits_inj (a b : Nat) (h : Nat.toDigits 10 a = Nat.toDigits 10 b) : a = b := by
  have hzero : Nat.toDigits 10 0 = ['0'] := rfl
  have key : ∀ n : Nat, 0 < n → Nat.toDigits 10 0 ≠ Nat.toDigits 10 n := by
    intro n hn heq
    rw [hzero, toDigits_pos n hn] at heq
    have hne : Nat.digits 10 n ≠ [] := Nat.digits_ne_nil_iff_ne_zero.mpr (by omega)
    have hlast := Nat.getLast_digit_ne_zero 10 (m := n) (by omega)
    have hrev : (Nat.digits 10 n).reverse = [0] := by
      apply map_digitChar_inj
      · intro d hd
        exact Nat.digits_lt_base (by norm_num) (List.mem_reverse.mp hd)
      · intro d hd
        rw [List.mem_singleton] at hd
        omega
      · rw [← heq]
        rfl
    have hdig : Nat.digits 10 n = [0] := by
      have := congrArg List.reverse hrev
      rwa [List.reverse_reverse] at this
    apply hlast
    simp [hdig]
  rcases Nat.eq_zero_or_pos a with ha | ha <;> rcases Nat.eq_zero_or_pos b with hb | hb
  · rw [ha, hb]
  · subst ha
    exact absurd h (key b hb)
  · subst hb
    exact absurd h.symm (key a ha)
  · rw [toDigits_pos a ha, toDigits_pos b hb] at h
    have hrev := map_digitChar_inj _ _
      (fun d hd => Nat.digits_lt_base (by norm_num) (List.mem_reverse.mp hd))
      (fun d hd => Nat.digits_lt_base (by norm_num) (List.mem_reverse.mp hd)) h
    have := congrArg List.reverse hrev
    rw [List.reverse_reverse, List.reverse_reverse] at this
    exact Nat.digits_inj_iff.mp this

theorem split_at_separator (c : Char) (x1 x2 z1 z2 : List Char) (h1 : c ∉ x1) (h2 : c ∉ x2)
    (h : x1 ++ c :: z1 = x2 ++ c :: z2) : x1 = x2 ∧ z1 = z2 := by
  induction x1 generalizing x2 with
  | nil =>
    cases x2 with
    | nil => exact ⟨rfl, by simpa using h⟩
    | cons b t =>
      simp only [List.nil_append, List.cons_append, List.cons.injEq] at h
      exact absurd (h.1 ▸ List.mem_cons_self _ _) h2
  | cons a t ih =>
    cases x2 with
    | nil =>
      simp only [List.nil_append, List.cons_append, List.cons.injEq] at h
      exact absurd (h.1 ▸ List.mem_cons_self _ _) h1
    | cons b t2 =>
      simp only [List.cons_append, List.cons.injEq] at h
      obtain ⟨hr1, hr2⟩ := ih t2 (fun hm => h1 (List.mem_cons_of_mem _ hm))
        (fun hm => h2 (List.mem_cons_of_mem _ hm)) h.2
      exact ⟨by rw [h.1, hr1], hr2⟩

theorem generate_client_key_data (e : udp_endpoint) :
    (generate_client_key e).data =
      Nat.toDigits 10 (e.address / 2 ^ 24 % 256) ++ '.' ::
        (Nat.toDigits 10 (e.address / 2 ^ 16 % 256) ++ '.' ::
          (Nat.toDigits 10 (e.address / 2 ^ 8 % 256) ++ '.' ::
            (Nat.toDigits 10 (e.address % 256) ++ ':' :: Nat.toDigits 10 e.port))) := by
  have hs : ∀ n : Nat, (toString n).data = Nat.toDigits 10 n := fun n => rfl
  unfold generate_client_key address_to_string
  simp only [String.data_append, hs, List.append_assoc]
  rfl

/-- Distinct IPv4 endpoints have distinct client keys. -/
theorem generate_client_key_inj (e1 e2 : udp_endpoint) (h1 : e1.address < 2 ^ 32)
    (h2 : e2.address < 2 ^ 32) (h : generate_client_key e1 = generate_client_key e2) :
    e1 = e2 := by
  have hd := congrArg String.data h
  rw [generate_client_key_data, generate_client_key_data] at hd
  have hdot : ∀ n : Nat, '.' ∉ Nat.toDigits 10 n := fun n hm => (toDigits_ne_sep n _ hm).1 rfl
  have hcol : ∀ n : Nat, ':' ∉ Nat.toDigits 10 n := fun n hm => (toDigits_ne_sep n _ hm).2 rfl
  obtain ⟨p3, hd⟩ := split_at_separator _ _ _ _ _ (hdot _) (hdot _) hd
  obtain ⟨p2, hd⟩ := split_at_separator _ _ _ _ _ (hdot _) (hdot _) hd
  obtain ⟨p1, hd⟩ := split_at_separator _ _ _ _ _ (hdot _) (hdot _) hd
  obtain ⟨p0, hp⟩ := split_at_separator _ _ _ _ _ (hcol _) (hcol _) hd
  have q3 := toDigits_inj _ _ p3
  have q2 := toDigits_inj _ _ p2
  have q1 := toDigits_inj _ _ p1
  have q0 := toDigits_inj _ _ p0
  have qp := toDigits_inj _ _ hp
  obtain ⟨a1, port1⟩ := e1
  obtain ⟨a2, port2⟩ := e2
  simp only at h1 h2 q3 q2 q1 q0 qp
  have ha : a1 = a2 := by omega
  rw [ha, qp]

/-! ## DATA requests and the session registry -/

theorem server_loop_receive_data (s : dsu_server_t) (sender : udp_endpoint) (d : List Nat)
    (now : Nat) (hrun : s.running_ = true) (hbuf : s.recv_buffer_.length = MAX_PACKET_SIZE)
    (hlen : 20 ≤ d.length) (htype : load_u32 d 16 = DSU_MESSAGE_TYPE_DATA) :
    server_loop_receive s sender d now =
      handle_data_request
        { s with recv_buffer_ := store_bytes s.recv_buffer_ 0 (d.take s.recv_buffer_.length),
                 remote_endpoint_ := sender }
        sender (store_bytes s.recv_buffer_ 0 (d.take s.recv_buffer_.length))
        (d.take s.recv_buffer_.length).length now := by
  have hb : 16 + 4 ≤ s.recv_buffer_.length := by rw [hbuf]; decide
  have hn : 20 ≤ (d.take s.recv_buffer_.length).length := by
    rw [List.length_take]; omega
  have hty : load_u32 (store_bytes s.recv_buffer_ 0 (d.take s.recv_buffer_.length)) 16
      = DSU_MESSAGE_TYPE_DATA := by
    unfold load_u32
    rw [receive_from_load _ _ 16 4 hlen hb]
    exact htype
  have hne : ¬ load_u32 (store_bytes s.recv_buffer_ 0 (d.take s.recv_buffer_.length)) 16
      = DSU_MESSAGE_TYPE_INFO := by
    rw [hty]; decide
  unfold server_loop_receive receive_from handle_receive_sync
  simp only [hrun, Bool.not_true, Bool.false_eq_true, if_false]
  rw [if_neg (by omega), if_neg (by omega), if_neg hne, if_pos hty]

theorem handle_data_request_new (s : dsu_server_t) (e : udp_endpoint) (data : List Nat)
    (size now : Nat) (h : 20 ≤ size) (hf : map_find (generate_client_key e) s.clients_ = none) :
    (handle_data_request s e data size now).clients_ =
      map_assign (generate_client_key e)
        (client_info_t.init e (data.getD 20 0 % 256) (parse_client_id data) now) s.clients_ := by
  unfold handle_data_request
  rw [if_neg (by omega)]
  simp only [hf, Nat.reduceAdd]

theorem handle_data_request_known (s : dsu_server_t) (e : udp_endpoint) (data : List Nat)
    (size now : Nat) (ci : client_info_t) (h : 20 ≤ size)
    (hf : map_find (generate_client_key e) s.clients_ = some ci) :
    (handle_data_request s e data size now).clients_ =
      map_modify (generate_client_key e) (fun ci => { ci with sendTimeout := 0 }) s.clients_ := by
  unfold handle_data_request
  rw [if_neg (by omega)]
  simp only [hf]

theorem server_loop_receive_data_new (s : dsu_server_t) (sender : udp_endpoint)
    (d : List Nat) (now : Nat) (hrun : s.running_ = true)
    (hbuf : s.recv_buffer_.length = MAX_PACKET_SIZE) (hlen : 20 ≤ d.length)
    (htype : load_u32 d 16 = DSU_MESSAGE_TYPE_DATA)
    (hf : map_find (generate_client_key sender) s.clients_ = none) :
    (server_loop_receive s sender d now).clients_ =
      map_assign (generate_client_key sender)
        (client_info_t.init sender
          ((store_bytes s.recv_buffer_ 0 (d.take s.recv_buffer_.length)).getD 20 0 % 256)
          (parse_client_id (store_bytes s.recv_buffer_ 0 (d.take s.recv_buffer_.length))) now)
        s.clients_ := by
  have hb : 20 ≤ s.recv_buffer_.length := by rw [hbuf]; decide
  rw [server_loop_receive_data s sender d now hrun hbuf hlen htype]
  exact handle_data_request_new _ _ _ _ _ (by rw [List.length_take]; omega) hf

theorem server_loop_receive_data_known (s : dsu_server_t) (sender : udp_endpoint)
    (d : List Nat) (now : Nat) (ci : client_info_t) (hrun : s.running_ = true)
    (hbuf : s.recv_buffer_.length = MAX_PACKET_SIZE) (hlen : 20 ≤ d.length)
    (htype : load_u32 d 16 = DSU_MESSAGE_TYPE_DATA)
    (hf : map_find (generate_client_key sender) s.clients_ = some ci) :
    (server_loop_receive s sender d now).clients_ =
      map_modify (generate_client_key sender) (fun ci => { ci with sendTimeout := 0 })
        s.clients_ := by
  have hb : 20 ≤ s.recv_buffer_.length := by rw [hbuf]; decide
  rw [server_loop_receive_data s sender d now hrun hbuf hlen htype]
  exact handle_data_request_known _ _ _ _ _ ci (by rw [List.length_take]; omega) hf

/-- C9. A valid DATA request (at least 20 bytes, message type 0x100002) from endpoint `sender`
reaching a running server: when `sender` has no session the client count grows by exactly one
and the session now registered for `sender` has idle counter 0; when it has one the client count
is unchanged and that session's idle counter is 0 afterwards; in both cases the sessions stored
under every other key, hence the session of every other IPv4 endpoint, are what they were. -/
theorem data_request_registers_or_refreshes (s : dsu_server_t) (sender : udp_endpoint)
    (d : List Nat) (now : Nat) (hrun : s.running_ = true)
    (hbuf : s.recv_buffer_.length = MAX_PACKET_SIZE) (hlen : 20 ≤ d.length)
    (htype : load_u32 d 16 = DSU_MESSAGE_TYPE_DATA) :
    (map_find (generate_client_key sender) s.clients_ = none →
      get_client_count (server_loop_receive s sender d now) = get_client_count s + 1) ∧
    (map_find (generate_client_key sender) s.clients_ ≠ none →
      get_client_count (server_loop_receive s sender d now) = get_client_count s) ∧
    (∃ ci : client_info_t,
      map_find (generate_client_key sender) (server_loop_receive s sender d now).clients_
        = some ci ∧ ci.sendTimeout = 0) ∧
    (∀ k : String, k ≠ generate_client_key sender →
      map_find k (server_loop_receive s sender d now).clients_ = map_find k s.clients_) ∧
    (∀ other : udp_endpoint, other.address < 2 ^ 32 → sender.address < 2 ^ 32 → other ≠ sender →
      map_find (generate_client_key other) (server_loop_receive s sender d now).clients_
        = map_find (generate_client_key other) s.clients_) ∧
    (server_loop_receive s sender d now).clients_.filter
        (fun kv => decide (kv.1 ≠ generate_client_key sender))
      = s.clients_.filter (fun kv => decide (kv.1 ≠ generate_client_key sender)) := by
  have hkey : ∀ other : udp_endpoint, other.address < 2 ^ 32 → sender.address < 2 ^ 32 →
      other ≠ sender → generate_client_key other ≠ generate_client_key sender :=
    fun other ho hs hne heq => hne (generate_client_key_inj other sender ho hs heq)
  unfold get_client_count
  cases hfind : map_find (generate_client_key sender) s.clients_ with
  | none =>
    rw [server_loop_receive_data_new s sender d now hrun hbuf hlen htype hfind]
    refine ⟨fun _ => map_assign_length _ _ _ hfind, fun hne => absurd rfl hne, ?_, ?_, ?_, ?_⟩
    · exact ⟨_, map_find_assign_self _ _ _, rfl⟩
    · intro k hk
      exact map_find_assign_other _ _ _ _ hk
    · intro other ho hs hne
      exact map_find_assign_other _ _ _ _ (hkey other ho hs hne)
    · exact map_assign_filter _ _ _
  | some ci =>
    rw [server_loop_receive_data_known s sender d now ci hrun hbuf hlen htype hfind]
    refine ⟨fun hnone => Option.noConfusion hnone, fun _ => map_modify_length _ _ _, ?_, ?_, ?_,
      ?_⟩
    · refine ⟨{ ci with sendTimeout := 0 }, ?_, rfl⟩
      rw [map_find_modify_self, hfind]
      rfl
    · intro k hk
      exact map_find_modify_other _ _ _ _ hk
    · intro other ho hs hne
      exact map_find_modify_other _ _ _ _ (hkey other ho hs hne)
    · exact map_modify_filter _ _ _

/-- Witness for C9: the first DATA request of `client_E` at a freshly started server. -/
theorem data_request_registers_or_refreshes_witness :
    running_server.running_ = true ∧ running_server.recv_buffer_.length = MAX_PACKET_SIZE ∧
    20 ≤ scenario_B_request.length ∧ load_u32 scenario_B_request 16 = DSU_MESSAGE_TYPE_DATA ∧
    map_find (generate_client_key client_E) running_server.clients_ = none ∧
    get_client_count (server_loop_receive running_server client_E scenario_B_request 0) = 1 := by
  refine ⟨rfl, by decide, by decide, by decide, rfl, ?_⟩
  exact (data_request_registers_or_refreshes running_server client_E scenario_B_request 0 rfl
    (by decide) (by decide) (by decide)).1 rfl

/-- C10. A DATA request from an endpoint that already has a session `ci` leaves the session
stored for that endpoint equal to `ci` with only `sendTimeout` set to 0: endpoint, client id,
controller id (and `last_seen`) are the stored ones, whatever the request carries. Hence a
session registered by a first request `d1` is literally unchanged by any later request `d2`. -/
theorem data_request_keeps_registration (s : dsu_server_t) (sender : udp_endpoint)
    (d : List Nat) (now : Nat) (ci : client_info_t) (hrun : s.running_ = true)
    (hbuf : s.recv_buffer_.length = MAX_PACKET_SIZE) (hlen : 20 ≤ d.length)
    (htype : load_u32 d 16 = DSU_MESSAGE_TYPE_DATA)
    (hci : map_find (generate_client_key sender) s.clients_ = some ci) :
    map_find (generate_client_key sender) (server_loop_receive s sender d now).clients_ =
      some { endpoint := ci.endpoint, last_seen := ci.last_seen,
             controller_id := ci.controller_id, client_id := ci.client_id, sendTimeout := 0 } := by
  rw [server_loop_receive_data_known s sender d now ci hrun hbuf hlen htype hci,
    map_find_modify_self, hci]
  rfl
set_option maxRecDepth 100000 in
/-- Witness for C10: `client_E` registers with the Scenario B request and then sends a DATA
request carrying another client id and slot 5. -/
theorem data_request_keeps_registration_witness :
    (server_loop_receive running_server client_E scenario_B_request 0).running_ = true ∧
    (server_loop_receive running_server client_E scenario_B_request 0).recv_buffer_.length
      = MAX_PACKET_SIZE ∧
    20 ≤ other_data_request.length ∧ load_u32 other_data_request 16 = DSU_MESSAGE_TYPE_DATA ∧
    map_find (generate_client_key client_E)
      (server_loop_receive running_server client_E scenario_B_request 0).clients_
        = some (client_info_t.init client_E 0 0x21A220EE 0) ∧
    map_find (generate_client_key client_E)
      (server_loop_receive (server_loop_receive running_server client_E scenario_B_request 0)
        client_E other_data_request 7).clients_
        = some (client_info_t.init client_E 0 0x21A220EE 0) := by
  refine ⟨by decide, by decide, by decide, by decide, by decide, ?_⟩
  exact data_request_keeps_registration _ client_E other_data_request 7
    (client_info_t.init client_E 0 0x21A220EE 0) (by decide) (by decide) (by decide) (by decide)
    (by decide)

/-! ## DATA responses -/

theorem shared_to_bytes_length (r : dsu_shared_response) :
    r.to_bytes.length = sizeof_dsu_shared_response := by
  simp [dsu_shared_response.to_bytes, le_bytes_length, array_bytes_length,
    sizeof_dsu_shared_response]

theorem header_to_bytes_length (h : dsu_header) : h.to_bytes.length = sizeof_dsu_header := by
  simp [dsu_header.to_bytes, le_bytes_length, sizeof_dsu_header]

theorem motion_to_bytes_length (m : dsu_motion_data) :
    m.to_bytes.length = sizeof_dsu_motion_data := by
  simp [dsu_motion_data.to_bytes, le_bytes_length, sizeof_dsu_motion_data]

theorem controller_bytes_length (p : dsu_data_packet) : p.controller_bytes.length = 37 := by
  simp [dsu_data_packet.controller_bytes, le_bytes_length, array_bytes_length]

theorem data_to_bytes_length (p : dsu_data_packet) :
    p.to_bytes.length = sizeof_dsu_data_packet := by
  simp [dsu_data_packet.to_bytes, header_to_bytes_length, shared_to_bytes_length,
    controller_bytes_length, motion_to_bytes_length, sizeof_dsu_data_packet, sizeof_dsu_header,
    sizeof_dsu_shared_response, sizeof_dsu_motion_data]

/-- Every DATA packet image, once stamped, decodes to its own fields (each reduced to the width
of the field) and some 32-bit CRC. -/
theorem data_of_bytes_stamp (m v l c id mt sl ss dm ct : Nat) (mac : List Nat)
    (bs con pid eb mb ps ls rs dp mba : Nat) (t1 t2 : List Nat) (ts ax ay az gp gy gr : Nat) :
    ∃ crc : Nat, crc < 2 ^ 32 ∧
      dsu_data_packet.of_bytes (stamp (dsu_data_packet.to_bytes
        ⟨⟨m, v, l, c, id⟩, ⟨mt, sl, ss, dm, ct, mac, bs⟩, con, pid, eb, mb, ps, ls, rs, dp, mba,
          t1, t2, ⟨ts, ax, ay, az, gp, gy, gr⟩⟩)) =
      ⟨⟨m % 256 ^ 4, v % 256 ^ 2, l % 256 ^ 2, crc, id % 256 ^ 4⟩,
        ⟨mt % 256 ^ 4, sl % 256 ^ 1, ss % 256 ^ 1, dm % 256 ^ 1, ct % 256 ^ 1, array_bytes 6 mac,
          bs % 256 ^ 1⟩,
        con % 256 ^ 1, pid % 256 ^ 4, eb % 256 ^ 1, mb % 256 ^ 1, ps % 256 ^ 2, ls % 256 ^ 2,
        rs % 256 ^ 2, dp % 256 ^ 4, mba % 256 ^ 8, array_bytes 6 t1, array_bytes 6 t2,
        ⟨ts % 256 ^ 8, ax % 256 ^ 4, ay % 256 ^ 4, az % 256 ^ 4, gp % 256 ^ 4, gy % 256 ^ 4,
          gr % 256 ^ 4⟩⟩ := by
  have hbytes : dsu_data_packet.to_bytes
      ⟨⟨m, v, l, c, id⟩, ⟨mt, sl, ss, dm, ct, mac, bs⟩, con, pid, eb, mb, ps, ls, rs, dp, mba,
        t1, t2, ⟨ts, ax, ay, az, gp, gy, gr⟩⟩
      = (le_bytes 4 m ++ (le_bytes 2 v ++ le_bytes 2 l)) ++ (le_bytes 4 c ++ (le_bytes 4 id ++
        (le_bytes 4 mt ++ (le_bytes 1 sl ++ (le_bytes 1 ss ++ (le_bytes 1 dm ++ (le_bytes 1 ct ++
        (array_bytes 6 mac ++ (le_bytes 1 bs ++ (le_bytes 1 con ++ (le_bytes 4 pid ++
        (le_bytes 1 eb ++ (le_bytes 1 mb ++ (le_bytes 2 ps ++ (le_bytes 2 ls ++ (le_bytes 2 rs ++
        (le_bytes 4 dp ++ (le_bytes 8 mba ++ (array_bytes 6 t1 ++ (array_bytes 6 t2 ++
        (le_bytes 8 ts ++ (le_bytes 4 ax ++ (le_bytes 4 ay ++ (le_bytes 4 az ++ (le_bytes 4 gp ++
        (le_bytes 4 gy ++ le_bytes 4 gr)))))))))))))))))))))))))) := by
    simp only [dsu_data_packet.to_bytes, dsu_header.to_bytes, dsu_shared_response.to_bytes,
      dsu_data_packet.controller_bytes, dsu_motion_data.to_bytes, List.append_assoc]
  rw [hbytes, stamp_blocks _ _ _ (by simp [le_bytes_length])]
  generalize crc32 _ _ = crc
  refine ⟨crc % 256 ^ 4, Nat.mod_lt _ (by norm_num), ?_⟩
  simp only [dsu_data_packet.of_bytes, dsu_header.of_bytes, dsu_shared_response.of_bytes,
    dsu_motion_data.of_bytes, List.append_assoc]
  simp [load_le_skip, drop_skip, load_le_le_bytes, load_le_le_bytes_end, take_block,
    le_bytes_length, array_bytes_length]

/-! ## The broadcast loop of `send_motion_data` -/

theorem stamp_data_crc_irrelevant (p : dsu_data_packet) (x : Nat) :
    stamp ({ p with header := { p.header with crc32 := x } }).to_bytes = stamp p.to_bytes := by
  have hb : ∀ q : dsu_data_packet, q.to_bytes =
      (le_bytes 4 q.header.magic ++ (le_bytes 2 q.header.version ++ le_bytes 2 q.header.length))
        ++ (le_bytes 4 q.header.crc32 ++ (le_bytes 4 q.header.client_id ++ (q.shared.to_bytes ++
          (q.controller_bytes ++ q.motion.to_bytes)))) := by
    intro q
    simp only [dsu_data_packet.to_bytes, dsu_header.to_bytes, List.append_assoc]
  rw [hb, hb p, stamp_blocks _ _ _ (by simp [le_bytes_length]),
    stamp_blocks _ _ _ (by simp [le_bytes_length])]
  rfl

theorem send_motion_data_to_eq (s : dsu_server_t) (ci : client_info_t) :
    ∃ crc : Nat,
      send_motion_data_to s ci =
        { s with
          packet_counter_ := (s.packet_counter_ + 1) % 2 ^ 32,
          sent := s.sent ++ [(ci.endpoint,
            data_response s.data_packet_ ci.client_id ((s.packet_counter_ + 1) % 2 ^ 32))],
          data_packet_ :=
            { s.data_packet_ with
              header := { s.data_packet_.header with client_id := ci.client_id, crc32 := crc },
              packet_id := (s.packet_counter_ + 1) % 2 ^ 32 } } := by
  have h12 : ∀ q : dsu_data_packet, 12 ≤ q.to_bytes.length := by
    intro q; rw [data_to_bytes_length]; decide
  unfold send_motion_data_to
  simp only []
  rw [← data_to_bytes_length ({ s.data_packet_ with
      header := { s.data_packet_.header with client_id := ci.client_id },
      packet_id := (s.packet_counter_ + 1) % 2 ^ 32 }),
    send_packet_with_crc_eq _ _ _ (h12 _)]
  exact ⟨_, rfl⟩

theorem data_response_junk (base : dsu_data_packet) (cid0 crc0 pid0 cid pid : Nat) :
    data_response ({ base with header := { base.header with client_id := cid0, crc32 := crc0 },
                               packet_id := pid0 }) cid pid
      = data_response ({ base with header := { base.header with crc32 := 0 } }) cid pid := by
  have h1 := stamp_data_crc_irrelevant
    ({ base with header := { base.header with client_id := cid }, packet_id := pid }) crc0
  have h2 := stamp_data_crc_irrelevant
    ({ base with header := { base.header with client_id := cid }, packet_id := pid }) 0
  unfold data_response
  exact h1.trans h2.symm

/-- The loop over the sessions: what it sends and what it leaves in the state. The packet in
`data_packet_` may carry any client id, packet id and CRC when the loop starts. -/
theorem broadcast_loop (base : dsu_data_packet) (cs : List (String × client_info_t))
    (s : dsu_server_t) (cid0 crc0 pid0 : Nat)
    (hpkt : s.data_packet_ = { base with
      header := { base.header with client_id := cid0, crc32 := crc0 }, packet_id := pid0 }) :
    ∃ pkt : dsu_data_packet,
      cs.foldl (fun st kv => send_motion_data_to st kv.2) s =
        { s with
          packet_counter_ := (fun c => (c + 1) % 2 ^ 32)^[cs.length] s.packet_counter_,
          sent := s.sent ++ broadcast ({ base with header := { base.header with crc32 := 0 } })
            s.packet_counter_ cs,
          data_packet_ := pkt } := by
  induction cs generalizing s cid0 crc0 pid0 with
  | nil =>
    refine ⟨s.data_packet_, ?_⟩
    simp [broadcast]
  | cons kv rest ih =>
    obtain ⟨crc, hstep⟩ := send_motion_data_to_eq s kv.2
    rw [List.foldl_cons, hstep]
    obtain ⟨pkt, hrest⟩ := ih
      { s with
        packet_counter_ := (s.packet_counter_ + 1) % 2 ^ 32,
        sent := s.sent ++ [(kv.2.endpoint,
          data_response s.data_packet_ kv.2.client_id ((s.packet_counter_ + 1) % 2 ^ 32))],
        data_packet_ :=
          { s.data_packet_ with
            header := { s.data_packet_.header with client_id := kv.2.client_id, crc32 := crc },
            packet_id := (s.packet_counter_ + 1) % 2 ^ 32 } }
      kv.2.client_id crc ((s.packet_counter_ + 1) % 2 ^ 32) (by rw [hpkt])
    refine ⟨pkt, ?_⟩
    rw [hrest, hpkt, data_response_junk]
    simp only [List.length_cons, Function.iterate_succ_apply, broadcast, List.append_assoc,
      List.singleton_append]

/-! ## What `send_motion_data` sends -/

theorem sent_during_append (s s' : dsu_server_t) (new : List (udp_endpoint × List Nat))
    (h : s'.sent = s.sent ++ new) : sent_during s s' = new := by
  unfold sent_during
  rw [h, List.drop_left]

theorem mem_broadcast (base : dsu_data_packet) (cs : List (String × client_info_t))
    (counter : Nat) (q : udp_endpoint × List Nat) (hq : q ∈ broadcast base counter cs) :
    ∃ kv ∈ cs, ∃ pid : Nat, q = (kv.2.endpoint, data_response base kv.2.client_id pid) := by
  induction cs generalizing counter with
  | nil => simp [broadcast] at hq
  | cons kv rest ih =>
    rw [broadcast, List.mem_cons] at hq
    rcases hq with hq | hq
    · exact ⟨kv, List.mem_cons_self _ _, _, hq⟩
    · obtain ⟨kv', hmem, pid, h⟩ := ih _ hq
      exact ⟨kv', List.mem_cons_of_mem _ hmem, pid, h⟩

theorem broadcast_length (base : dsu_data_packet) (cs : List (String × client_info_t))
    (counter : Nat) : (broadcast base counter cs).length = cs.length := by
  induction cs generalizing counter with
  | nil => rfl
  | cons kv rest ih => simp [broadcast, ih]

theorem build_data_packet_eq (controller_id : Nat) (m : motion_data_t) :
    build_data_packet controller_id m =
      ⟨⟨0x53555344, 1001, 84, 0, 0⟩, ⟨0x100002, controller_id % 2 ^ 8, 2, 2, 1, [0, 0, 0, 0, 0, 0], 0⟩,
        1, 0, 0, 0, 0, 0, 0, 0, 0, [0, 0, 0, 0, 0, 0], [0, 0, 0, 0, 0, 0],
        ⟨m.last_update / 1000 % 2 ^ 64, f32_neg m.accel_x, f32_neg m.accel_z, m.accel_y, m.gyro_x,
          f32_neg m.gyro_y, m.gyro_z⟩⟩ :=
  rfl

theorem f32_neg_lt (x : Nat) : f32_neg x < 2 ^ 32 := by
  unfold f32_neg
  exact Nat.xor_lt_two_pow (Nat.mod_lt _ (by norm_num)) (by norm_num)

/-- The fields a receiver decodes from the DATA response built for controller `controller_id`
from the cache entry `m`, for a client `cid` and packet id `pid`. -/
theorem data_response_decodes (controller_id : Nat) (m : motion_data_t) (cid pid : Nat) :
    ∃ crc : Nat, crc < 2 ^ 32 ∧
      dsu_data_packet.of_bytes (data_response (build_data_packet controller_id m) cid pid) =
        ⟨⟨0x53555344, 1001, 84, crc, cid % 2 ^ 32⟩,
          ⟨0x100002, controller_id % 256, 2, 2, 1, [0, 0, 0, 0, 0, 0], 0⟩,
          1, pid % 2 ^ 32, 0, 0, 0, 0, 0, 0, 0, [0, 0, 0, 0, 0, 0], [0, 0, 0, 0, 0, 0],
          ⟨m.last_update / 1000 % 2 ^ 64, f32_neg m.accel_x, f32_neg m.accel_z,
            m.accel_y % 2 ^ 32, m.gyro_x % 2 ^ 32, f32_neg m.gyro_y, m.gyro_z % 2 ^ 32⟩⟩ := by
  obtain ⟨crc, hcrc, hdec⟩ := data_of_bytes_stamp 0x53555344 1001 84 0 cid 0x100002
    (controller_id % 2 ^ 8) 2 2 1 [0, 0, 0, 0, 0, 0] 0 1 pid 0 0 0 0 0 0 0 [0, 0, 0, 0, 0, 0]
    [0, 0, 0, 0, 0, 0] (m.last_update / 1000 % 2 ^ 64) (f32_neg m.accel_x) (f32_neg m.accel_z)
    m.accel_y m.gyro_x (f32_neg m.gyro_y) m.gyro_z
  refine ⟨crc, hcrc, ?_⟩
  unfold data_response
  rw [build_data_packet_eq]
  refine hdec.trans ?_
  have e1 : (1398100804 : Nat) % 256 ^ 4 = 1398100804 := by decide
  have e2 : (1001 : Nat) % 256 ^ 2 = 1001 := by decide
  have e3 : (84 : Nat) % 256 ^ 2 = 84 := by decide
  have e4 : (1048578 : Nat) % 256 ^ 4 = 1048578 := by decide
  have e5 : controller_id % 2 ^ 8 % 256 ^ 1 = controller_id % 256 := by
    rw [pow_one]; exact Nat.mod_mod _ _
  have e6 : (2 : Nat) % 256 ^ 1 = 2 := by decide
  have e7 : (1 : Nat) % 256 ^ 1 = 1 := by decide
  have e8 : (0 : Nat) % 256 ^ 1 = 0 := by decide
  have e9 : (0 : Nat) % 256 ^ 2 = 0 := by decide
  have e10 : (0 : Nat) % 256 ^ 4 = 0 := by decide
  have e11 : (0 : Nat) % 256 ^ 8 = 0 := by decide
  have e12 : array_bytes 6 [0, 0, 0, 0, 0, 0] = [0, 0, 0, 0, 0, 0] := by decide
  have e13 : m.last_update / 1000 % 2 ^ 64 % 256 ^ 8 = m.last_update / 1000 % 2 ^ 64 :=
    Nat.mod_mod _ _
  have e14 : ∀ x : Nat, f32_neg x % 256 ^ 4 = f32_neg x :=
    fun x => Nat.mod_eq_of_lt (f32_neg_lt x)
  have e15 : ∀ x : Nat, x % 256 ^ 4 = x % 2 ^ 32 := fun x => rfl
  rw [e1, e2, e3, e4, e5, e6, e7, e8, e9, e10, e11, e12, e13, e14, e14, e14, e15 cid, e15 pid,
    e15 m.accel_y, e15 m.gyro_x, e15 m.gyro_z]

theorem send_motion_data_idle (s : dsu_server_t) (controller_id : Nat)
    (accel_x accel_y accel_z gyro_x gyro_y gyro_z now : Nat)
    (h : s.running_ = false ∨ s.clients_ = []) :
    send_motion_data s controller_id accel_x accel_y accel_z gyro_x gyro_y gyro_z now = s := by
  have hc : (!s.running_ || s.clients_.isEmpty) = true := by
    rcases h with h | h
    · rw [h]; rfl
    · rw [h]; simp
  unfold send_motion_data
  rw [if_pos hc]

theorem send_motion_data_no_sample (s : dsu_server_t) (controller_id : Nat)
    (accel_x accel_y accel_z gyro_x gyro_y gyro_z now : Nat) (m : motion_data_t)
    (hm : update_motion ((map_find controller_id s.motion_data_).getD (motion_data_t.init now))
      accel_x accel_y accel_z gyro_x gyro_y gyro_z now = m)
    (hrun : s.running_ = true) (hcs : s.clients_ ≠ [])
    (ha : m.has_accel = false) (hg : m.has_gyro = false) :
    send_motion_data s controller_id accel_x accel_y accel_z gyro_x gyro_y gyro_z now =
      { s with motion_data_ := map_assign controller_id m s.motion_data_ } := by
  have hc : ¬ (!s.running_ || s.clients_.isEmpty) = true := by
    rw [hrun]; simpa using hcs
  have hf : (!m.has_accel && !m.has_gyro) = true := by rw [ha, hg]; rfl
  unfold send_motion_data
  rw [if_neg hc]
  simp only [hm]
  rw [if_pos hf]

/-- With the server running, a session registered and a flag of the cache entry set,
`send_motion_data` stores the updated entry, advances the packet counter once per session and
hands one DATA response per session to the transport, in the order of `clients_`. -/
theorem send_motion_data_broadcast (s : dsu_server_t) (controller_id : Nat)
    (accel_x accel_y accel_z gyro_x gyro_y gyro_z now : Nat) (m : motion_data_t)
    (hm : update_motion ((map_find controller_id s.motion_data_).getD (motion_data_t.init now))
      accel_x accel_y accel_z gyro_x gyro_y gyro_z now = m)
    (hrun : s.running_ = true) (hcs : s.clients_ ≠ [])
    (hflag : m.has_accel = true ∨ m.has_gyro = true) :
    ∃ pkt : dsu_data_packet,
      send_motion_data s controller_id accel_x accel_y accel_z gyro_x gyro_y gyro_z now =
        { s with
          motion_data_ := map_assign controller_id m s.motion_data_,
          packet_counter_ := (fun c => (c + 1) % 2 ^ 32)^[s.clients_.length] s.packet_counter_,
          sent := s.sent ++ broadcast (build_data_packet controller_id m) s.packet_counter_
            s.clients_,
          data_packet_ := pkt } := by
  have hc : ¬ (!s.running_ || s.clients_.isEmpty) = true := by
    rw [hrun]; simpa using hcs
  have hf : ¬ (!m.has_accel && !m.has_gyro) = true := by
    rcases hflag with h | h <;> rw [h] <;> simp
  have he : ¬ s.clients_.isEmpty = true := by simpa using hcs
  obtain ⟨pkt, hloop⟩ := broadcast_loop (build_data_packet controller_id m) s.clients_
    { s with motion_data_ := map_assign controller_id m s.motion_data_,
             data_packet_ := build_data_packet controller_id m } 0 0 0 rfl
  refine ⟨pkt, ?_⟩
  unfold send_motion_data
  rw [if_neg hc]
  simp only [hm]
  rw [if_neg hf, if_neg he]
  exact hloop

theorem sent_during_self (s : dsu_server_t) : sent_during s s = [] := by
  unfold sent_during
  exact List.drop_length _

/-- Every datagram `send_motion_data` hands to the transport is the DATA response built from the
updated cache entry for some registered session and some packet id. -/
theorem sent_during_send_motion_data (s : dsu_server_t) (controller_id : Nat)
    (accel_x accel_y accel_z gyro_x gyro_y gyro_z now : Nat) (q : udp_endpoint × List Nat)
    (hq : q ∈ sent_during s
      (send_motion_data s controller_id accel_x accel_y accel_z gyro_x gyro_y gyro_z now)) :
    (send_motion_data s controller_id accel_x accel_y accel_z gyro_x gyro_y gyro_z now).motion_data_
      = map_assign controller_id
          (update_motion ((map_find controller_id s.motion_data_).getD (motion_data_t.init now))
            accel_x accel_y accel_z gyro_x gyro_y gyro_z now) s.motion_data_ ∧
    ∃ kv ∈ s.clients_, ∃ pid : Nat,
      q = (kv.2.endpoint, data_response (build_data_packet controller_id
        (update_motion ((map_find controller_id s.motion_data_).getD (motion_data_t.init now))
          accel_x accel_y accel_z gyro_x gyro_y gyro_z now)) kv.2.client_id pid) := by
  generalize hm : update_motion ((map_find controller_id s.motion_data_).getD
    (motion_data_t.init now)) accel_x accel_y accel_z gyro_x gyro_y gyro_z now = m at *
  by_cases hidle : s.running_ = false ∨ s.clients_ = []
  · rw [send_motion_data_idle s _ _ _ _ _ _ _ _ hidle, sent_during_self] at hq
    cases hq
  · have hrun : s.running_ = true := by
      cases h : s.running_ with
      | true => rfl
      | false => exact absurd (Or.inl h) hidle
    have hcs : s.clients_ ≠ [] := fun h => hidle (Or.inr h)
    by_cases hflag : m.has_accel = true ∨ m.has_gyro = true
    · obtain ⟨pkt, hsend⟩ := send_motion_data_broadcast s controller_id accel_x accel_y accel_z
        gyro_x gyro_y gyro_z now m hm hrun hcs hflag
      rw [hsend] at hq ⊢
      rw [sent_during_append s _ _ rfl] at hq
      exact ⟨rfl, mem_broadcast _ _ _ _ hq⟩
    · have ha : m.has_accel = false := by
        cases h : m.has_accel with
        | false => rfl
        | true => exact absurd (Or.inl h) hflag
      have hg : m.has_gyro = false := by
        cases h : m.has_gyro with
        | false => rfl
        | true => exact absurd (Or.inr h) hflag
      rw [send_motion_data_no_sample s controller_id accel_x accel_y accel_z gyro_x gyro_y gyro_z
        now m hm hrun hcs ha hg] at hq
      have hnil : sent_during s { s with motion_data_ := map_assign controller_id m s.motion_data_ }
          = [] := sent_during_append s _ [] (List.append_nil _).symm
      rw [hnil] at hq
      cases hq

/-- C3. For the motion sample `m` cached for a controller (six binary32 values), the motion
block of every DATA response `send_motion_data` sends for that controller carries
`accelerometer_x = -accel_x`, `accelerometer_y = -accel_z`, `accelerometer_z = accel_y`,
`gyroscope_pitch = gyro_x`, `gyroscope_yaw = -gyro_y`, `gyroscope_roll = gyro_z`, as bit
patterns and therefore as numbers. -/
theorem motion_block_remap (s : dsu_server_t) (controller_id : Nat)
    (accel_x accel_y accel_z gyro_x gyro_y gyro_z now : Nat) (m : motion_data_t)
    (hm : map_find controller_id
      (send_motion_data s controller_id accel_x accel_y accel_z gyro_x gyro_y gyro_z now).motion_data_
        = some m)
    (hrange : m.accel_x < 2 ^ 32 ∧ m.accel_y < 2 ^ 32 ∧ m.accel_z < 2 ^ 32 ∧
      m.gyro_x < 2 ^ 32 ∧ m.gyro_y < 2 ^ 32 ∧ m.gyro_z < 2 ^ 32)
    (q : udp_endpoint × List Nat)
    (hq : q ∈ sent_during s
      (send_motion_data s controller_id accel_x accel_y accel_z gyro_x gyro_y gyro_z now)) :
    ((dsu_data_packet.of_bytes q.2).motion.accelerometer_x = f32_neg m.accel_x ∧
     (dsu_data_packet.of_bytes q.2).motion.accelerometer_y = f32_neg m.accel_z ∧
     (dsu_data_packet.of_bytes q.2).motion.accelerometer_z = m.accel_y ∧
     (dsu_data_packet.of_bytes q.2).motion.gyroscope_pitch = m.gyro_x ∧
     (dsu_data_packet.of_bytes q.2).motion.gyroscope_yaw = f32_neg m.gyro_y ∧
     (dsu_data_packet.of_bytes q.2).motion.gyroscope_roll = m.gyro_z) ∧
    (f32_value (dsu_data_packet.of_bytes q.2).motion.accelerometer_x
        = (f32_value m.accel_x).map (fun v => -v) ∧
     f32_value (dsu_data_packet.of_bytes q.2).motion.accelerometer_y
        = (f32_value m.accel_z).map (fun v => -v) ∧
     f32_value (dsu_data_packet.of_bytes q.2).motion.accelerometer_z = f32_value m.accel_y ∧
     f32_value (dsu_data_packet.of_bytes q.2).motion.gyroscope_pitch = f32_value m.gyro_x ∧
     f32_value (dsu_data_packet.of_bytes q.2).motion.gyroscope_yaw
        = (f32_value m.gyro_y).map (fun v => -v) ∧
     f32_value (dsu_data_packet.of_bytes q.2).motion.gyroscope_roll = f32_value m.gyro_z) := by
  obtain ⟨hcache, kv, -, pid, hqeq⟩ := sent_during_send_motion_data s controller_id accel_x accel_y
    accel_z gyro_x gyro_y gyro_z now q hq
  rw [hcache, map_find_assign_self] at hm
  cases hm
  obtain ⟨crc, -, hdec⟩ := data_response_decodes controller_id
    (update_motion ((map_find controller_id s.motion_data_).getD (motion_data_t.init now))
      accel_x accel_y accel_z gyro_x gyro_y gyro_z now) kv.2.client_id pid
  obtain ⟨r1, r2, r3, r4, r5, r6⟩ := hrange
  have hbits :
      (dsu_data_packet.of_bytes q.2).motion.accelerometer_x = f32_neg
        (update_motion ((map_find controller_id s.motion_data_).getD (motion_data_t.init now))
          accel_x accel_y accel_z gyro_x gyro_y gyro_z now).accel_x ∧
      (dsu_data_packet.of_bytes q.2).motion.accelerometer_y = f32_neg
        (update_motion ((map_find controller_id s.motion_data_).getD (motion_data_t.init now))
          accel_x accel_y accel_z gyro_x gyro_y gyro_z now).accel_z ∧
      (dsu_data_packet.of_bytes q.2).motion.accelerometer_z =
        (update_motion ((map_find controller_id s.motion_data_).getD (motion_data_t.init now))
          accel_x accel_y accel_z gyro_x gyro_y gyro_z now).accel_y ∧
      (dsu_data_packet.of_bytes q.2).motion.gyroscope_pitch =
        (update_motion ((map_find controller_id s.motion_data_).getD (motion_data_t.init now))
          accel_x accel_y accel_z gyro_x gyro_y gyro_z now).gyro_x ∧
      (dsu_data_packet.of_bytes q.2).motion.gyroscope_yaw = f32_neg
        (update_motion ((map_find controller_id s.motion_data_).getD (motion_data_t.init now))
          accel_x accel_y accel_z gyro_x gyro_y gyro_z now).gyro_y ∧
      (dsu_data_packet.of_bytes q.2).motion.gyroscope_roll =
        (update_motion ((map_find controller_id s.motion_data_).getD (motion_data_t.init now))
          accel_x accel_y accel_z gyro_x gyro_y gyro_z now).gyro_z := by
    rw [hqeq, hdec]
    exact ⟨rfl, rfl, Nat.mod_eq_of_lt r2, Nat.mod_eq_of_lt r4, rfl, Nat.mod_eq_of_lt r6⟩
  obtain ⟨b1, b2, b3, b4, b5, b6⟩ := hbits
  refine ⟨⟨b1, b2, b3, b4, b5, b6⟩, ?_, ?_, ?_, ?_, ?_, ?_⟩
  · rw [b1]; exact f32_value_neg _ r1
  · rw [b2]; exact f32_value_neg _ r3
  · rw [b3]
  · rw [b4]
  · rw [b5]; exact f32_value_neg _ r5
  · rw [b6]

/-- Witness for C3 (Scenario B): the sample (1, 2, 3, 4, 5, 6) pushed for controller 0 reaches
the registered client as (-1, -3, 2, 4, -5, 6). -/
theorem motion_block_remap_witness :
    [0x3F800000, 0x40000000, 0x40400000, 0x40800000, 0x40A00000, 0x40C00000].map f32_value
      = [some 1, some 2, some 3, some 4, some 5, some 6] ∧
    sent_during scenario_B_server scenario_B_after = [(client_E, scenario_B_response)] ∧
    [(dsu_data_packet.of_bytes scenario_B_response).motion.accelerometer_x,
     (dsu_data_packet.of_bytes scenario_B_response).motion.accelerometer_y,
     (dsu_data_packet.of_bytes scenario_B_response).motion.accelerometer_z,
     (dsu_data_packet.of_bytes scenario_B_response).motion.gyroscope_pitch,
     (dsu_data_packet.of_bytes scenario_B_response).motion.gyroscope_yaw,
     (dsu_data_packet.of_bytes scenario_B_response).motion.gyroscope_roll]
      = [f32_neg 0x3F800000, f32_neg 0x40400000, 0x40000000, 0x40800000, f32_neg 0x40A00000,
         0x40C00000] ∧
    [f32_neg 0x3F800000, f32_neg 0x40400000, 0x40000000, 0x40800000, f32_neg 0x40A00000,
      0x40C00000].map f32_value = [some (-1), some (-3), some 2, some 4, some (-5), some 6] := by
  have hsent : sent_during scenario_B_server scenario_B_after
      = [(client_E, scenario_B_response)] := by decide!
  have hmem : (client_E, scenario_B_response) ∈ sent_during scenario_B_server
      (send_motion_data scenario_B_server 0 0x3F800000 0x40000000 0x40400000 0x40800000
        0x40A00000 0x40C00000 7000) := by
    show (client_E, scenario_B_response) ∈ sent_during scenario_B_server scenario_B_after
    rw [hsent]
    exact List.mem_singleton.mpr rfl
  obtain ⟨⟨h1, h2, h3, h4, h5, h6⟩, -⟩ := motion_block_remap scenario_B_server 0 0x3F800000 0x40000000
    0x40400000 0x40800000 0x40A00000 0x40C00000 7000
    { accel_x := 0x3F800000, accel_y := 0x40000000, accel_z := 0x40400000, gyro_x := 0x40800000,
      gyro_y := 0x40A00000, gyro_z := 0x40C00000, last_update := 7000, has_accel := true,
      has_gyro := true }
    (by decide!) (by decide) (client_E, scenario_B_response) hmem
  have n1 : f32_neg 0x3F800000 = 0xBF800000 := by decide
  have n2 : f32_neg 0x40400000 = 0xC0400000 := by decide
  have n3 : f32_neg 0x40A00000 = 0xC0A00000 := by decide
  refine ⟨by norm_num [f32_value], hsent, ?_, ?_⟩
  · exact congrArg₂ List.cons h1 (congrArg₂ List.cons h2 (congrArg₂ List.cons h3
      (congrArg₂ List.cons h4 (congrArg₂ List.cons h5 (congrArg₂ List.cons h6 rfl)))))
  · rw [n1, n2, n3]
    norm_num [f32_value]

/-- C7. Every DATA response `send_motion_data` sends carries message type 0x100002, slot
state 2, device model 2, connection type 1, an all-zero hardware address, battery status 0,
`connected = 1`, and zero in `extra_buttons`, `main_buttons`, `ps_extra_input`, both sticks,
`dpad_analog`, `main_buttons_analog` and both 6-byte touch blocks. -/
theorem data_response_fixed_fields (s : dsu_server_t) (controller_id : Nat)
    (accel_x accel_y accel_z gyro_x gyro_y gyro_z now : Nat) (q : udp_endpoint × List Nat)
    (hq : q ∈ sent_during s
      (send_motion_data s controller_id accel_x accel_y accel_z gyro_x gyro_y gyro_z now)) :
    (dsu_data_packet.of_bytes q.2).shared.message_type = 0x100002 ∧
    (dsu_data_packet.of_bytes q.2).shared.slot_state = 2 ∧
    (dsu_data_packet.of_bytes q.2).shared.device_model = 2 ∧
    (dsu_data_packet.of_bytes q.2).shared.connection_type = 1 ∧
    (dsu_data_packet.of_bytes q.2).shared.mac_address = [0, 0, 0, 0, 0, 0] ∧
    (dsu_data_packet.of_bytes q.2).shared.battery_status = 0 ∧
    (dsu_data_packet.of_bytes q.2).connected = 1 ∧
    (dsu_data_packet.of_bytes q.2).extra_buttons = 0 ∧
    (dsu_data_packet.of_bytes q.2).main_buttons = 0 ∧
    (dsu_data_packet.of_bytes q.2).ps_extra_input = 0 ∧
    (dsu_data_packet.of_bytes q.2).left_stick_xy = 0 ∧
    (dsu_data_packet.of_bytes q.2).right_stick_xy = 0 ∧
    (dsu_data_packet.of_bytes q.2).dpad_analog = 0 ∧
    (dsu_data_packet.of_bytes q.2).main_buttons_analog = 0 ∧
    (dsu_data_packet.of_bytes q.2).touch1 = [0, 0, 0, 0, 0, 0] ∧
    (dsu_data_packet.of_bytes q.2).touch2 = [0, 0, 0, 0, 0, 0] := by
  obtain ⟨-, kv, -, pid, hqeq⟩ := sent_during_send_motion_data s controller_id accel_x accel_y
    accel_z gyro_x gyro_y gyro_z now q hq
  obtain ⟨crc, -, hdec⟩ := data_response_decodes controller_id
    (update_motion ((map_find controller_id s.motion_data_).getD (motion_data_t.init now))
      accel_x accel_y accel_z gyro_x gyro_y gyro_z now) kv.2.client_id pid
  rw [hqeq, hdec]
  exact ⟨rfl, rfl, rfl, rfl, rfl, rfl, rfl, rfl, rfl, rfl, rfl, rfl, rfl, rfl, rfl, rfl⟩

/-- Witness for C7 (Scenario B): the one response sent to the registered client. -/
theorem data_response_fixed_fields_witness :
    (client_E, scenario_B_response) ∈ sent_during scenario_B_server
      (send_motion_data scenario_B_server 0 0x3F800000 0x40000000 0x40400000 0x40800000
        0x40A00000 0x40C00000 7000) ∧
    (dsu_data_packet.of_bytes scenario_B_response).shared.connection_type = 1 ∧
    (dsu_data_packet.of_bytes scenario_B_response).shared.battery_status = 0 ∧
    (dsu_data_packet.of_bytes scenario_B_response).connected = 1 := by
  have hmem : (client_E, scenario_B_response) ∈ sent_during scenario_B_server
      (send_motion_data scenario_B_server 0 0x3F800000 0x40000000 0x40400000 0x40800000
        0x40A00000 0x40C00000 7000) := by decide!
  have h := data_response_fixed_fields scenario_B_server 0 0x3F800000 0x40000000 0x40400000
    0x40800000 0x40A00000 0x40C00000 7000 (client_E, scenario_B_response) hmem
  exact ⟨hmem, h.2.2.2.1, h.2.2.2.2.2.1, h.2.2.2.2.2.2.1⟩

/-! ## Packet framing -/

theorem handle_data_request_sent (s : dsu_server_t) (e : udp_endpoint) (data : List Nat)
    (size now : Nat) : (handle_data_request s e data size now).sent = s.sent := by
  unfold handle_data_request
  split
  · rfl
  · simp only []
    split <;> rfl

theorem handle_info_request_sent (s : dsu_server_t) (e : udp_endpoint) (data : List Nat)
    (size : Nat) :
    (handle_info_request s e data size).sent = s.sent ∨
      ∃ cid slot : Nat, (handle_info_request s e data size).sent
        = s.sent ++ [(e, stamp (build_info_packet cid slot).to_bytes)] := by
  by_cases hsz : size < 20
  · left
    unfold handle_info_request
    rw [if_pos hsz]
  · right
    obtain ⟨pkt, hreq⟩ := handle_info_request_eq s e data size (by omega)
    exact ⟨_, _, by rw [hreq]⟩

theorem handle_receive_sync_sent (s : dsu_server_t) (ec : Bool) (n now : Nat) :
    (handle_receive_sync s ec n now).sent = s.sent ∨
      ∃ cid slot : Nat, (handle_receive_sync s ec n now).sent
        = s.sent ++ [(s.remote_endpoint_, stamp (build_info_packet cid slot).to_bytes)] := by
  unfold handle_receive_sync
  by_cases h1 : (!s.running_) = true
  · rw [if_pos h1]; exact Or.inl rfl
  rw [if_neg h1]
  by_cases h2 : ec = true
  · rw [if_pos h2]; exact Or.inl rfl
  rw [if_neg h2]
  by_cases h3 : n < 4
  · rw [if_pos h3]; exact Or.inl rfl
  rw [if_neg h3]
  by_cases h4 : n < 16
  · rw [if_pos h4]; exact Or.inl rfl
  rw [if_neg h4]
  simp only []
  by_cases h5 : load_u32 s.recv_buffer_ 16 = DSU_MESSAGE_TYPE_INFO
  · rw [if_pos h5]; exact handle_info_request_sent _ _ _ _
  rw [if_neg h5]
  by_cases h6 : load_u32 s.recv_buffer_ 16 = DSU_MESSAGE_TYPE_DATA
  · rw [if_pos h6]; exact Or.inl (handle_data_request_sent _ _ _ _ _)
  rw [if_neg h6]
  exact Or.inl rfl

/-- Whatever `server_loop_receive` sends is one stamped INFO packet, addressed to the sender of
the datagram. -/
theorem sent_during_server_loop_receive (s : dsu_server_t) (sender : udp_endpoint)
    (d : List Nat) (now : Nat) (q : udp_endpoint × List Nat)
    (hq : q ∈ sent_during s (server_loop_receive s sender d now)) :
    ∃ cid slot : Nat, q = (sender, stamp (build_info_packet cid slot).to_bytes) := by
  have hcases := handle_receive_sync_sent (receive_from s sender d).1 false
    (receive_from s sender d).2 now
  have hrecv : (server_loop_receive s sender d now).sent
      = (handle_receive_sync (receive_from s sender d).1 false (receive_from s sender d).2
          now).sent := rfl
  have hs : (receive_from s sender d).1.sent = s.sent := rfl
  have he : (receive_from s sender d).1.remote_endpoint_ = sender := rfl
  rw [← hrecv, hs, he] at hcases
  rcases hcases with h | ⟨cid, slot, h⟩
  · have hnil := sent_during_append s _ [] (h.trans (List.append_nil _).symm)
    rw [hnil] at hq
    cases hq
  · rw [sent_during_append s _ _ h] at hq
    exact ⟨cid, slot, List.mem_singleton.mp hq⟩

theorem data_to_bytes_with_crc (p : dsu_data_packet) (crc : Nat) :
    le_bytes 4 p.header.magic ++ (le_bytes 2 p.header.version ++ le_bytes 2 p.header.length) ++
      (le_bytes 4 crc ++ (le_bytes 4 p.header.client_id ++ (p.shared.to_bytes ++
        (p.controller_bytes ++ p.motion.to_bytes))))
      = ({ p with header := { p.header with crc32 := crc } } : dsu_data_packet).to_bytes := by
  rw [dsu_data_packet.to_bytes, dsu_header.to_bytes]
  simp only [List.append_assoc]
  rfl

theorem stamp_data_to_bytes (p : dsu_data_packet) :
    ∃ pkt : dsu_data_packet,
      stamp p.to_bytes = pkt.header.to_bytes ++ pkt.shared.to_bytes ++ pkt.controller_bytes
        ++ pkt.motion.to_bytes := by
  have hb : p.to_bytes =
      (le_bytes 4 p.header.magic ++ (le_bytes 2 p.header.version ++ le_bytes 2 p.header.length))
        ++ (le_bytes 4 p.header.crc32 ++ (le_bytes 4 p.header.client_id ++ (p.shared.to_bytes ++
          (p.controller_bytes ++ p.motion.to_bytes)))) := by
    simp only [dsu_data_packet.to_bytes, dsu_header.to_bytes, List.append_assoc]
  rw [hb, stamp_blocks _ _ _ (by simp [le_bytes_length])]
  exact ⟨_, data_to_bytes_with_crc p _⟩

/-- C8. Every INFO response and every DATA response starts with the header magic 0x53555344
(bytes 0..3), version 1001 (bytes 4..5) and a length field (bytes 6..7) equal to the packet
size minus 16. An INFO response is exactly 32 bytes long, its length field is 16. A DATA
response is the concatenation of a 16-byte header, the shared response, the controller data and
a 32-byte motion block. -/
theorem response_framing (s : dsu_server_t) (q : udp_endpoint × List Nat) :
    (∀ (sender : udp_endpoint) (d : List Nat) (now : Nat),
      q ∈ sent_during s (server_loop_receive s sender d now) →
        (dsu_header.of_bytes q.2 0).magic = 0x53555344 ∧
        (dsu_header.of_bytes q.2 0).version = 1001 ∧
        (dsu_header.of_bytes q.2 0).length = q.2.length - 16 ∧
        q.2.length = 32 ∧
        (dsu_header.of_bytes q.2 0).length = 16) ∧
    (∀ controller_id accel_x accel_y accel_z gyro_x gyro_y gyro_z now : Nat,
      q ∈ sent_during s
        (send_motion_data s controller_id accel_x accel_y accel_z gyro_x gyro_y gyro_z now) →
        (dsu_header.of_bytes q.2 0).magic = 0x53555344 ∧
        (dsu_header.of_bytes q.2 0).version = 1001 ∧
        (dsu_header.of_bytes q.2 0).length = q.2.length - 16 ∧
        ∃ pkt : dsu_data_packet,
          q.2 = pkt.header.to_bytes ++ pkt.shared.to_bytes ++ pkt.controller_bytes
            ++ pkt.motion.to_bytes ∧
          pkt.header.to_bytes.length = 16 ∧ pkt.motion.to_bytes.length = 32) := by
  constructor
  · intro sender d now hq
    obtain ⟨cid, slot, hqeq⟩ := sent_during_server_loop_receive s sender d now q hq
    obtain ⟨crc, -, hdec⟩ := info_of_bytes_stamp 0x53555344 1001 16 0 cid 0x100001 slot 2 2 2
      [1, 0, 0, 0, 0, 0] 2 0
    have hlen : (stamp (build_info_packet cid slot).to_bytes).length = 32 := by
      rw [stamp_length _ (by rw [info_to_bytes_length]; decide), info_to_bytes_length]
      rfl
    have hhdr : dsu_header.of_bytes (stamp (build_info_packet cid slot).to_bytes) 0
        = ⟨0x53555344 % 256 ^ 4, 1001 % 256 ^ 2, 16 % 256 ^ 2, crc, cid % 256 ^ 4⟩ := by
      rw [build_info_packet_eq]
      exact congrArg dsu_info_response.header hdec
    rw [hqeq, hhdr, hlen]
    exact ⟨rfl, rfl, rfl, rfl, rfl⟩
  · intro controller_id accel_x accel_y accel_z gyro_x gyro_y gyro_z now hq
    obtain ⟨-, kv, -, pid, hqeq⟩ := sent_during_send_motion_data s controller_id accel_x accel_y
      accel_z gyro_x gyro_y gyro_z now q hq
    obtain ⟨crc, -, hdec⟩ := data_response_decodes controller_id
      (update_motion ((map_find controller_id s.motion_data_).getD (motion_data_t.init now))
        accel_x accel_y accel_z gyro_x gyro_y gyro_z now) kv.2.client_id pid
    have hhdr := congrArg dsu_data_packet.header hdec
    have hlen : q.2.length = 100 := by
      rw [hqeq]
      unfold data_response
      rw [stamp_length _ (by rw [data_to_bytes_length]; decide), data_to_bytes_length]
      rfl
    obtain ⟨pkt, hbytes⟩ := stamp_data_to_bytes
      ({ build_data_packet controller_id
          (update_motion ((map_find controller_id s.motion_data_).getD (motion_data_t.init now))
            accel_x accel_y accel_z gyro_x gyro_y gyro_z now) with
        header := { (build_data_packet controller_id
          (update_motion ((map_find controller_id s.motion_data_).getD (motion_data_t.init now))
            accel_x accel_y accel_z gyro_x gyro_y gyro_z now)).header with
              client_id := kv.2.client_id },
        packet_id := pid })
    have hh : (dsu_header.of_bytes q.2 0) = ⟨0x53555344, 1001, 84, crc, kv.2.client_id % 2 ^ 32⟩ := by
      rw [hqeq]; exact hhdr
    rw [hh, hlen]
    refine ⟨rfl, rfl, rfl, pkt, ?_, ?_, ?_⟩
    · rw [hqeq]
      exact hbytes
    · rw [header_to_bytes_length]; rfl
    · rw [motion_to_bytes_length]; rfl

/-- Witness for C8: the INFO response of Scenario A and the DATA response of Scenario B. -/
theorem response_framing_witness :
    (client_E, scenario_A_response) ∈ sent_during running_server
      (server_loop_receive running_server client_E scenario_A_request 0) ∧
    (dsu_header.of_bytes scenario_A_response 0).length = 16 ∧
    scenario_A_response.length = 32 ∧
    (client_E, scenario_B_response) ∈ sent_during scenario_B_server
      (send_motion_data scenario_B_server 0 0x3F800000 0x40000000 0x40400000 0x40800000
        0x40A00000 0x40C00000 7000) ∧
    (dsu_header.of_bytes scenario_B_response 0).magic = 0x53555344 ∧
    (dsu_header.of_bytes scenario_B_response 0).length = scenario_B_response.length - 16 := by
  have hA : (client_E, scenario_A_response) ∈ sent_during running_server
      (server_loop_receive running_server client_E scenario_A_request 0) := by decide!
  have hB : (client_E, scenario_B_response) ∈ sent_during scenario_B_server
      (send_motion_data scenario_B_server 0 0x3F800000 0x40000000 0x40400000 0x40800000
        0x40A00000 0x40C00000 7000) := by decide!
  have h1 := (response_framing running_server (client_E, scenario_A_response)).1 client_E
    scenario_A_request 0 hA
  have h2 := (response_framing scenario_B_server (client_E, scenario_B_response)).2 0 0x3F800000
    0x40000000 0x40400000 0x40800000 0x40A00000 0x40C00000 7000 hB
  exact ⟨hA, h1.2.2.2.2, h1.2.2.2.1, hB, h2.1, h2.2.2.1⟩

/-! ## Session ageing -/

theorem int32_wrap_eq (x : Int) (h1 : -2 ^ 31 ≤ x) (h2 : x < 2 ^ 31) : int32_wrap x = x := by
  unfold int32_wrap
  omega

theorem cleanup_loop_eq_filterMap (l : List (String × client_info_t))
    (h : ∀ kv ∈ l, -2 ^ 31 ≤ kv.2.sendTimeout ∧ kv.2.sendTimeout < 2 ^ 31 - 1) :
    cleanup_loop l = l.filterMap (fun kv =>
      if kv.2.sendTimeout < 39 then
        some (kv.1, { kv.2 with sendTimeout := kv.2.sendTimeout + 1 })
      else none) := by
  induction l with
  | nil => rfl
  | cons kv rest ih =>
    obtain ⟨key, info⟩ := kv
    have hr : -2 ^ 31 ≤ info.sendTimeout ∧ info.sendTimeout < 2 ^ 31 - 1 :=
      h (key, info) (List.mem_cons_self _ _)
    have hw : int32_wrap (info.sendTimeout + 1) = info.sendTimeout + 1 :=
      int32_wrap_eq _ (by omega) (by omega)
    have ih' := ih (fun kv hkv => h kv (List.mem_cons_of_mem _ hkv))
    unfold cleanup_loop
    simp only [hw, CLIENT_TIMEOUT, ge_iff_le]
    by_cases hlt : info.sendTimeout < 39
    · have hnot : ¬ (40 : Int) ≤ info.sendTimeout + 1 := by omega
      rw [if_neg hnot, List.filterMap_cons]
      simp only [hlt, if_true]
      rw [ih']
    · have hge : (40 : Int) ≤ info.sendTimeout + 1 := by omega
      rw [if_pos hge, List.filterMap_cons]
      simp only [hlt, if_false]
      exact ih'

/-- C11. One call of `cleanup_timeout_clients` leaves in the registry exactly the sessions whose
idle counter was below 39 before the call (counter + 1 < 40), in their order, each with the
counter incremented by one and every other field unchanged; every session whose incremented
counter reaches 40 is removed. Nothing else in the server state changes. -/
theorem cleanup_timeout_clients_spec (s : dsu_server_t)
    (hint : ∀ kv ∈ s.clients_, -2 ^ 31 ≤ kv.2.sendTimeout ∧ kv.2.sendTimeout < 2 ^ 31 - 1) :
    cleanup_timeout_clients s =
      { s with clients_ := s.clients_.filterMap (fun kv =>
          if kv.2.sendTimeout < 39 then
            some (kv.1, { endpoint := kv.2.endpoint, last_seen := kv.2.last_seen,
                          controller_id := kv.2.controller_id, client_id := kv.2.client_id,
                          sendTimeout := kv.2.sendTimeout + 1 })
          else none) } ∧
    (∀ kv ∈ (cleanup_timeout_clients s).clients_, kv.2.sendTimeout < 40) ∧
    (∀ kv ∈ s.clients_, 40 ≤ kv.2.sendTimeout + 1 →
      ∀ kv' ∈ (cleanup_timeout_clients s).clients_,
        kv' ≠ (kv.1, { kv.2 with sendTimeout := kv.2.sendTimeout + 1 })) := by
  have heq := cleanup_loop_eq_filterMap s.clients_ hint
  have hmem : ∀ kv' ∈ (cleanup_timeout_clients s).clients_, kv'.2.sendTimeout < 40 := by
    intro kv' hkv'
    unfold cleanup_timeout_clients at hkv'
    simp only [heq, List.mem_filterMap] at hkv'
    obtain ⟨kv, -, hsome⟩ := hkv'
    by_cases hlt : kv.2.sendTimeout < 39
    · simp only [hlt, if_true, Option.some.injEq] at hsome
      rw [← hsome]
      show kv.2.sendTimeout + 1 < 40
      omega
    · simp only [hlt, if_false] at hsome
      cases hsome
  refine ⟨?_, hmem, ?_⟩
  · unfold cleanup_timeout_clients
    rw [heq]
  · intro kv _ hge kv' hkv' hcontra
    have := hmem kv' hkv'
    rw [hcontra] at this
    have h2 : kv.2.sendTimeout + 1 < 40 := this
    omega

/-- Witness for C11: a registry with one session at counter 38 and one at counter 39. -/
theorem cleanup_timeout_clients_spec_witness :
    (∀ kv ∈ [("a", client_info_t.mk client_E 0 0 7 38), ("b", client_info_t.mk client_E 0 1 8 39)],
      -2 ^ 31 ≤ kv.2.sendTimeout ∧ kv.2.sendTimeout < 2 ^ 31 - 1) ∧
    (cleanup_timeout_clients { running_server with
        clients_ := [("a", client_info_t.mk client_E 0 0 7 38),
                     ("b", client_info_t.mk client_E 0 1 8 39)] }).clients_
      = [("a", client_info_t.mk client_E 0 0 7 39)] := by
  have hint : ∀ kv ∈ [("a", client_info_t.mk client_E 0 0 7 38),
      ("b", client_info_t.mk client_E 0 1 8 39)],
      -2 ^ 31 ≤ kv.2.sendTimeout ∧ kv.2.sendTimeout < 2 ^ 31 - 1 := by
    intro kv hkv
    simp only [List.mem_cons, List.mem_singleton, List.not_mem_nil, or_false] at hkv
    rcases hkv with h | h <;> rw [h] <;> constructor <;> decide
  refine ⟨hint, ?_⟩
  rw [(cleanup_timeout_clients_spec { running_server with
        clients_ := [("a", client_info_t.mk client_E 0 0 7 38),
                     ("b", client_info_t.mk client_E 0 1 8 39)] } hint).1]
  decide

theorem map_find_eq_none_of_not_mem {K V : Type} [DecidableEq K] (k : K) (l : List (K × V))
    (h : k ∉ l.map Prod.fst) : map_find k l = none := by
  induction l with
  | nil => rfl
  | cons kv rest ih =>
    obtain ⟨k', v⟩ := kv
    simp only [List.map_cons, List.mem_cons, not_or] at h
    unfold map_find
    rw [if_neg (fun heq => h.1 heq.symm)]
    exact ih h.2

theorem mem_keys_of_map_find {K V : Type} [DecidableEq K] (k : K) (v : V) (l : List (K × V))
    (h : map_find k l = some v) : k ∈ l.map Prod.fst := by
  by_contra hn
  rw [map_find_eq_none_of_not_mem k l hn] at h
  cases h

theorem cleanup_loop_keys_sublist (l : List (String × client_info_t)) :
    ((cleanup_loop l).map Prod.fst).Sublist (l.map Prod.fst) := by
  induction l with
  | nil => exact List.Sublist.refl _
  | cons kv rest ih =>
    obtain ⟨key, info⟩ := kv
    unfold cleanup_loop
    simp only []
    split
    · exact List.Sublist.cons _ ih
    · exact List.Sublist.cons₂ _ ih

theorem cleanup_loop_keys_nodup (l : List (String × client_info_t))
    (h : (l.map Prod.fst).Nodup) : ((cleanup_loop l).map Prod.fst).Nodup :=
  List.Nodup.sublist (cleanup_loop_keys_sublist l) h

/-- The entry found under a key after one cleanup tick, in a registry without duplicate keys. -/
theorem map_find_cleanup_loop (k : String) (l : List (String × client_info_t))
    (h : (l.map Prod.fst).Nodup) :
    map_find k (cleanup_loop l) =
      (map_find k l).bind (fun ci =>
        if int32_wrap (ci.sendTimeout + 1) ≥ CLIENT_TIMEOUT then none
        else some { ci with sendTimeout := int32_wrap (ci.sendTimeout + 1) }) := by
  induction l with
  | nil => rfl
  | cons kv rest ih =>
    obtain ⟨key, info⟩ := kv
    rw [List.map_cons, List.nodup_cons] at h
    have ih' := ih h.2
    have hsub : k ∉ (cleanup_loop rest).map Prod.fst → map_find k (cleanup_loop rest) = none :=
      map_find_eq_none_of_not_mem k _
    unfold cleanup_loop
    simp only []
    by_cases hk : key = k
    · subst hk
      have hnot : key ∉ (cleanup_loop rest).map Prod.fst :=
        fun hm => h.1 ((cleanup_loop_keys_sublist rest).subset hm)
      by_cases hge : int32_wrap (info.sendTimeout + 1) ≥ CLIENT_TIMEOUT
      · rw [if_pos hge, hsub hnot]
        simp [map_find, hge]
      · rw [if_neg hge]
        simp [map_find, hge]
    · by_cases hge : int32_wrap (info.sendTimeout + 1) ≥ CLIENT_TIMEOUT
      · rw [if_pos hge, ih']
        simp [map_find, hk]
      · rw [if_neg hge]
        simp only [map_find, hk, if_false]
        exact ih'

theorem not_mem_keys_of_map_find_none {K V : Type} [DecidableEq K] (k : K) (l : List (K × V))
    (h : map_find k l = none) : k ∉ l.map Prod.fst := by
  induction l with
  | nil => simp
  | cons kv rest ih =>
    obtain ⟨k', v⟩ := kv
    unfold map_find at h
    by_cases hk : k' = k
    · rw [if_pos hk] at h; cases h
    · rw [if_neg hk] at h
      simp only [List.map_cons, List.mem_cons, not_or]
      exact ⟨fun heq => hk heq.symm, ih h⟩

theorem cleanup_ticks_succ (k : Nat) (s : dsu_server_t) :
    cleanup_ticks (k + 1) s = cleanup_ticks k (cleanup_timeout_clients s) := by
  unfold cleanup_ticks
  rw [Function.iterate_succ_apply]

theorem cleanup_ticks_frame (k : Nat) (s : dsu_server_t) :
    (cleanup_ticks k s).running_ = s.running_ ∧
    (cleanup_ticks k s).recv_buffer_ = s.recv_buffer_ ∧
    (((s.clients_.map Prod.fst).Nodup) → ((cleanup_ticks k s).clients_.map Prod.fst).Nodup) := by
  induction k generalizing s with
  | zero => exact ⟨rfl, rfl, fun h => h⟩
  | succ k ih =>
    rw [cleanup_ticks_succ]
    obtain ⟨h1, h2, h3⟩ := ih (cleanup_timeout_clients s)
    exact ⟨h1, h2, fun h => h3 (cleanup_loop_keys_nodup _ h)⟩

theorem cleanup_ticks_keys_sublist (k : Nat) (s : dsu_server_t) :
    ((cleanup_ticks k s).clients_.map Prod.fst).Sublist (s.clients_.map Prod.fst) := by
  induction k generalizing s with
  | zero => exact List.Sublist.refl _
  | succ k ih =>
    rw [cleanup_ticks_succ]
    exact (ih (cleanup_timeout_clients s)).trans (cleanup_loop_keys_sublist _)

theorem map_find_cleanup_ticks_none (key : String) (k : Nat) (s : dsu_server_t)
    (h : map_find key s.clients_ = none) : map_find key (cleanup_ticks k s).clients_ = none := by
  apply map_find_eq_none_of_not_mem
  intro hm
  exact not_mem_keys_of_map_find_none key _ h ((cleanup_ticks_keys_sublist k s).subset hm)

/-- The session found under a key after `k` cleanup ticks: the counter has grown by `k`, and the
session is gone as soon as the counter reaches 40. -/
theorem map_find_cleanup_ticks (key : String) (k : Nat) (s : dsu_server_t) (ci : client_info_t)
    (hkeys : (s.clients_.map Prod.fst).Nodup)
    (hfind : map_find key s.clients_ = some ci)
    (hlo : 0 ≤ ci.sendTimeout) (hhi : ci.sendTimeout < 40) :
    map_find key (cleanup_ticks k s).clients_ =
      if ci.sendTimeout + k < 40 then some { ci with sendTimeout := ci.sendTimeout + k }
      else none := by
  induction k generalizing s ci with
  | zero =>
    simp only [Nat.cast_zero, add_zero, hhi, if_true]
    exact hfind
  | succ k ih =>
    rw [cleanup_ticks_succ]
    have hw : int32_wrap (ci.sendTimeout + 1) = ci.sendTimeout + 1 :=
      int32_wrap_eq _ (by omega) (by omega)
    have hstep : map_find key (cleanup_timeout_clients s).clients_ =
        if ci.sendTimeout + 1 < 40 then some { ci with sendTimeout := ci.sendTimeout + 1 }
        else none := by
      show map_find key (cleanup_loop s.clients_) = _
      rw [map_find_cleanup_loop key _ hkeys, hfind]
      simp only [Option.some_bind, hw, CLIENT_TIMEOUT, ge_iff_le]
      by_cases hlt : ci.sendTimeout + 1 < 40
      · rw [if_neg (by omega), if_pos hlt]
      · rw [if_pos (by omega), if_neg hlt]
    have hnd : ((cleanup_timeout_clients s).clients_.map Prod.fst).Nodup :=
      cleanup_loop_keys_nodup _ hkeys
    by_cases hlt : ci.sendTimeout + 1 < 40
    · rw [if_pos hlt] at hstep
      rw [ih (cleanup_timeout_clients s) { ci with sendTimeout := ci.sendTimeout + 1 } hnd hstep
        (by show 0 ≤ ci.sendTimeout + 1; omega) hlt]
      show (if ci.sendTimeout + 1 + (k : Int) < 40 then _ else _) = _
      have e : ci.sendTimeout + 1 + (k : Int) = ci.sendTimeout + ((k + 1 : Nat) : Int) := by
        push_cast; ring
      simp only [e]
    · rw [if_neg hlt] at hstep
      rw [map_find_cleanup_ticks_none key k _ hstep, if_neg (by push_cast; omega)]

/-! ## What each operation leaves alone -/

theorem handle_data_request_frame (s : dsu_server_t) (e : udp_endpoint) (data : List Nat)
    (size now : Nat) :
    handle_data_request s e data size now =
      { s with clients_ := (handle_data_request s e data size now).clients_ } := by
  unfold handle_data_request
  by_cases hsz : size < 20
  · rw [if_pos hsz]
  · rw [if_neg hsz]
    simp only []
    split <;> rfl

theorem handle_info_request_frame (s : dsu_server_t) (e : udp_endpoint) (data : List Nat)
    (size : Nat) :
    handle_info_request s e data size =
      { s with sent := (handle_info_request s e data size).sent,
               info_packet_ := (handle_info_request s e data size).info_packet_ } := by
  unfold handle_info_request
  by_cases hsz : size < 20
  · rw [if_pos hsz]
  · rw [if_neg hsz]
    rfl

/-- How `handle_receive_sync` dispatches: it does nothing, or it runs one of the two handlers
on a running server with at least 20 bytes received. -/
theorem handle_receive_sync_cases (s : dsu_server_t) (ec : Bool) (n now : Nat) :
    handle_receive_sync s ec n now = s ∨
    (s.running_ = true ∧ 20 ≤ n ∧ load_u32 s.recv_buffer_ 16 = DSU_MESSAGE_TYPE_INFO ∧
      handle_receive_sync s ec n now
        = handle_info_request s s.remote_endpoint_ s.recv_buffer_ n) ∨
    (s.running_ = true ∧ 20 ≤ n ∧ load_u32 s.recv_buffer_ 16 = DSU_MESSAGE_TYPE_DATA ∧
      handle_receive_sync s ec n now
        = handle_data_request s s.remote_endpoint_ s.recv_buffer_ n now) := by
  unfold handle_receive_sync
  by_cases h1 : (!s.running_) = true
  · rw [if_pos h1]; exact Or.inl rfl
  rw [if_neg h1]
  have hrun : s.running_ = true := by
    cases h : s.running_ with
    | true => rfl
    | false => rw [h] at h1; exact absurd rfl h1
  by_cases h2 : ec = true
  · rw [if_pos h2]; exact Or.inl rfl
  rw [if_neg h2]
  by_cases h3 : n < 4
  · rw [if_pos h3]; exact Or.inl rfl
  rw [if_neg h3]
  by_cases h4 : n < 16
  · rw [if_pos h4]; exact Or.inl rfl
  rw [if_neg h4]
  simp only []
  by_cases h5 : load_u32 s.recv_buffer_ 16 = DSU_MESSAGE_TYPE_INFO
  · rw [if_pos h5]
    by_cases hsz : n < 20
    · left
      unfold handle_info_request
      rw [if_pos hsz]
    · exact Or.inr (Or.inl ⟨hrun, by omega, h5, rfl⟩)
  rw [if_neg h5]
  by_cases h6 : load_u32 s.recv_buffer_ 16 = DSU_MESSAGE_TYPE_DATA
  · rw [if_pos h6]
    by_cases hsz : n < 20
    · left
      unfold handle_data_request
      rw [if_pos hsz]
    · exact Or.inr (Or.inr ⟨hrun, by omega, h6, rfl⟩)
  rw [if_neg h6]
  exact Or.inl rfl

theorem handle_info_request_clients (s : dsu_server_t) (e : udp_endpoint) (data : List Nat)
    (size : Nat) : (handle_info_request s e data size).clients_ = s.clients_ := by
  rw [handle_info_request_frame]

theorem handle_receive_sync_frame (s : dsu_server_t) (ec : Bool) (n now : Nat) :
    (handle_receive_sync s ec n now).motion_data_ = s.motion_data_ ∧
    (handle_receive_sync s ec n now).packet_counter_ = s.packet_counter_ ∧
    (handle_receive_sync s ec n now).running_ = s.running_ ∧
    (handle_receive_sync s ec n now).recv_buffer_ = s.recv_buffer_ ∧
    (handle_receive_sync s ec n now).socket_open = s.socket_open ∧
    (handle_receive_sync s ec n now).server_thread_ = s.server_thread_ := by
  rcases handle_receive_sync_cases s ec n now with h | ⟨-, -, -, h⟩ | ⟨-, -, -, h⟩
  · rw [h]; exact ⟨rfl, rfl, rfl, rfl, rfl, rfl⟩
  · rw [h, handle_info_request_frame]; exact ⟨rfl, rfl, rfl, rfl, rfl, rfl⟩
  · rw [h, handle_data_request_frame]; exact ⟨rfl, rfl, rfl, rfl, rfl, rfl⟩

theorem server_loop_receive_frame (s : dsu_server_t) (sender : udp_endpoint) (d : List Nat)
    (now : Nat) :
    (server_loop_receive s sender d now).motion_data_ = s.motion_data_ ∧
    (server_loop_receive s sender d now).packet_counter_ = s.packet_counter_ ∧
    (server_loop_receive s sender d now).running_ = s.running_ ∧
    (server_loop_receive s sender d now).recv_buffer_.length = s.recv_buffer_.length ∧
    (server_loop_receive s sender d now).socket_open = s.socket_open ∧
    (server_loop_receive s sender d now).server_thread_ = s.server_thread_ := by
  obtain ⟨h1, h2, h3, h4, h5, h6⟩ := handle_receive_sync_frame (receive_from s sender d).1 false
    (receive_from s sender d).2 now
  have hrecv : server_loop_receive s sender d now
      = handle_receive_sync (receive_from s sender d).1 false (receive_from s sender d).2 now :=
    rfl
  rw [hrecv, h1, h2, h3, h4, h5, h6]
  exact ⟨rfl, rfl, rfl, receive_from_length _ _, rfl, rfl⟩

/-- How a received datagram changes the registry: not at all, or a session is added for a
sender that had none, or the sender's session has its idle counter reset. -/
theorem server_loop_receive_clients (s : dsu_server_t) (sender : udp_endpoint) (d : List Nat)
    (now : Nat) :
    (server_loop_receive s sender d now).clients_ = s.clients_ ∨
    (map_find (generate_client_key sender) s.clients_ = none ∧
      ∃ controller_id client_id : Nat,
        (server_loop_receive s sender d now).clients_ =
          map_assign (generate_client_key sender)
            (client_info_t.init sender controller_id client_id now) s.clients_) ∨
    (∃ ci : client_info_t, map_find (generate_client_key sender) s.clients_ = some ci ∧
      (server_loop_receive s sender d now).clients_ =
        map_modify (generate_client_key sender) (fun ci => { ci with sendTimeout := 0 })
          s.clients_) := by
  have hrecv : server_loop_receive s sender d now
      = handle_receive_sync (receive_from s sender d).1 false (receive_from s sender d).2 now :=
    rfl
  rcases handle_receive_sync_cases (receive_from s sender d).1 false (receive_from s sender d).2
    now with h | ⟨-, -, -, h⟩ | ⟨-, hn, -, h⟩
  · left; rw [hrecv, h]; rfl
  · left; rw [hrecv, h, handle_info_request_clients]; rfl
  · rw [hrecv, h]
    cases hf : map_find (generate_client_key sender) s.clients_ with
    | none =>
      right; left
      exact ⟨rfl, _, _,
        handle_data_request_new (receive_from s sender d).1 sender _ _ now hn hf⟩
    | some ci =>
      right; right
      exact ⟨ci, rfl,
        handle_data_request_known (receive_from s sender d).1 sender _ _ now ci hn hf⟩

theorem send_motion_data_frame (s : dsu_server_t) (controller_id : Nat)
    (accel_x accel_y accel_z gyro_x gyro_y gyro_z now : Nat) :
    (send_motion_data s controller_id accel_x accel_y accel_z gyro_x gyro_y gyro_z now).clients_
      = s.clients_ ∧
    (send_motion_data s controller_id accel_x accel_y accel_z gyro_x gyro_y gyro_z now).running_
      = s.running_ ∧
    (send_motion_data s controller_id accel_x accel_y accel_z gyro_x gyro_y gyro_z now).recv_buffer_
      = s.recv_buffer_ ∧
    (send_motion_data s controller_id accel_x accel_y accel_z gyro_x gyro_y gyro_z now).socket_open
      = s.socket_open ∧
    (send_motion_data s controller_id accel_x accel_y accel_z gyro_x gyro_y gyro_z
      now).server_thread_ = s.server_thread_ := by
  by_cases hidle : s.running_ = false ∨ s.clients_ = []
  · rw [send_motion_data_idle s _ _ _ _ _ _ _ _ hidle]
    exact ⟨rfl, rfl, rfl, rfl, rfl⟩
  · have hrun : s.running_ = true := by
      cases h : s.running_ with
      | true => rfl
      | false => exact absurd (Or.inl h) hidle
    have hcs : s.clients_ ≠ [] := fun h => hidle (Or.inr h)
    by_cases hflag :
        (update_motion ((map_find controller_id s.motion_data_).getD (motion_data_t.init now))
          accel_x accel_y accel_z gyro_x gyro_y gyro_z now).has_accel = true ∨
        (update_motion ((map_find controller_id s.motion_data_).getD (motion_data_t.init now))
          accel_x accel_y accel_z gyro_x gyro_y gyro_z now).has_gyro = true
    · obtain ⟨pkt, hsend⟩ := send_motion_data_broadcast s controller_id accel_x accel_y accel_z
        gyro_x gyro_y gyro_z now _ rfl hrun hcs hflag
      rw [hsend]
      exact ⟨rfl, rfl, rfl, rfl, rfl⟩
    · have ha : (update_motion ((map_find controller_id s.motion_data_).getD
          (motion_data_t.init now)) accel_x accel_y accel_z gyro_x gyro_y gyro_z now).has_accel
          = false := by
        cases h : (update_motion ((map_find controller_id s.motion_data_).getD
          (motion_data_t.init now)) accel_x accel_y accel_z gyro_x gyro_y gyro_z now).has_accel with
        | false => rfl
        | true => exact absurd (Or.inl h) hflag
      have hg : (update_motion ((map_find controller_id s.motion_data_).getD
          (motion_data_t.init now)) accel_x accel_y accel_z gyro_x gyro_y gyro_z now).has_gyro
          = false := by
        cases h : (update_motion ((map_find controller_id s.motion_data_).getD
          (motion_data_t.init now)) accel_x accel_y accel_z gyro_x gyro_y gyro_z now).has_gyro with
        | false => rfl
        | true => exact absurd (Or.inr h) hflag
      rw [send_motion_data_no_sample s controller_id accel_x accel_y accel_z gyro_x gyro_y gyro_z
        now _ rfl hrun hcs ha hg]
      exact ⟨rfl, rfl, rfl, rfl, rfl⟩

/-- The motion cache after `send_motion_data`: untouched unless the server runs and has a
session, otherwise the entry of `controller_id` is replaced by its update. -/
theorem send_motion_data_cache (s : dsu_server_t) (controller_id : Nat)
    (accel_x accel_y accel_z gyro_x gyro_y gyro_z now : Nat) :
    (send_motion_data s controller_id accel_x accel_y accel_z gyro_x gyro_y gyro_z now).motion_data_
      = if s.running_ = true ∧ s.clients_ ≠ [] then
          map_assign controller_id
            (update_motion ((map_find controller_id s.motion_data_).getD (motion_data_t.init now))
              accel_x accel_y accel_z gyro_x gyro_y gyro_z now) s.motion_data_
        else s.motion_data_ := by
  by_cases hidle : s.running_ = false ∨ s.clients_ = []
  · rw [send_motion_data_idle s _ _ _ _ _ _ _ _ hidle, if_neg]
    rintro ⟨h1, h2⟩
    rcases hidle with h | h
    · rw [h] at h1; cases h1
    · exact h2 h
  · have hrun : s.running_ = true := by
      cases h : s.running_ with
      | true => rfl
      | false => exact absurd (Or.inl h) hidle
    have hcs : s.clients_ ≠ [] := fun h => hidle (Or.inr h)
    rw [if_pos ⟨hrun, hcs⟩]
    by_cases hflag :
        (update_motion ((map_find controller_id s.motion_data_).getD (motion_data_t.init now))
          accel_x accel_y accel_z gyro_x gyro_y gyro_z now).has_accel = true ∨
        (update_motion ((map_find controller_id s.motion_data_).getD (motion_data_t.init now))
          accel_x accel_y accel_z gyro_x gyro_y gyro_z now).has_gyro = true
    · obtain ⟨pkt, hsend⟩ := send_motion_data_broadcast s controller_id accel_x accel_y accel_z
        gyro_x gyro_y gyro_z now _ rfl hrun hcs hflag
      rw [hsend]
    · have ha : (update_motion ((map_find controller_id s.motion_data_).getD
          (motion_data_t.init now)) accel_x accel_y accel_z gyro_x gyro_y gyro_z now).has_accel
          = false := by
        cases h : (update_motion ((map_find controller_id s.motion_data_).getD
          (motion_data_t.init now)) accel_x accel_y accel_z gyro_x gyro_y gyro_z now).has_accel with
        | false => rfl
        | true => exact absurd (Or.inl h) hflag
      have hg : (update_motion ((map_find controller_id s.motion_data_).getD
          (motion_data_t.init now)) accel_x accel_y accel_z gyro_x gyro_y gyro_z now).has_gyro
          = false := by
        cases h : (update_motion ((map_find controller_id s.motion_data_).getD
          (motion_data_t.init now)) accel_x accel_y accel_z gyro_x gyro_y gyro_z now).has_gyro with
        | false => rfl
        | true => exact absurd (Or.inr h) hflag
      rw [send_motion_data_no_sample s controller_id accel_x accel_y accel_z gyro_x gyro_y gyro_z
        now _ rfl hrun hcs ha hg]

theorem map_modify_keys {K V : Type} [DecidableEq K] (k : K) (f : V → V) (m : List (K × V)) :
    (map_modify k f m).map Prod.fst = m.map Prod.fst := by
  induction m with
  | nil => rfl
  | cons kv rest ih =>
    obtain ⟨k', v⟩ := kv
    unfold map_modify
    by_cases h : k' = k
    · rw [if_pos h]; rfl
    · rw [if_neg h, List.map_cons, List.map_cons, ih]

/-- What `update_clients_activity` does: only `clients_` changes; the keys stay, and the
session under any key keeps every field except possibly `last_seen`. -/
theorem update_clients_activity_spec (client_endpoints : List udp_endpoint) (now : Nat)
    (s : dsu_server_t) :
    update_clients_activity s client_endpoints now =
      { s with clients_ := (update_clients_activity s client_endpoints now).clients_ } ∧
    (update_clients_activity s client_endpoints now).clients_.map Prod.fst
      = s.clients_.map Prod.fst ∧
    ∀ k : String,
      (map_find k s.clients_ = none →
        map_find k (update_clients_activity s client_endpoints now).clients_ = none) ∧
      (∀ ci : client_info_t, map_find k s.clients_ = some ci →
        ∃ t : Nat, map_find k (update_clients_activity s client_endpoints now).clients_
          = some { ci with last_seen := t }) := by
  induction client_endpoints generalizing s with
  | nil =>
    refine ⟨rfl, rfl, fun k => ⟨fun h => h, fun ci h => ⟨ci.last_seen, h⟩⟩⟩
  | cons e rest ih =>
    have hstep : update_clients_activity s (e :: rest) now =
        update_clients_activity
          (match map_find (generate_client_key e) s.clients_ with
            | some _ => { s with clients_ := map_modify (generate_client_key e) (fun ci => { ci with last_seen := now }) s.clients_ }
            | none => s) rest now := rfl
    rw [hstep]
    cases hf : map_find (generate_client_key e) s.clients_ with
    | none =>
      exact ih s
    | some ci0 =>
      simp only []
      obtain ⟨h1, h2, h3⟩ := ih { s with clients_ := map_modify (generate_client_key e) (fun ci => { ci with last_seen := now }) s.clients_ }
      refine ⟨?_, ?_, ?_⟩
      · rw [h1]
      · rw [h2]
        exact map_modify_keys _ _ _
      · intro k
        obtain ⟨hn, hs⟩ := h3 k
        by_cases hk : k = generate_client_key e
        · subst hk
          constructor
          · intro hnone
            rw [hf] at hnone
            cases hnone
          · intro ci hci
            rw [hf] at hci
            cases hci
            obtain ⟨t, ht⟩ := hs { ci0 with last_seen := now } (by
              show map_find _ (map_modify _ _ _) = _
              rw [map_find_modify_self, hf]
              rfl)
            exact ⟨t, ht⟩
        · constructor
          · intro hnone
            apply hn
            show map_find _ (map_modify _ _ _) = _
            rw [map_find_modify_other _ _ _ _ hk]
            exact hnone
          · intro ci hci
            apply hs
            show map_find _ (map_modify _ _ _) = _
            rw [map_find_modify_other _ _ _ _ hk]
            exact hci

/-! ## Datagrams that are not DATA requests -/

/-- A datagram that is shorter than 20 bytes or whose type is not DATA leaves the registry as
it is, whatever the receive buffer held. -/
theorem server_loop_receive_not_data (s : dsu_server_t) (sender : udp_endpoint) (d : List Nat)
    (now : Nat) (hbuf : s.recv_buffer_.length = MAX_PACKET_SIZE)
    (h : d.length < 20 ∨ load_u32 d 16 ≠ DSU_MESSAGE_TYPE_DATA) :
    (server_loop_receive s sender d now).clients_ = s.clients_ := by
  have hrecv : server_loop_receive s sender d now
      = handle_receive_sync (receive_from s sender d).1 false (receive_from s sender d).2 now :=
    rfl
  have hmax : MAX_PACKET_SIZE = 100 := rfl
  rcases handle_receive_sync_cases (receive_from s sender d).1 false (receive_from s sender d).2
    now with h1 | ⟨-, -, -, h1⟩ | ⟨-, hn, ht, h1⟩
  · rw [hrecv, h1]; rfl
  · rw [hrecv, h1, handle_info_request_clients]; rfl
  · exfalso
    have hn' : 20 ≤ (d.take s.recv_buffer_.length).length := hn
    rw [List.length_take] at hn'
    have hd : 20 ≤ d.length := by omega
    have ht' : load_u32 (store_bytes s.recv_buffer_ 0 (d.take s.recv_buffer_.length)) 16
        = DSU_MESSAGE_TYPE_DATA := ht
    unfold load_u32 at ht'
    rw [receive_from_load _ _ _ _ (by omega) (by omega)] at ht'
    rcases h with h | h
    · omega
    · exact h ht'

theorem map_assign_keys_perm {K V : Type} [DecidableEq K] [LT K]
    [DecidableRel (fun a b : K => a < b)] (k : K) (v : V) (m : List (K × V))
    (h : map_find k m = none) :
    ((map_assign k v m).map Prod.fst).Perm (k :: m.map Prod.fst) := by
  induction m with
  | nil => exact List.Perm.refl _
  | cons kv rest ih =>
    obtain ⟨k', v'⟩ := kv
    unfold map_find at h
    by_cases hk : k' = k
    · rw [if_pos hk] at h; cases h
    · rw [if_neg hk] at h
      unfold map_assign
      rw [if_neg hk]
      by_cases hlt : k < k'
      · rw [if_pos hlt]
        exact List.Perm.refl _
      · rw [if_neg hlt]
        simp only [List.map_cons]
        exact List.Perm.trans (List.Perm.cons k' (ih h)) (List.Perm.swap k k' _)

theorem map_assign_keys_nodup {K V : Type} [DecidableEq K] [LT K]
    [DecidableRel (fun a b : K => a < b)] (k : K) (v : V) (m : List (K × V))
    (h : map_find k m = none) (hn : (m.map Prod.fst).Nodup) :
    ((map_assign k v m).map Prod.fst).Nodup := by
  rw [List.Perm.nodup_iff (map_assign_keys_perm k v m h), List.nodup_cons]
  exact ⟨not_mem_keys_of_map_find_none k m h, hn⟩

theorem start_frame (s : dsu_server_t) (open_ok options_ok bind_ok : Bool) :
    (start s open_ok options_ok bind_ok).1.clients_ = s.clients_ ∧
    (start s open_ok options_ok bind_ok).1.motion_data_ = s.motion_data_ ∧
    (start s open_ok options_ok bind_ok).1.packet_counter_ = s.packet_counter_ ∧
    (start s open_ok options_ok bind_ok).1.recv_buffer_ = s.recv_buffer_ ∧
    (start s open_ok options_ok bind_ok).1.sent = s.sent := by
  unfold start
  cases s.running_ <;> cases s.socket_open <;> cases open_ok <;> cases options_ok <;>
    cases bind_ok <;> exact ⟨rfl, rfl, rfl, rfl, rfl⟩

theorem stop_frame (s : dsu_server_t) :
    (stop s).motion_data_ = s.motion_data_ ∧
    (stop s).packet_counter_ = s.packet_counter_ ∧
    (stop s).recv_buffer_ = s.recv_buffer_ ∧
    (stop s).sent = s.sent ∧
    ((stop s).clients_ = s.clients_ ∨ (stop s).clients_ = []) := by
  unfold stop
  cases s.running_
  · exact ⟨rfl, rfl, rfl, rfl, Or.inl rfl⟩
  · exact ⟨rfl, rfl, rfl, rfl, Or.inr rfl⟩

/-- No operation produces two sessions under one key. -/
theorem server_step_keys_nodup (s : dsu_server_t) (op : server_op)
    (h : (s.clients_.map Prod.fst).Nodup) :
    ((server_step s op).clients_.map Prod.fst).Nodup := by
  cases op with
  | receive sender d now =>
    show ((server_loop_receive s sender d now).clients_.map Prod.fst).Nodup
    rcases server_loop_receive_clients s sender d now with h1 | ⟨hf, _, _, h1⟩ | ⟨_, _, h1⟩
    · rw [h1]; exact h
    · rw [h1]; exact map_assign_keys_nodup _ _ _ hf h
    · rw [h1, map_modify_keys]; exact h
  | cleanup => exact cleanup_loop_keys_nodup _ h
  | motion c ax ay az gx gy gz now =>
    show ((send_motion_data s c ax ay az gx gy gz now).clients_.map Prod.fst).Nodup
    rw [(send_motion_data_frame s c ax ay az gx gy gz now).1]; exact h
  | activity es now =>
    show ((update_clients_activity s es now).clients_.map Prod.fst).Nodup
    rw [(update_clients_activity_spec es now s).2.1]; exact h
  | start a b c =>
    show ((start s a b c).1.clients_.map Prod.fst).Nodup
    rw [(start_frame s a b c).1]; exact h
  | stop =>
    show ((stop s).clients_.map Prod.fst).Nodup
    rcases (stop_frame s).2.2.2.2 with h1 | h1
    · rw [h1]; exact h
    · rw [h1]; exact List.nodup_nil

theorem server_step_buffer_length (s : dsu_server_t) (op : server_op) :
    (server_step s op).recv_buffer_.length = s.recv_buffer_.length := by
  cases op with
  | receive sender d now => exact (server_loop_receive_frame s sender d now).2.2.2.1
  | cleanup => rfl
  | motion c ax ay az gx gy gz now =>
    show (send_motion_data s c ax ay az gx gy gz now).recv_buffer_.length = _
    rw [(send_motion_data_frame s c ax ay az gx gy gz now).2.2.1]
  | activity es now =>
    show (update_clients_activity s es now).recv_buffer_.length = _
    rw [(update_clients_activity_spec es now s).1]
  | start a b c =>
    show (start s a b c).1.recv_buffer_.length = _
    rw [(start_frame s a b c).2.2.2.1]
  | stop =>
    show (stop s).recv_buffer_.length = _
    rw [(stop_frame s).2.2.1]

theorem server_run_cons (s : dsu_server_t) (op : server_op) (ops : List server_op) :
    server_run s (op :: ops) = server_run (server_step s op) ops := rfl

theorem server_run_keys_nodup (ops : List server_op) (s : dsu_server_t)
    (h : (s.clients_.map Prod.fst).Nodup) :
    ((server_run s ops).clients_.map Prod.fst).Nodup := by
  induction ops generalizing s with
  | nil => exact h
  | cons op rest ih =>
    rw [server_run_cons]
    exact ih _ (server_step_keys_nodup s op h)

theorem server_run_buffer_length (ops : List server_op) (s : dsu_server_t) :
    (server_run s ops).recv_buffer_.length = s.recv_buffer_.length := by
  induction ops generalizing s with
  | nil => rfl
  | cons op rest ih =>
    rw [server_run_cons, ih, server_step_buffer_length]

/-- An operation other than a cleanup tick that is not a DATA request of `e` keeps the session
of `e` as it is, apart from `last_seen`, and creates none for `e`. -/
theorem server_step_leaves_alone (s : dsu_server_t) (e : udp_endpoint) (op : server_op)
    (haddr : e.address < 2 ^ 32) (hbuf : s.recv_buffer_.length = MAX_PACKET_SIZE)
    (hop : leaves_alone e op = true) (hnc : op ≠ server_op.cleanup) :
    (map_find (generate_client_key e) s.clients_ = none →
      map_find (generate_client_key e) (server_step s op).clients_ = none) ∧
    (∀ ci : client_info_t, map_find (generate_client_key e) s.clients_ = some ci →
      ∃ t : Nat, map_find (generate_client_key e) (server_step s op).clients_
        = some { ci with last_seen := t }) := by
  have hsame : ∀ cl : List (String × client_info_t), cl = s.clients_ →
      (map_find (generate_client_key e) s.clients_ = none →
        map_find (generate_client_key e) cl = none) ∧
      (∀ ci : client_info_t, map_find (generate_client_key e) s.clients_ = some ci →
        ∃ t : Nat, map_find (generate_client_key e) cl = some { ci with last_seen := t }) := by
    intro cl hcl
    rw [hcl]
    exact ⟨fun h => h, fun ci h => ⟨ci.last_seen, h⟩⟩
  cases op with
  | receive sender d now =>
    show (_ → map_find _ (server_loop_receive s sender d now).clients_ = none) ∧
      (∀ ci : client_info_t, _ →
        ∃ t : Nat, map_find _ (server_loop_receive s sender d now).clients_ = _)
    have hop' : (sender ≠ e ∧ sender.address < 2 ^ 32) ∨ d.length < 20
        ∨ load_u32 d 16 ≠ DSU_MESSAGE_TYPE_DATA := by
      simp only [leaves_alone, Bool.or_eq_true, Bool.and_eq_true, decide_eq_true_eq] at hop
      rcases hop with (h | h) | h
      · exact Or.inl h
      · exact Or.inr (Or.inl h)
      · exact Or.inr (Or.inr h)
    rcases hop' with ⟨hne, hsa⟩ | hnd
    · have hkey : generate_client_key e ≠ generate_client_key sender :=
        fun hk => hne (generate_client_key_inj e sender haddr hsa hk).symm
      rcases server_loop_receive_clients s sender d now with h1 | ⟨_, _, _, h1⟩ | ⟨_, _, h1⟩
      · exact hsame _ h1
      · rw [h1, map_find_assign_other _ _ _ _ hkey]
        exact hsame _ rfl
      · rw [h1, map_find_modify_other _ _ _ _ hkey]
        exact hsame _ rfl
    · exact hsame _ (server_loop_receive_not_data s sender d now hbuf hnd)
  | cleanup => exact absurd rfl hnc
  | motion c ax ay az gx gy gz now =>
    exact hsame _ (send_motion_data_frame s c ax ay az gx gy gz now).1
  | activity es now =>
    exact (update_clients_activity_spec es now s).2.2 (generate_client_key e)
  | start a b c => exact hsame _ (start_frame s a b c).1
  | stop => cases hop

/-! ## The life of a session -/

theorem count_ticks_cons (op : server_op) (ops : List server_op)
    (h : op ≠ server_op.cleanup) : count_ticks (op :: ops) = count_ticks ops := by
  cases op with
  | cleanup => exact absurd rfl h
  | receive _ _ _ => rfl
  | motion _ _ _ _ _ _ _ _ => rfl
  | activity _ _ => rfl
  | start _ _ _ => rfl
  | stop => rfl

theorem int32_wrap_succ (c : Int) (hlo : 0 ≤ c) (hhi : c < 40) : int32_wrap (c + 1) = c + 1 := by
  unfold int32_wrap
  have h1 : (c + 1 + 2 ^ 31) % 2 ^ 32 = c + 1 + 2 ^ 31 :=
    Int.emod_eq_of_lt (by omega) (by omega)
  rw [h1]
  omega

/-- A registry without a session of `e` has none after operations that contain no DATA request
of `e`. -/
theorem map_find_server_run_none (e : udp_endpoint) (haddr : e.address < 2 ^ 32)
    (ops : List server_op) (s : dsu_server_t)
    (hbuf : s.recv_buffer_.length = MAX_PACKET_SIZE)
    (hops : ∀ op ∈ ops, leaves_alone e op = true)
    (hfind : map_find (generate_client_key e) s.clients_ = none) :
    map_find (generate_client_key e) (server_run s ops).clients_ = none := by
  induction ops generalizing s with
  | nil => exact hfind
  | cons op rest ih =>
    rw [server_run_cons]
    have hbuf' : (server_step s op).recv_buffer_.length = MAX_PACKET_SIZE := by
      rw [server_step_buffer_length]; exact hbuf
    apply ih _ hbuf' (fun o ho => hops o (List.mem_cons_of_mem _ ho))
    by_cases hc : op = server_op.cleanup
    · subst hc
      apply map_find_eq_none_of_not_mem
      intro hm
      exact not_mem_keys_of_map_find_none _ _ hfind ((cleanup_loop_keys_sublist _).subset hm)
    · exact (server_step_leaves_alone s e op haddr hbuf (hops op (List.mem_cons_self _ _))
        hc).1 hfind

/-- The session of `e` across operations that contain no DATA request of `e`: its idle counter
grows by the number of cleanup ticks and it is erased when the counter reaches 40. -/
theorem map_find_server_run (e : udp_endpoint) (haddr : e.address < 2 ^ 32)
    (ops : List server_op) (s : dsu_server_t) (ci : client_info_t)
    (hkeys : (s.clients_.map Prod.fst).Nodup)
    (hbuf : s.recv_buffer_.length = MAX_PACKET_SIZE)
    (hops : ∀ op ∈ ops, leaves_alone e op = true)
    (hfind : map_find (generate_client_key e) s.clients_ = some ci)
    (hlo : 0 ≤ ci.sendTimeout) (hhi : ci.sendTimeout < 40) :
    (ci.sendTimeout + count_ticks ops < 40 →
      ∃ t : Nat, map_find (generate_client_key e) (server_run s ops).clients_
        = some { ci with sendTimeout := ci.sendTimeout + count_ticks ops, last_seen := t }) ∧
    (40 ≤ ci.sendTimeout + count_ticks ops →
      map_find (generate_client_key e) (server_run s ops).clients_ = none) := by
  induction ops generalizing s ci with
  | nil =>
    constructor
    · intro _
      refine ⟨ci.last_seen, ?_⟩
      have h0 : ((count_ticks [] : Nat) : Int) = 0 := rfl
      rw [h0, add_zero]
      exact hfind
    · intro h
      have h0 : ((count_ticks [] : Nat) : Int) = 0 := rfl
      omega
  | cons op rest ih =>
    rw [server_run_cons]
    have hbuf' : (server_step s op).recv_buffer_.length = MAX_PACKET_SIZE := by
      rw [server_step_buffer_length]; exact hbuf
    have hkeys' := server_step_keys_nodup s op hkeys
    have hrest : ∀ o ∈ rest, leaves_alone e o = true :=
      fun o ho => hops o (List.mem_cons_of_mem _ ho)
    by_cases hc : op = server_op.cleanup
    · subst hc
      have hcount : ((count_ticks (server_op.cleanup :: rest) : Nat) : Int)
          = (count_ticks rest : Int) + 1 := by
        show ((count_ticks rest + 1 : Nat) : Int) = _
        push_cast
        rfl
      rw [hcount]
      have hstep : map_find (generate_client_key e)
          (server_step s server_op.cleanup).clients_ =
          (if int32_wrap (ci.sendTimeout + 1) ≥ CLIENT_TIMEOUT then none
           else some { ci with sendTimeout := int32_wrap (ci.sendTimeout + 1) }) := by
        show map_find _ (cleanup_loop s.clients_) = _
        rw [map_find_cleanup_loop _ _ hkeys, hfind]
        rfl
      rw [int32_wrap_succ _ hlo hhi] at hstep
      have hct : CLIENT_TIMEOUT = 40 := rfl
      rw [hct] at hstep
      by_cases hge : ci.sendTimeout + 1 ≥ 40
      · rw [if_pos hge] at hstep
        constructor
        · intro h; omega
        · intro _
          exact map_find_server_run_none e haddr rest _ hbuf' hrest hstep
      · rw [if_neg hge] at hstep
        obtain ⟨ih1, ih2⟩ := ih (server_step s server_op.cleanup)
          { ci with sendTimeout := ci.sendTimeout + 1 } hkeys' hbuf' hrest hstep
          (show (0 : Int) ≤ ci.sendTimeout + 1 by omega)
          (show ci.sendTimeout + 1 < 40 by omega)
        have harith : ci.sendTimeout + 1 + (count_ticks rest : Int)
            = ci.sendTimeout + ((count_ticks rest : Int) + 1) := by ring
        constructor
        · intro h
          obtain ⟨t, ht⟩ := ih1 (show ci.sendTimeout + 1 + (count_ticks rest : Int) < 40 by omega)
          refine ⟨t, ?_⟩
          rw [ht]
          have hci : ({ ci with sendTimeout := ci.sendTimeout + 1 + (count_ticks rest : Int), last_seen := t } : client_info_t) = { ci with sendTimeout := ci.sendTimeout + ((count_ticks rest : Int) + 1), last_seen := t } := by
            rw [harith]
          exact congrArg some hci
        · intro h
          exact ih2 (show 40 ≤ ci.sendTimeout + 1 + (count_ticks rest : Int) by omega)
    · rw [count_ticks_cons op rest hc]
      obtain ⟨t0, ht0⟩ := (server_step_leaves_alone s e op haddr hbuf
        (hops op (List.mem_cons_self _ _)) hc).2 ci hfind
      obtain ⟨ih1, ih2⟩ := ih (server_step s op) { ci with last_seen := t0 } hkeys' hbuf' hrest
        ht0 hlo hhi
      constructor
      · intro h
        obtain ⟨t, ht⟩ := ih1 h
        exact ⟨t, ht⟩
      · intro h
        exact ih2 h

theorem server_step_running (s : dsu_server_t) (e : udp_endpoint) (op : server_op)
    (hop : leaves_alone e op = true) (hrun : s.running_ = true) :
    (server_step s op).running_ = true := by
  cases op with
  | receive sender d now =>
    show (server_loop_receive s sender d now).running_ = true
    rw [(server_loop_receive_frame s sender d now).2.2.1]; exact hrun
  | cleanup => exact hrun
  | motion c ax ay az gx gy gz now =>
    show (send_motion_data s c ax ay az gx gy gz now).running_ = true
    rw [(send_motion_data_frame s c ax ay az gx gy gz now).2.1]; exact hrun
  | activity es now =>
    show (update_clients_activity s es now).running_ = true
    rw [(update_clients_activity_spec es now s).1]; exact hrun
  | start a b c =>
    show (start s a b c).1.running_ = true
    unfold start
    rw [hrun]
    exact hrun
  | stop => cases hop

theorem server_run_running (e : udp_endpoint) (ops : List server_op) (s : dsu_server_t)
    (hops : ∀ op ∈ ops, leaves_alone e op = true) (hrun : s.running_ = true) :
    (server_run s ops).running_ = true := by
  induction ops generalizing s with
  | nil => exact hrun
  | cons op rest ih =>
    rw [server_run_cons]
    exact ih _ (fun o ho => hops o (List.mem_cons_of_mem _ ho))
      (server_step_running s e op (hops op (List.mem_cons_self _ _)) hrun)

/-- C12. Let endpoint `e` have a session `ci` that has just been registered or refreshed (idle
counter 0) in a running server. After `k` consecutive cleanup ticks the session is registered
with idle counter `k` when `k < 40` and is absent when `k ≥ 40`. The same holds for any sequence
of operations with `k` cleanup ticks among which there is no DATA request of `e` and no
`stop()` (other datagrams, samples, activity reports and `start()` calls may occur; only
`last_seen` may differ). If after a sequence with 39 ticks `e` sends a DATA request, the
session is registered with idle counter 0, and from there again stays for fewer than 40 ticks
and is absent after 40 or more. -/
theorem session_eviction_timeline (s : dsu_server_t) (e : udp_endpoint) (ci : client_info_t)
    (hrun : s.running_ = true) (hbuf : s.recv_buffer_.length = MAX_PACKET_SIZE)
    (hkeys : (s.clients_.map Prod.fst).Nodup) (haddr : e.address < 2 ^ 32)
    (hfind : map_find (generate_client_key e) s.clients_ = some ci)
    (h0 : ci.sendTimeout = 0) :
    (∀ k : Nat,
      (k < 40 → map_find (generate_client_key e) (cleanup_ticks k s).clients_
        = some { ci with sendTimeout := k }) ∧
      (40 ≤ k → map_find (generate_client_key e) (cleanup_ticks k s).clients_ = none)) ∧
    (∀ ops : List server_op, (∀ op ∈ ops, leaves_alone e op = true) →
      (count_ticks ops < 40 →
        ∃ t : Nat, map_find (generate_client_key e) (server_run s ops).clients_
          = some { ci with sendTimeout := count_ticks ops, last_seen := t }) ∧
      (40 ≤ count_ticks ops →
        map_find (generate_client_key e) (server_run s ops).clients_ = none)) ∧
    (∀ (ops : List server_op) (d : List Nat) (now : Nat),
      (∀ op ∈ ops, leaves_alone e op = true) → count_ticks ops = 39 →
      20 ≤ d.length → load_u32 d 16 = DSU_MESSAGE_TYPE_DATA →
      ∃ t : Nat,
        map_find (generate_client_key e)
          (server_loop_receive (server_run s ops) e d now).clients_
          = some { ci with sendTimeout := 0, last_seen := t } ∧
        ∀ ops2 : List server_op, (∀ op ∈ ops2, leaves_alone e op = true) →
          (count_ticks ops2 < 40 →
            ∃ t2 : Nat, map_find (generate_client_key e)
              (server_run (server_loop_receive (server_run s ops) e d now) ops2).clients_
              = some { ci with sendTimeout := count_ticks ops2, last_seen := t2 }) ∧
          (40 ≤ count_ticks ops2 →
            map_find (generate_client_key e)
              (server_run (server_loop_receive (server_run s ops) e d now) ops2).clients_
              = none)) := by
  have hlo : (0 : Int) ≤ ci.sendTimeout := by omega
  have hhi : ci.sendTimeout < 40 := by omega
  have hgen : ∀ (s1 : dsu_server_t) (c1 : client_info_t) (ops : List server_op),
      s1.recv_buffer_.length = MAX_PACKET_SIZE → (s1.clients_.map Prod.fst).Nodup →
      map_find (generate_client_key e) s1.clients_ = some c1 → c1.sendTimeout = 0 →
      (∀ op ∈ ops, leaves_alone e op = true) →
      (count_ticks ops < 40 →
        ∃ t : Nat, map_find (generate_client_key e) (server_run s1 ops).clients_
          = some { c1 with sendTimeout := count_ticks ops, last_seen := t }) ∧
      (40 ≤ count_ticks ops →
        map_find (generate_client_key e) (server_run s1 ops).clients_ = none) := by
    intro s1 c1 ops hb1 hk1 hf1 hz1 hops
    obtain ⟨h1, h2⟩ := map_find_server_run e haddr ops s1 c1 hk1 hb1 hops hf1 (by omega)
      (by omega)
    rw [hz1, zero_add] at h1 h2
    exact ⟨fun h => h1 (by omega), fun h => h2 (by omega)⟩
  refine ⟨?_, ?_, ?_⟩
  · intro k
    have h := map_find_cleanup_ticks (generate_client_key e) k s ci hkeys hfind hlo hhi
    rw [h0, zero_add] at h
    constructor
    · intro hk
      rw [h, if_pos (by omega)]
    · intro hk
      rw [h, if_neg (by omega)]
  · intro ops hops
    exact hgen s ci ops hbuf hkeys hfind h0 hops
  · intro ops d now hops hcount hlen htype
    obtain ⟨t, ht⟩ := (hgen s ci ops hbuf hkeys hfind h0 hops).1 (by omega)
    have hrun1 := server_run_running e ops s hops hrun
    have hbuf1 : (server_run s ops).recv_buffer_.length = MAX_PACKET_SIZE := by
      rw [server_run_buffer_length]; exact hbuf
    have hkeys1 := server_run_keys_nodup ops s hkeys
    have hcl := server_loop_receive_data_known (server_run s ops) e d now _ hrun1 hbuf1 hlen
      htype ht
    have hfind2 : map_find (generate_client_key e)
        (server_loop_receive (server_run s ops) e d now).clients_
        = some { ci with sendTimeout := 0, last_seen := t } := by
      rw [hcl, map_find_modify_self, ht]
      rfl
    refine ⟨t, hfind2, ?_⟩
    intro ops2 hops2
    have hbuf2 : (server_loop_receive (server_run s ops) e d now).recv_buffer_.length
        = MAX_PACKET_SIZE := by
      rw [(server_loop_receive_frame _ e d now).2.2.2.1]; exact hbuf1
    have hkeys2 : ((server_loop_receive (server_run s ops) e d now).clients_.map
        Prod.fst).Nodup := by
      rw [hcl, map_modify_keys]; exact hkeys1
    obtain ⟨g1, g2⟩ := hgen _ _ ops2 hbuf2 hkeys2 hfind2 rfl hops2
    refine ⟨fun h => ?_, g2⟩
    obtain ⟨t2, ht2⟩ := g1 h
    exact ⟨t2, ht2⟩
set_option maxRecDepth 100000 in
/-- Witness for C12: the session `client_E` registered with the Scenario B request is still
there after 39 cleanup ticks, with idle counter 39, and is gone after 40. -/
theorem session_eviction_timeline_witness :
    scenario_B_server.running_ = true ∧
    scenario_B_server.recv_buffer_.length = MAX_PACKET_SIZE ∧
    (scenario_B_server.clients_.map Prod.fst).Nodup ∧
    client_E.address < 2 ^ 32 ∧
    map_find (generate_client_key client_E) scenario_B_server.clients_
      = some (client_info_t.init client_E 0 0x21A220EE 0) ∧
    (client_info_t.init client_E 0 0x21A220EE 0).sendTimeout = 0 ∧
    map_find (generate_client_key client_E) (cleanup_ticks 39 scenario_B_server).clients_
      = some { client_info_t.init client_E 0 0x21A220EE 0 with sendTimeout := 39 } ∧
    map_find (generate_client_key client_E) (cleanup_ticks 40 scenario_B_server).clients_
      = none := by
  have h := session_eviction_timeline scenario_B_server client_E
    (client_info_t.init client_E 0 0x21A220EE 0) (by decide) (by decide) (by decide) (by decide)
    (by decide) rfl
  exact ⟨by decide, by decide, by decide, by decide, by decide, rfl,
    (h.1 39).1 (by decide), (h.1 40).2 (by decide)⟩

/-! ## Dropped datagrams and INFO requests -/

/-- C19. A datagram that is no valid request is dropped: when `bytes_transferred < 20`, or the
message type read from the buffer is neither 0x100001 nor 0x100002, `handle_receive_sync`
returns the state as it is, whatever the receive buffer holds. So for a received datagram `d`
that is shorter than 20 bytes or carries another message type, nothing is sent and the session
registry, the motion cache and the packet counter are the ones from before. -/
theorem invalid_datagram_dropped (s : dsu_server_t) (sender : udp_endpoint) (d : List Nat)
    (now : Nat) (hbuf : s.recv_buffer_.length = MAX_PACKET_SIZE)
    (hbad : d.length < 20 ∨
      (load_u32 d 16 ≠ DSU_MESSAGE_TYPE_INFO ∧ load_u32 d 16 ≠ DSU_MESSAGE_TYPE_DATA)) :
    (∀ (s0 : dsu_server_t) (ec : Bool) (n : Nat),
      (n < 20 ∨ (load_u32 s0.recv_buffer_ 16 ≠ DSU_MESSAGE_TYPE_INFO ∧
        load_u32 s0.recv_buffer_ 16 ≠ DSU_MESSAGE_TYPE_DATA)) →
      handle_receive_sync s0 ec n now = s0) ∧
    server_loop_receive s sender d now = (receive_from s sender d).1 ∧
    sent_during s (server_loop_receive s sender d now) = [] ∧
    (server_loop_receive s sender d now).clients_ = s.clients_ ∧
    (server_loop_receive s sender d now).motion_data_ = s.motion_data_ ∧
    (server_loop_receive s sender d now).packet_counter_ = s.packet_counter_ := by
  have hsync : ∀ (s0 : dsu_server_t) (ec : Bool) (n : Nat),
      (n < 20 ∨ (load_u32 s0.recv_buffer_ 16 ≠ DSU_MESSAGE_TYPE_INFO ∧
        load_u32 s0.recv_buffer_ 16 ≠ DSU_MESSAGE_TYPE_DATA)) →
      handle_receive_sync s0 ec n now = s0 := by
    intro s0 ec n h
    rcases handle_receive_sync_cases s0 ec n now with h1 | ⟨-, hn, ht, -⟩ | ⟨-, hn, ht, -⟩
    · exact h1
    · rcases h with h | h
      · omega
      · exact absurd ht h.1
    · rcases h with h | h
      · omega
      · exact absurd ht h.2
  have hrecv : server_loop_receive s sender d now
      = handle_receive_sync (receive_from s sender d).1 false (receive_from s sender d).2 now :=
    rfl
  have hmax : MAX_PACKET_SIZE = 100 := rfl
  have hdrop : server_loop_receive s sender d now = (receive_from s sender d).1 := by
    rw [hrecv]
    apply hsync
    by_cases hlen : d.length < 20
    · left
      show (d.take s.recv_buffer_.length).length < 20
      rw [List.length_take]
      omega
    · right
      have hty : load_u32 d 16 ≠ DSU_MESSAGE_TYPE_INFO ∧ load_u32 d 16 ≠ DSU_MESSAGE_TYPE_DATA := by
        rcases hbad with h | h
        · exact absurd h hlen
        · exact h
      have hload : load_u32 (receive_from s sender d).1.recv_buffer_ 16 = load_u32 d 16 := by
        show load_u32 (store_bytes s.recv_buffer_ 0 (d.take s.recv_buffer_.length)) 16 = _
        unfold load_u32
        exact receive_from_load _ _ _ _ (by omega) (by omega)
      rw [hload]
      exact hty
  refine ⟨hsync, hdrop, ?_, ?_, ?_, ?_⟩
  · rw [hdrop]
    exact sent_during_append s _ [] (List.append_nil _).symm
  · rw [hdrop]; rfl
  · rw [hdrop]; rfl
  · rw [hdrop]; rfl

set_option maxRecDepth 100000 in
/-- Witness for C19: a 10-byte datagram arriving at the server of Scenario B. -/
theorem invalid_datagram_dropped_witness :
    scenario_B_server.recv_buffer_.length = MAX_PACKET_SIZE ∧
    (scenario_A_request.take 10).length < 20 ∧
    sent_during scenario_B_server
      (server_loop_receive scenario_B_server client_E (scenario_A_request.take 10) 5) = [] ∧
    (server_loop_receive scenario_B_server client_E (scenario_A_request.take 10) 5).clients_
      = scenario_B_server.clients_ := by
  have h := invalid_datagram_dropped scenario_B_server client_E (scenario_A_request.take 10) 5
    (by decide) (Or.inl (by decide))
  exact ⟨by decide, by decide, h.2.2.1, h.2.2.2.1⟩

/-- C20. Handling an INFO request leaves the session registry unchanged: for every state and
every arguments `handle_info_request` returns a state with the same `clients_` (no session is
created, removed or refreshed) and the same `get_client_count()`; and so does a pass of the
loop that receives a datagram of any size whose message type is 0x100001. -/
theorem info_request_keeps_registry (s : dsu_server_t) (sender : udp_endpoint) (d : List Nat)
    (now : Nat) (hbuf : s.recv_buffer_.length = MAX_PACKET_SIZE)
    (htype : load_u32 d 16 = DSU_MESSAGE_TYPE_INFO) :
    (∀ (s0 : dsu_server_t) (e : udp_endpoint) (data : List Nat) (size : Nat),
      (handle_info_request s0 e data size).clients_ = s0.clients_ ∧
      get_client_count (handle_info_request s0 e data size) = get_client_count s0) ∧
    (server_loop_receive s sender d now).clients_ = s.clients_ ∧
    get_client_count (server_loop_receive s sender d now) = get_client_count s := by
  have hcl : (server_loop_receive s sender d now).clients_ = s.clients_ := by
    apply server_loop_receive_not_data s sender d now hbuf
    right
    rw [htype]
    decide
  refine ⟨fun s0 e data size => ⟨handle_info_request_clients s0 e data size, ?_⟩, hcl, ?_⟩
  · unfold get_client_count
    rw [handle_info_request_clients]
  · unfold get_client_count
    rw [hcl]

set_option maxRecDepth 100000 in
/-- Witness for C20: the INFO request of Scenario A arriving at the server of Scenario B, which
has one session. -/
theorem info_request_keeps_registry_witness :
    scenario_B_server.recv_buffer_.length = MAX_PACKET_SIZE ∧
    load_u32 scenario_A_request 16 = DSU_MESSAGE_TYPE_INFO ∧
    get_client_count scenario_B_server = 1 ∧
    get_client_count (server_loop_receive scenario_B_server client_E scenario_A_request 5) = 1 := by
  have h := info_request_keeps_registry scenario_B_server client_E scenario_A_request 5
    (by decide) (by decide)
  have h1 : get_client_count scenario_B_server = 1 := by decide
  exact ⟨by decide, by decide, h1, h.2.2.trans h1⟩

/-! ## The motion cache -/

/-- What `update_motion` stores: the timestamp is refreshed, and each axis group is overwritten
and flagged when its triple is not all zero, and kept otherwise. -/
theorem update_motion_spec (entry : motion_data_t) (ax ay az gx gy gz now : Nat) :
    (update_motion entry ax ay az gx gy gz now).last_update = now ∧
    ((f32_ne_zero ax || f32_ne_zero ay || f32_ne_zero az) = true →
      (update_motion entry ax ay az gx gy gz now).accel_x = ax ∧
      (update_motion entry ax ay az gx gy gz now).accel_y = ay ∧
      (update_motion entry ax ay az gx gy gz now).accel_z = az ∧
      (update_motion entry ax ay az gx gy gz now).has_accel = true) ∧
    ((f32_ne_zero ax || f32_ne_zero ay || f32_ne_zero az) = false →
      (update_motion entry ax ay az gx gy gz now).accel_x = entry.accel_x ∧
      (update_motion entry ax ay az gx gy gz now).accel_y = entry.accel_y ∧
      (update_motion entry ax ay az gx gy gz now).accel_z = entry.accel_z ∧
      (update_motion entry ax ay az gx gy gz now).has_accel = entry.has_accel) ∧
    ((f32_ne_zero gx || f32_ne_zero gy || f32_ne_zero gz) = true →
      (update_motion entry ax ay az gx gy gz now).gyro_x = gx ∧
      (update_motion entry ax ay az gx gy gz now).gyro_y = gy ∧
      (update_motion entry ax ay az gx gy gz now).gyro_z = gz ∧
      (update_motion entry ax ay az gx gy gz now).has_gyro = true) ∧
    ((f32_ne_zero gx || f32_ne_zero gy || f32_ne_zero gz) = false →
      (update_motion entry ax ay az gx gy gz now).gyro_x = entry.gyro_x ∧
      (update_motion entry ax ay az gx gy gz now).gyro_y = entry.gyro_y ∧
      (update_motion entry ax ay az gx gy gz now).gyro_z = entry.gyro_z ∧
      (update_motion entry ax ay az gx gy gz now).has_gyro = entry.has_gyro) := by
  unfold update_motion
  cases ha : (f32_ne_zero ax || f32_ne_zero ay || f32_ne_zero az) <;>
    cases hg : (f32_ne_zero gx || f32_ne_zero gy || f32_ne_zero gz) <;>
    simp

/-- The cache entry of `controller_id` after a call on a running server with a session. -/
theorem send_motion_data_entry (s : dsu_server_t) (controller_id : Nat)
    (ax ay az gx gy gz now : Nat) (hrun : s.running_ = true) (hcs : s.clients_ ≠ []) :
    map_find controller_id
      (send_motion_data s controller_id ax ay az gx gy gz now).motion_data_
      = some (update_motion ((map_find controller_id s.motion_data_).getD (motion_data_t.init now))
          ax ay az gx gy gz now) ∧
    ∀ k : Nat, k ≠ controller_id →
      map_find k (send_motion_data s controller_id ax ay az gx gy gz now).motion_data_
        = map_find k s.motion_data_ := by
  rw [send_motion_data_cache, if_pos ⟨hrun, hcs⟩]
  exact ⟨map_find_assign_self _ _ _, fun k hk => map_find_assign_other _ _ _ _ hk⟩

/-- C15. `send_motion_data` hands nothing to the transport and leaves `packet_counter_` as it
is when the server is not running, or no session is registered, or the cache entry of
`controller_id` after the deposit has neither `has_accel` nor `has_gyro` set; the last is the
case exactly when neither flag was set before and all six supplied values are zero. -/
theorem send_motion_data_silent (s : dsu_server_t) (controller_id : Nat)
    (ax ay az gx gy gz now : Nat)
    (h : s.running_ = false ∨ s.clients_ = [] ∨
      ((update_motion ((map_find controller_id s.motion_data_).getD (motion_data_t.init now))
          ax ay az gx gy gz now).has_accel = false ∧
        (update_motion ((map_find controller_id s.motion_data_).getD (motion_data_t.init now))
          ax ay az gx gy gz now).has_gyro = false)) :
    sent_during s (send_motion_data s controller_id ax ay az gx gy gz now) = [] ∧
    (send_motion_data s controller_id ax ay az gx gy gz now).sent = s.sent ∧
    (send_motion_data s controller_id ax ay az gx gy gz now).packet_counter_
      = s.packet_counter_ ∧
    (((update_motion ((map_find controller_id s.motion_data_).getD (motion_data_t.init now))
          ax ay az gx gy gz now).has_accel = false ∧
      (update_motion ((map_find controller_id s.motion_data_).getD (motion_data_t.init now))
          ax ay az gx gy gz now).has_gyro = false) ↔
      (((map_find controller_id s.motion_data_).getD (motion_data_t.init now)).has_accel = false ∧
       ((map_find controller_id s.motion_data_).getD (motion_data_t.init now)).has_gyro = false ∧
       (f32_ne_zero ax || f32_ne_zero ay || f32_ne_zero az) = false ∧
       (f32_ne_zero gx || f32_ne_zero gy || f32_ne_zero gz) = false)) := by
  have hiff : (((update_motion ((map_find controller_id s.motion_data_).getD
        (motion_data_t.init now)) ax ay az gx gy gz now).has_accel = false ∧
      (update_motion ((map_find controller_id s.motion_data_).getD (motion_data_t.init now))
          ax ay az gx gy gz now).has_gyro = false) ↔
      (((map_find controller_id s.motion_data_).getD (motion_data_t.init now)).has_accel = false ∧
       ((map_find controller_id s.motion_data_).getD (motion_data_t.init now)).has_gyro = false ∧
       (f32_ne_zero ax || f32_ne_zero ay || f32_ne_zero az) = false ∧
       (f32_ne_zero gx || f32_ne_zero gy || f32_ne_zero gz) = false)) := by
    obtain ⟨-, ha1, ha0, hg1, hg0⟩ := update_motion_spec
      ((map_find controller_id s.motion_data_).getD (motion_data_t.init now)) ax ay az gx gy gz now
    constructor
    · rintro ⟨h1, h2⟩
      have hza : (f32_ne_zero ax || f32_ne_zero ay || f32_ne_zero az) = false := by
        cases hc : (f32_ne_zero ax || f32_ne_zero ay || f32_ne_zero az) with
        | false => rfl
        | true =>
          rw [(ha1 hc).2.2.2] at h1
          cases h1
      have hzg : (f32_ne_zero gx || f32_ne_zero gy || f32_ne_zero gz) = false := by
        cases hc : (f32_ne_zero gx || f32_ne_zero gy || f32_ne_zero gz) with
        | false => rfl
        | true =>
          rw [(hg1 hc).2.2.2] at h2
          cases h2
      rw [(ha0 hza).2.2.2] at h1
      rw [(hg0 hzg).2.2.2] at h2
      exact ⟨h1, h2, hza, hzg⟩
    · rintro ⟨h1, h2, hza, hzg⟩
      rw [(ha0 hza).2.2.2, (hg0 hzg).2.2.2]
      exact ⟨h1, h2⟩
  have hstate : (send_motion_data s controller_id ax ay az gx gy gz now).sent = s.sent ∧
      (send_motion_data s controller_id ax ay az gx gy gz now).packet_counter_
        = s.packet_counter_ := by
    by_cases hidle : s.running_ = false ∨ s.clients_ = []
    · rw [send_motion_data_idle s _ _ _ _ _ _ _ _ hidle]
      exact ⟨rfl, rfl⟩
    · have hrun : s.running_ = true := by
        cases hr : s.running_ with
        | true => rfl
        | false => exact absurd (Or.inl hr) hidle
      have hcs : s.clients_ ≠ [] := fun hc => hidle (Or.inr hc)
      rcases h with h | h | ⟨ha, hg⟩
      · exact absurd (Or.inl h) hidle
      · exact absurd (Or.inr h) hidle
      · rw [send_motion_data_no_sample s controller_id ax ay az gx gy gz now _ rfl hrun hcs ha hg]
        exact ⟨rfl, rfl⟩
  refine ⟨?_, hstate.1, hstate.2, hiff⟩
  exact sent_during_append s _ [] (by rw [hstate.1, List.append_nil])

/-- Witness for C15: a sample pushed to a started server at which no client has registered. -/
theorem send_motion_data_silent_witness :
    running_server.clients_ = [] ∧
    sent_during running_server
      (send_motion_data running_server 0 0x3F800000 0x40000000 0x40400000 0x40800000 0x40A00000
        0x40C00000 7000) = [] ∧
    (send_motion_data running_server 0 0x3F800000 0x40000000 0x40400000 0x40800000 0x40A00000
        0x40C00000 7000).packet_counter_ = 0 := by
  have h := send_motion_data_silent running_server 0 0x3F800000 0x40000000 0x40400000 0x40800000
    0x40A00000 0x40C00000 7000 (Or.inr (Or.inl rfl))
  exact ⟨rfl, h.1, h.2.2.1⟩

/-- C16. On a running server with at least one session, `send_motion_data` leaves under
`controller_id` a cache entry in which each axis group is treated on its own: a triple that is
not all zero replaces the cached triple and sets the flag of the group; an all-zero triple
leaves the cached triple and the flag as they were (the values before are those of the stored
entry, or the defaults when there was none). The entries of other controllers are untouched.
In particular an all-zero accelerometer triple pushed after a non-zero one leaves the non-zero
one and `has_accel` in the cache. -/
theorem deposit_per_axis_group (s : dsu_server_t) (controller_id : Nat)
    (ax ay az gx gy gz now : Nat) (hrun : s.running_ = true) (hcs : s.clients_ ≠ []) :
    (∃ m : motion_data_t,
      map_find controller_id
        (send_motion_data s controller_id ax ay az gx gy gz now).motion_data_ = some m ∧
      ((f32_ne_zero ax || f32_ne_zero ay || f32_ne_zero az) = true →
        m.accel_x = ax ∧ m.accel_y = ay ∧ m.accel_z = az ∧ m.has_accel = true) ∧
      ((f32_ne_zero ax || f32_ne_zero ay || f32_ne_zero az) = false →
        m.accel_x = ((map_find controller_id s.motion_data_).getD
          (motion_data_t.init now)).accel_x ∧
        m.accel_y = ((map_find controller_id s.motion_data_).getD
          (motion_data_t.init now)).accel_y ∧
        m.accel_z = ((map_find controller_id s.motion_data_).getD
          (motion_data_t.init now)).accel_z ∧
        m.has_accel = ((map_find controller_id s.motion_data_).getD
          (motion_data_t.init now)).has_accel) ∧
      ((f32_ne_zero gx || f32_ne_zero gy || f32_ne_zero gz) = true →
        m.gyro_x = gx ∧ m.gyro_y = gy ∧ m.gyro_z = gz ∧ m.has_gyro = true) ∧
      ((f32_ne_zero gx || f32_ne_zero gy || f32_ne_zero gz) = false →
        m.gyro_x = ((map_find controller_id s.motion_data_).getD
          (motion_data_t.init now)).gyro_x ∧
        m.gyro_y = ((map_find controller_id s.motion_data_).getD
          (motion_data_t.init now)).gyro_y ∧
        m.gyro_z = ((map_find controller_id s.motion_data_).getD
          (motion_data_t.init now)).gyro_z ∧
        m.has_gyro = ((map_find controller_id s.motion_data_).getD
          (motion_data_t.init now)).has_gyro)) ∧
    (∀ k : Nat, k ≠ controller_id →
      map_find k (send_motion_data s controller_id ax ay az gx gy gz now).motion_data_
        = map_find k s.motion_data_) ∧
    (∀ zx zy zz gx2 gy2 gz2 now2 : Nat,
      (f32_ne_zero ax || f32_ne_zero ay || f32_ne_zero az) = true →
      (f32_ne_zero zx || f32_ne_zero zy || f32_ne_zero zz) = false →
      ∃ m2 : motion_data_t,
        map_find controller_id
          (send_motion_data (send_motion_data s controller_id ax ay az gx gy gz now)
            controller_id zx zy zz gx2 gy2 gz2 now2).motion_data_ = some m2 ∧
        m2.accel_x = ax ∧ m2.accel_y = ay ∧ m2.accel_z = az ∧ m2.has_accel = true) := by
  obtain ⟨hentry, hother⟩ := send_motion_data_entry s controller_id ax ay az gx gy gz now hrun hcs
  obtain ⟨-, ha1, ha0, hg1, hg0⟩ := update_motion_spec
    ((map_find controller_id s.motion_data_).getD (motion_data_t.init now)) ax ay az gx gy gz now
  refine ⟨⟨_, hentry, ha1, ha0, hg1, hg0⟩, hother, ?_⟩
  intro zx zy zz gx2 gy2 gz2 now2 hnz hz
  obtain ⟨hcl, hr, -⟩ := send_motion_data_frame s controller_id ax ay az gx gy gz now
  have hrun1 : (send_motion_data s controller_id ax ay az gx gy gz now).running_ = true := by
    rw [hr]; exact hrun
  have hcs1 : (send_motion_data s controller_id ax ay az gx gy gz now).clients_ ≠ [] := by
    rw [hcl]; exact hcs
  obtain ⟨hentry2, -⟩ := send_motion_data_entry
    (send_motion_data s controller_id ax ay az gx gy gz now) controller_id zx zy zz gx2 gy2 gz2
    now2 hrun1 hcs1
  refine ⟨_, hentry2, ?_⟩
  rw [hentry, Option.getD_some]
  obtain ⟨-, -, hb0, -, -⟩ := update_motion_spec
    (update_motion ((map_find controller_id s.motion_data_).getD (motion_data_t.init now))
      ax ay az gx gy gz now) zx zy zz gx2 gy2 gz2 now2
  obtain ⟨e1, e2, e3, e4⟩ := hb0 hz
  obtain ⟨f1, f2, f3, f4⟩ := ha1 hnz
  exact ⟨e1.trans f1, e2.trans f2, e3.trans f3, e4.trans f4⟩

set_option maxRecDepth 100000 in
/-- Witness for C16: at the server of Scenario B the sample (1, 2, 3 | 4, 5, 6) is followed by
a sample with an all-zero accelerometer triple and the gyroscope triple (6, 5, 4). -/
theorem deposit_per_axis_group_witness :
    scenario_B_server.running_ = true ∧ scenario_B_server.clients_ ≠ [] ∧
    ∃ m2 : motion_data_t,
      map_find 0 (send_motion_data scenario_B_after 0 0 0 0 0x40C00000 0x40A00000 0x40800000
        9000).motion_data_ = some m2 ∧
      m2.accel_x = 0x3F800000 ∧ m2.accel_y = 0x40000000 ∧ m2.accel_z = 0x40400000 ∧
      m2.has_accel = true := by
  have h := deposit_per_axis_group scenario_B_server 0 0x3F800000 0x40000000 0x40400000
    0x40800000 0x40A00000 0x40C00000 7000 (by decide) (by decide)
  exact ⟨by decide, by decide,
    h.2.2 0 0 0 0x40C00000 0x40A00000 0x40800000 9000 (by decide) (by decide)⟩

/-- C17, the sample that is lost: pushed to a started server at which no client has
registered, the sample (1, 2, 3 | 4, 5, 6) for controller 0 leaves the motion cache empty. -/
theorem deposit_skipped_without_session :
    running_server.running_ = true ∧
    send_motion_data running_server 0 0x3F800000 0x40000000 0x40400000 0x40800000 0x40A00000
      0x40C00000 7000 = running_server ∧
    map_find 0 (send_motion_data running_server 0 0x3F800000 0x40000000 0x40400000 0x40800000
      0x40A00000 0x40C00000 7000).motion_data_ = none := by
  have h : send_motion_data running_server 0 0x3F800000 0x40000000 0x40400000 0x40800000
      0x40A00000 0x40C00000 7000 = running_server := rfl
  refine ⟨rfl, h, ?_⟩
  rw [h]
  rfl

/-- C17 as the code has it. `send_motion_data` deposits the sample only when the server is
running and at least one session is registered: then the cache entry of `controller_id` has
`last_update` refreshed and holds every supplied triple that is not all zero, with its flag
set. When the server is not running or no session is registered, the call returns at once and
the state, motion cache and timestamps included, is the one from before. -/
theorem deposit_requires_session (s : dsu_server_t) (controller_id : Nat)
    (ax ay az gx gy gz now : Nat) :
    (s.running_ = true ∧ s.clients_ ≠ [] →
      ∃ m : motion_data_t,
        map_find controller_id
          (send_motion_data s controller_id ax ay az gx gy gz now).motion_data_ = some m ∧
        m.last_update = now ∧
        ((f32_ne_zero ax || f32_ne_zero ay || f32_ne_zero az) = true →
          m.accel_x = ax ∧ m.accel_y = ay ∧ m.accel_z = az ∧ m.has_accel = true) ∧
        ((f32_ne_zero gx || f32_ne_zero gy || f32_ne_zero gz) = true →
          m.gyro_x = gx ∧ m.gyro_y = gy ∧ m.gyro_z = gz ∧ m.has_gyro = true)) ∧
    (s.running_ = false ∨ s.clients_ = [] →
      send_motion_data s controller_id ax ay az gx gy gz now = s) := by
  constructor
  · rintro ⟨hrun, hcs⟩
    obtain ⟨hentry, -⟩ := send_motion_data_entry s controller_id ax ay az gx gy gz now hrun hcs
    obtain ⟨ht, ha1, -, hg1, -⟩ := update_motion_spec
      ((map_find controller_id s.motion_data_).getD (motion_data_t.init now)) ax ay az gx gy gz
      now
    exact ⟨_, hentry, ht, ha1, hg1⟩
  · intro h
    exact send_motion_data_idle s _ _ _ _ _ _ _ _ h

set_option maxRecDepth 100000 in
/-- Witness for the amended C17: the sample of Scenario B is deposited at the server that has
the session of `client_E`, and the same sample changes nothing at a stopped server. -/
theorem deposit_requires_session_witness :
    (scenario_B_server.running_ = true ∧ scenario_B_server.clients_ ≠ []) ∧
    (∃ m : motion_data_t,
      map_find 0 scenario_B_after.motion_data_ = some m ∧ m.last_update = 7000 ∧
      m.accel_x = 0x3F800000 ∧ m.has_accel = true ∧ m.gyro_x = 0x40800000 ∧ m.has_gyro = true) ∧
    (dsu_server_t.init 26760).running_ = false ∧
    send_motion_data (dsu_server_t.init 26760) 0 0x3F800000 0x40000000 0x40400000 0x40800000
      0x40A00000 0x40C00000 7000 = dsu_server_t.init 26760 := by
  have h := deposit_requires_session scenario_B_server 0 0x3F800000 0x40000000 0x40400000
    0x40800000 0x40A00000 0x40C00000 7000
  have h2 := deposit_requires_session (dsu_server_t.init 26760) 0 0x3F800000 0x40000000
    0x40400000 0x40800000 0x40A00000 0x40C00000 7000
  obtain ⟨m, hm, ht, ha, hg⟩ := h.1 ⟨by decide, by decide⟩
  have ha' := ha (by decide)
  have hg' := hg (by decide)
  exact ⟨⟨by decide, by decide⟩, ⟨m, hm, ht, ha'.1, ha'.2.2.2, hg'.1, hg'.2.2.2⟩, rfl,
    h2.2 (Or.inl rfl)⟩

/-! ## The broadcast -/

/-- The three ways a call of `send_motion_data` can go. -/
theorem send_motion_data_cases (s : dsu_server_t) (controller_id : Nat)
    (ax ay az gx gy gz now : Nat) (m : motion_data_t)
    (hm : update_motion ((map_find controller_id s.motion_data_).getD (motion_data_t.init now))
      ax ay az gx gy gz now = m) :
    send_motion_data s controller_id ax ay az gx gy gz now = s ∨
    send_motion_data s controller_id ax ay az gx gy gz now =
      { s with motion_data_ := map_assign controller_id m s.motion_data_ } ∨
    (s.clients_ ≠ [] ∧ ∃ pkt : dsu_data_packet,
      send_motion_data s controller_id ax ay az gx gy gz now =
        { s with
          motion_data_ := map_assign controller_id m s.motion_data_,
          packet_counter_ := (fun c => (c + 1) % 2 ^ 32)^[s.clients_.length] s.packet_counter_,
          sent := s.sent ++ broadcast (build_data_packet controller_id m) s.packet_counter_
            s.clients_,
          data_packet_ := pkt }) := by
  by_cases hidle : s.running_ = false ∨ s.clients_ = []
  · left
    exact send_motion_data_idle s _ _ _ _ _ _ _ _ hidle
  · have hrun : s.running_ = true := by
      cases h : s.running_ with
      | true => rfl
      | false => exact absurd (Or.inl h) hidle
    have hcs : s.clients_ ≠ [] := fun h => hidle (Or.inr h)
    by_cases hflag : m.has_accel = true ∨ m.has_gyro = true
    · right; right
      exact ⟨hcs, send_motion_data_broadcast s controller_id ax ay az gx gy gz now m hm hrun hcs
        hflag⟩
    · right; left
      have ha : m.has_accel = false := by
        cases h : m.has_accel with
        | false => rfl
        | true => exact absurd (Or.inl h) hflag
      have hg : m.has_gyro = false := by
        cases h : m.has_gyro with
        | false => rfl
        | true => exact absurd (Or.inr h) hflag
      exact send_motion_data_no_sample s controller_id ax ay az gx gy gz now m hm hrun hcs ha hg

/-- What was sent by a call that broadcasts. -/
theorem sent_during_broadcast (s : dsu_server_t) (controller_id : Nat)
    (ax ay az gx gy gz now : Nat) (hrun : s.running_ = true) (hcs : s.clients_ ≠ [])
    (hflag :
      (update_motion ((map_find controller_id s.motion_data_).getD (motion_data_t.init now))
        ax ay az gx gy gz now).has_accel = true ∨
      (update_motion ((map_find controller_id s.motion_data_).getD (motion_data_t.init now))
        ax ay az gx gy gz now).has_gyro = true) :
    sent_during s (send_motion_data s controller_id ax ay az gx gy gz now) =
      broadcast (build_data_packet controller_id
        (update_motion ((map_find controller_id s.motion_data_).getD (motion_data_t.init now))
          ax ay az gx gy gz now)) s.packet_counter_ s.clients_ ∧
    (send_motion_data s controller_id ax ay az gx gy gz now).packet_counter_ =
      (fun c => (c + 1) % 2 ^ 32)^[s.clients_.length] s.packet_counter_ := by
  obtain ⟨pkt, hsend⟩ := send_motion_data_broadcast s controller_id ax ay az gx gy gz now _ rfl
    hrun hcs hflag
  constructor
  · apply sent_during_append
    rw [hsend]
  · rw [hsend]

/-- The addressee and the decoded header client id, message type and slot of the datagrams of
one pass, session by session. -/
theorem broadcast_decode (controller_id : Nat) (m : motion_data_t)
    (cs : List (String × client_info_t)) (c : Nat) :
    (broadcast (build_data_packet controller_id m) c cs).map
      (fun q => (q.1, (dsu_data_packet.of_bytes q.2).header.client_id,
        (dsu_data_packet.of_bytes q.2).shared.message_type,
        (dsu_data_packet.of_bytes q.2).shared.slot))
      = cs.map (fun kv => (kv.2.endpoint, kv.2.client_id % 2 ^ 32, DSU_MESSAGE_TYPE_DATA,
          controller_id % 256)) := by
  induction cs generalizing c with
  | nil => rfl
  | cons kv rest ih =>
    obtain ⟨crc, -, hdec⟩ := data_response_decodes controller_id m kv.2.client_id
      ((c + 1) % 2 ^ 32)
    unfold broadcast
    rw [List.map_cons, List.map_cons, ih, hdec]
    rfl

/-- The decoded packet ids of the datagrams of one pass. -/
theorem broadcast_packet_ids (controller_id : Nat) (m : motion_data_t)
    (cs : List (String × client_info_t)) (c : Nat) :
    (broadcast (build_data_packet controller_id m) c cs).map
      (fun q => (dsu_data_packet.of_bytes q.2).packet_id)
      = (List.range cs.length).map (fun i => (c + i + 1) % 2 ^ 32) := by
  induction cs generalizing c with
  | nil => rfl
  | cons kv rest ih =>
    obtain ⟨crc, -, hdec⟩ := data_response_decodes controller_id m kv.2.client_id
      ((c + 1) % 2 ^ 32)
    unfold broadcast
    rw [List.map_cons, ih, hdec, List.length_cons, List.range_succ_eq_map, List.map_cons,
      List.map_map]
    congr 1
    · show (c + 1) % 2 ^ 32 % 2 ^ 32 = (c + 0 + 1) % 2 ^ 32
      rw [Nat.mod_mod, Nat.add_zero]
    · apply List.map_congr_left
      intro i _
      show ((c + 1) % 2 ^ 32 + i + 1) % 2 ^ 32 = (c + (i + 1) + 1) % 2 ^ 32
      omega

theorem broadcast_all_data_size (base : dsu_data_packet) (cs : List (String × client_info_t))
    (c : Nat) : ∀ q ∈ broadcast base c cs, q.2.length = sizeof_dsu_data_packet := by
  intro q hq
  obtain ⟨kv, -, pid, hqe⟩ := mem_broadcast base cs c q hq
  rw [hqe]
  show (data_response base kv.2.client_id pid).length = _
  unfold data_response
  rw [stamp_length _ (by rw [data_to_bytes_length]; decide), data_to_bytes_length]

theorem counter_iterate (n c : Nat) (hc : c < 2 ^ 32) :
    (fun c => (c + 1) % 2 ^ 32)^[n] c = (c + n) % 2 ^ 32 := by
  induction n generalizing c with
  | zero =>
    show c = (c + 0) % 2 ^ 32
    rw [Nat.add_zero, Nat.mod_eq_of_lt hc]
  | succ n ih =>
    rw [Function.iterate_succ_apply, ih _ (Nat.mod_lt _ (by norm_num))]
    omega

/-- C13. When the server is running, at least one session is registered and the cache entry
of `controller_id` after the deposit has `has_accel` or `has_gyro` set (which is the case as
soon as the supplied gyroscope triple alone is not all zero), `send_motion_data` hands to the
transport exactly one datagram per registered session, in registry order: it is addressed to
the session's endpoint, it is a DATA response of 100 bytes, its header carries the session's
stored client id, and its slot is `controller_id`, whatever slot the session subscribed to. -/
theorem broadcast_reaches_every_session (s : dsu_server_t) (controller_id : Nat)
    (ax ay az gx gy gz now : Nat) (hrun : s.running_ = true) (hcs : s.clients_ ≠ [])
    (hflag :
      (update_motion ((map_find controller_id s.motion_data_).getD (motion_data_t.init now))
        ax ay az gx gy gz now).has_accel = true ∨
      (update_motion ((map_find controller_id s.motion_data_).getD (motion_data_t.init now))
        ax ay az gx gy gz now).has_gyro = true) :
    (sent_during s (send_motion_data s controller_id ax ay az gx gy gz now)).length
      = get_client_count s ∧
    (sent_during s (send_motion_data s controller_id ax ay az gx gy gz now)).map
      (fun q => (q.1, (dsu_data_packet.of_bytes q.2).header.client_id,
        (dsu_data_packet.of_bytes q.2).shared.message_type,
        (dsu_data_packet.of_bytes q.2).shared.slot))
      = s.clients_.map (fun kv => (kv.2.endpoint, kv.2.client_id % 2 ^ 32, DSU_MESSAGE_TYPE_DATA,
          controller_id % 256)) ∧
    (∀ q ∈ sent_during s (send_motion_data s controller_id ax ay az gx gy gz now),
      q.2.length = sizeof_dsu_data_packet) ∧
    ((f32_ne_zero gx || f32_ne_zero gy || f32_ne_zero gz) = true →
      (update_motion ((map_find controller_id s.motion_data_).getD (motion_data_t.init now))
        ax ay az gx gy gz now).has_gyro = true) := by
  obtain ⟨hsent, -⟩ := sent_during_broadcast s controller_id ax ay az gx gy gz now hrun hcs hflag
  rw [hsent]
  refine ⟨broadcast_length _ _ _, broadcast_decode _ _ _ _, broadcast_all_data_size _ _ _, ?_⟩
  intro hg
  exact ((update_motion_spec _ ax ay az gx gy gz now).2.2.2.1 hg).2.2.2

set_option maxRecDepth 100000 in
/-- Witness for C13: at the server of Scenario B, where `client_E` subscribed to slot 0 with
client id 0x21A220EE stored, a sample for controller 3 is pushed that has only a gyroscope
triple (4, 5, 6). -/
theorem broadcast_reaches_every_session_witness :
    scenario_B_server.running_ = true ∧ scenario_B_server.clients_ ≠ [] ∧
    (update_motion ((map_find 3 scenario_B_server.motion_data_).getD (motion_data_t.init 7000))
      0 0 0 0x40800000 0x40A00000 0x40C00000 7000).has_accel = false ∧
    (update_motion ((map_find 3 scenario_B_server.motion_data_).getD (motion_data_t.init 7000))
      0 0 0 0x40800000 0x40A00000 0x40C00000 7000).has_gyro = true ∧
    (sent_during scenario_B_server
      (send_motion_data scenario_B_server 3 0 0 0 0x40800000 0x40A00000 0x40C00000 7000)).map
      (fun q => (q.1, (dsu_data_packet.of_bytes q.2).header.client_id,
        (dsu_data_packet.of_bytes q.2).shared.message_type,
        (dsu_data_packet.of_bytes q.2).shared.slot))
      = [(client_E, 0x21A220EE, 0x100002, 3)] := by
  have h := broadcast_reaches_every_session scenario_B_server 3 0 0 0 0x40800000 0x40A00000
    0x40C00000 7000 (by decide) (by decide) (Or.inr (by decide))
  have hcl : scenario_B_server.clients_.map (fun kv => (kv.2.endpoint, kv.2.client_id % 2 ^ 32,
      DSU_MESSAGE_TYPE_DATA, 3 % 256)) = [(client_E, 0x21A220EE, 0x100002, 3)] := by decide
  exact ⟨by decide, by decide, by decide, by decide, h.2.1.trans hcl⟩

/-! ## Packet ids -/

theorem data_packet_ids_append (a b : List (udp_endpoint × List Nat)) :
    data_packet_ids (a ++ b) = data_packet_ids a ++ data_packet_ids b := by
  unfold data_packet_ids
  rw [List.filter_append, List.map_append]

theorem data_packet_ids_broadcast (controller_id : Nat) (m : motion_data_t)
    (cs : List (String × client_info_t)) (c : Nat) :
    data_packet_ids (broadcast (build_data_packet controller_id m) c cs)
      = (List.range cs.length).map (fun i => (c + i + 1) % 2 ^ 32) := by
  unfold data_packet_ids
  rw [List.filter_eq_self.mpr, broadcast_packet_ids]
  intro q hq
  exact decide_eq_true (broadcast_all_data_size _ _ _ q hq)

theorem data_packet_ids_info (e : udp_endpoint) (cid slot : Nat) :
    data_packet_ids [(e, stamp (build_info_packet cid slot).to_bytes)] = [] := by
  unfold data_packet_ids
  have hlen : (stamp (build_info_packet cid slot).to_bytes).length = sizeof_dsu_info_response := by
    rw [stamp_length _ (by rw [info_to_bytes_length]; decide), info_to_bytes_length]
  have hne : decide ((stamp (build_info_packet cid slot).to_bytes).length
      = sizeof_dsu_data_packet) = false := by
    rw [hlen]
    decide
  rw [List.filter_cons_of_neg (by rw [hne]; exact Bool.false_ne_true)]
  rfl

/-- One operation appends to the transport trace; the DATA packets it appends carry the ids
that follow the counter, and the counter advances by their number. -/
theorem server_step_packet_ids (s : dsu_server_t) (op : server_op)
    (hc : s.packet_counter_ < 2 ^ 32) :
    ∃ (out : List (udp_endpoint × List Nat)) (n : Nat),
      (server_step s op).sent = s.sent ++ out ∧
      data_packet_ids out = (List.range n).map (fun i => (s.packet_counter_ + i + 1) % 2 ^ 32) ∧
      (server_step s op).packet_counter_ = (s.packet_counter_ + n) % 2 ^ 32 := by
  have hnone : ∀ s' : dsu_server_t, s'.sent = s.sent → s'.packet_counter_ = s.packet_counter_ →
      ∃ (out : List (udp_endpoint × List Nat)) (n : Nat),
        s'.sent = s.sent ++ out ∧
        data_packet_ids out
          = (List.range n).map (fun i => (s.packet_counter_ + i + 1) % 2 ^ 32) ∧
        s'.packet_counter_ = (s.packet_counter_ + n) % 2 ^ 32 := by
    intro s' h1 h2
    refine ⟨[], 0, ?_, rfl, ?_⟩
    · rw [h1, List.append_nil]
    · rw [h2, Nat.add_zero, Nat.mod_eq_of_lt hc]
  cases op with
  | receive sender d now =>
    have hrecv : server_step s (server_op.receive sender d now)
        = handle_receive_sync (receive_from s sender d).1 false (receive_from s sender d).2 now :=
      rfl
    have hcount : (server_step s (server_op.receive sender d now)).packet_counter_
        = s.packet_counter_ := (server_loop_receive_frame s sender d now).2.1
    rcases handle_receive_sync_sent (receive_from s sender d).1 false (receive_from s sender d).2
      now with h | ⟨cid, slot, h⟩
    · exact hnone _ (by rw [hrecv, h]; rfl) hcount
    · refine ⟨_, 0, (by rw [hrecv, h]; rfl), data_packet_ids_info _ _ _, ?_⟩
      rw [hcount, Nat.add_zero, Nat.mod_eq_of_lt hc]
  | cleanup => exact hnone _ rfl rfl
  | motion c ax ay az gx gy gz now =>
    show ∃ (out : List (udp_endpoint × List Nat)) (n : Nat),
      (send_motion_data s c ax ay az gx gy gz now).sent = s.sent ++ out ∧ _ ∧
      (send_motion_data s c ax ay az gx gy gz now).packet_counter_ = _
    rcases send_motion_data_cases s c ax ay az gx gy gz now _ rfl with h | h | ⟨-, pkt, h⟩
    · rw [h]; exact hnone s rfl rfl
    · rw [h]; exact hnone _ rfl rfl
    · rw [h]
      exact ⟨_, s.clients_.length, rfl, data_packet_ids_broadcast _ _ _ _,
        counter_iterate _ _ hc⟩
  | activity es now =>
    show ∃ (out : List (udp_endpoint × List Nat)) (n : Nat),
      (update_clients_activity s es now).sent = s.sent ++ out ∧ _ ∧
      (update_clients_activity s es now).packet_counter_ = _
    rw [(update_clients_activity_spec es now s).1]
    exact hnone _ rfl rfl
  | start a b c =>
    exact hnone _ (start_frame s a b c).2.2.2.2 (start_frame s a b c).2.2.1
  | stop =>
    exact hnone _ (stop_frame s).2.2.2.1 (stop_frame s).2.1

/-- The same over a sequence of operations. -/
theorem server_run_packet_ids (ops : List server_op) (s : dsu_server_t)
    (hc : s.packet_counter_ < 2 ^ 32) :
    ∃ (out : List (udp_endpoint × List Nat)) (n : Nat),
      (server_run s ops).sent = s.sent ++ out ∧
      data_packet_ids out = (List.range n).map (fun i => (s.packet_counter_ + i + 1) % 2 ^ 32) ∧
      (server_run s ops).packet_counter_ = (s.packet_counter_ + n) % 2 ^ 32 := by
  induction ops generalizing s with
  | nil =>
    refine ⟨[], 0, (List.append_nil _).symm, rfl, ?_⟩
    show s.packet_counter_ = _
    rw [Nat.add_zero, Nat.mod_eq_of_lt hc]
  | cons op rest ih =>
    obtain ⟨out1, n1, hs1, hi1, hc1⟩ := server_step_packet_ids s op hc
    have hc' : (server_step s op).packet_counter_ < 2 ^ 32 := by
      rw [hc1]; exact Nat.mod_lt _ (by norm_num)
    obtain ⟨out2, n2, hs2, hi2, hc2⟩ := ih (server_step s op) hc'
    rw [server_run_cons]
    refine ⟨out1 ++ out2, n1 + n2, ?_, ?_, ?_⟩
    · rw [hs2, hs1, List.append_assoc]
    · rw [data_packet_ids_append, hi1, hi2, List.range_add, List.map_append, List.map_map, hc1]
      congr 1
      apply List.map_congr_left
      intro i _
      show ((s.packet_counter_ + n1) % 2 ^ 32 + i + 1) % 2 ^ 32
        = (s.packet_counter_ + (n1 + i) + 1) % 2 ^ 32
      omega
    · rw [hc2, hc1]
      omega

theorem packet_ids_nodup (c n : Nat) (hn : n ≤ 2 ^ 32) :
    ((List.range n).map (fun i => (c + i + 1) % 2 ^ 32)).Nodup := by
  apply List.Nodup.map_on _ (List.nodup_range n)
  intro x hx y hy hxy
  rw [List.mem_range] at hx hy
  have hxy' : (c + x + 1) % 2 ^ 32 = (c + y + 1) % 2 ^ 32 := hxy
  omega

/-- C14. Packet ids come from the single counter `packet_counter_`. The constructor sets it
to 0; `stop()` and `start()` leave it as it is. A `send_motion_data` call that starts with
counter `c` and broadcasts to the `N` registered sessions issues the ids
`c+1, c+2, ..., c+N` (mod 2^32) in registry order and leaves the counter at `c+N` (mod 2^32).
Across any sequence of operations the ids of all DATA packets sent, in the order sent, are
`c+1, ..., c+n` (mod 2^32) for the number `n` of packets, the counter ends at `c+n`
(mod 2^32), and as long as `n` is at most 2^32 no id occurs twice. -/
theorem packet_ids_consecutive (s : dsu_server_t) (controller_id : Nat)
    (ax ay az gx gy gz now : Nat) (hrun : s.running_ = true) (hcs : s.clients_ ≠ [])
    (hflag :
      (update_motion ((map_find controller_id s.motion_data_).getD (motion_data_t.init now))
        ax ay az gx gy gz now).has_accel = true ∨
      (update_motion ((map_find controller_id s.motion_data_).getD (motion_data_t.init now))
        ax ay az gx gy gz now).has_gyro = true)
    (hc : s.packet_counter_ < 2 ^ 32) :
    (sent_during s (send_motion_data s controller_id ax ay az gx gy gz now)).map
      (fun q => (dsu_data_packet.of_bytes q.2).packet_id)
      = (List.range (get_client_count s)).map (fun i => (s.packet_counter_ + i + 1) % 2 ^ 32) ∧
    (send_motion_data s controller_id ax ay az gx gy gz now).packet_counter_
      = (s.packet_counter_ + get_client_count s) % 2 ^ 32 ∧
    (∀ port : Nat, (dsu_server_t.init port).packet_counter_ = 0) ∧
    (∀ (s0 : dsu_server_t) (a b c : Bool),
      (stop s0).packet_counter_ = s0.packet_counter_ ∧
      (start s0 a b c).1.packet_counter_ = s0.packet_counter_) ∧
    (∀ (s0 : dsu_server_t) (ops : List server_op), s0.packet_counter_ < 2 ^ 32 →
      ∃ n : Nat,
        data_packet_ids (sent_during s0 (server_run s0 ops))
          = (List.range n).map (fun i => (s0.packet_counter_ + i + 1) % 2 ^ 32) ∧
        (server_run s0 ops).packet_counter_ = (s0.packet_counter_ + n) % 2 ^ 32 ∧
        (n ≤ 2 ^ 32 → (data_packet_ids (sent_during s0 (server_run s0 ops))).Nodup)) := by
  obtain ⟨hsent, hcount⟩ := sent_during_broadcast s controller_id ax ay az gx gy gz now hrun hcs
    hflag
  refine ⟨?_, ?_, fun _ => rfl, fun s0 a b c => ⟨(stop_frame s0).2.1, (start_frame s0 a b c).2.2.1⟩,
    ?_⟩
  · rw [hsent]
    exact broadcast_packet_ids _ _ _ _
  · rw [hcount]
    exact counter_iterate _ _ hc
  · intro s0 ops hc0
    obtain ⟨out, n, hs, hi, hcn⟩ := server_run_packet_ids ops s0 hc0
    have hout : sent_during s0 (server_run s0 ops) = out := sent_during_append s0 _ out hs
    rw [hout, hi]
    exact ⟨n, rfl, hcn, packet_ids_nodup _ n⟩

set_option maxRecDepth 100000 in
/-- Witness for C14: the sample of Scenario B is the first broadcast of the server; its one
packet has id 1 and the counter is 1 afterwards. -/
theorem packet_ids_consecutive_witness :
    scenario_B_server.running_ = true ∧ scenario_B_server.clients_ ≠ [] ∧
    scenario_B_server.packet_counter_ = 0 ∧
    (sent_during scenario_B_server scenario_B_after).map
      (fun q => (dsu_data_packet.of_bytes q.2).packet_id) = [1] ∧
    scenario_B_after.packet_counter_ = 1 := by
  have h := packet_ids_consecutive scenario_B_server 0 0x3F800000 0x40000000 0x40400000
    0x40800000 0x40A00000 0x40C00000 7000 (by decide) (by decide) (Or.inl (by decide))
    (by decide)
  have h1 : (List.range (get_client_count scenario_B_server)).map
      (fun i => (scenario_B_server.packet_counter_ + i + 1) % 2 ^ 32) = [1] := by decide
  have h2 : (scenario_B_server.packet_counter_ + get_client_count scenario_B_server) % 2 ^ 32
      = 1 := by decide
  exact ⟨by decide, by decide, by decide, h.1.trans h1, h.2.1.trans h2⟩

/-! ## Permanence of the motion flags -/

/-- One operation and the cache entry of controller `c`: the entry stays, a set flag stays set,
and an axis group is as before unless the operation supplies a triple for it that is not all
zero, in which case the group holds that triple. -/
theorem server_step_motion_entry (s : dsu_server_t) (op : server_op) (c : Nat)
    (m : motion_data_t) (h : map_find c s.motion_data_ = some m) :
    ∃ m1 : motion_data_t,
      map_find c (server_step s op).motion_data_ = some m1 ∧
      (m.has_accel = true → m1.has_accel = true) ∧
      (m.has_gyro = true → m1.has_gyro = true) ∧
      (supplies_accel c op = false →
        m1.accel_x = m.accel_x ∧ m1.accel_y = m.accel_y ∧ m1.accel_z = m.accel_z ∧
        m1.has_accel = m.has_accel) ∧
      (supplies_gyro c op = false →
        m1.gyro_x = m.gyro_x ∧ m1.gyro_y = m.gyro_y ∧ m1.gyro_z = m.gyro_z ∧
        m1.has_gyro = m.has_gyro) := by
  have hsame : ∀ md : List (Nat × motion_data_t), md = s.motion_data_ →
      ∃ m1 : motion_data_t,
        map_find c md = some m1 ∧
        (m.has_accel = true → m1.has_accel = true) ∧
        (m.has_gyro = true → m1.has_gyro = true) ∧
        (supplies_accel c op = false →
          m1.accel_x = m.accel_x ∧ m1.accel_y = m.accel_y ∧ m1.accel_z = m.accel_z ∧
          m1.has_accel = m.has_accel) ∧
        (supplies_gyro c op = false →
          m1.gyro_x = m.gyro_x ∧ m1.gyro_y = m.gyro_y ∧ m1.gyro_z = m.gyro_z ∧
          m1.has_gyro = m.has_gyro) := by
    intro md hmd
    rw [hmd]
    exact ⟨m, h, fun x => x, fun x => x, fun _ => ⟨rfl, rfl, rfl, rfl⟩,
      fun _ => ⟨rfl, rfl, rfl, rfl⟩⟩
  cases op with
  | receive sender d now => exact hsame _ (server_loop_receive_frame s sender d now).1
  | cleanup => exact hsame _ rfl
  | activity es now =>
    apply hsame
    show (update_clients_activity s es now).motion_data_ = _
    rw [(update_clients_activity_spec es now s).1]
  | start a b c0 => exact hsame _ (start_frame s a b c0).2.1
  | stop => exact hsame _ (stop_frame s).1
  | motion c0 ax ay az gx gy gz now =>
    have hcache := send_motion_data_cache s c0 ax ay az gx gy gz now
    by_cases hact : s.running_ = true ∧ s.clients_ ≠ []
    · rw [if_pos hact] at hcache
      by_cases hc : c0 = c
      · subst hc
        have hentry : map_find c0 (server_step s
            (server_op.motion c0 ax ay az gx gy gz now)).motion_data_
            = some (update_motion m ax ay az gx gy gz now) := by
          show map_find c0 (send_motion_data s c0 ax ay az gx gy gz now).motion_data_ = _
          rw [hcache, map_find_assign_self, h]
          rfl
        obtain ⟨-, ha1, ha0, hg1, hg0⟩ := update_motion_spec m ax ay az gx gy gz now
        refine ⟨_, hentry, ?_, ?_, ?_, ?_⟩
        · intro hm
          cases hz : (f32_ne_zero ax || f32_ne_zero ay || f32_ne_zero az) with
          | true => exact (ha1 hz).2.2.2
          | false => rw [(ha0 hz).2.2.2]; exact hm
        · intro hm
          cases hz : (f32_ne_zero gx || f32_ne_zero gy || f32_ne_zero gz) with
          | true => exact (hg1 hz).2.2.2
          | false => rw [(hg0 hz).2.2.2]; exact hm
        · intro hs
          have hz : (f32_ne_zero ax || f32_ne_zero ay || f32_ne_zero az) = false := by
            simpa [supplies_accel] using hs
          exact ha0 hz
        · intro hs
          have hz : (f32_ne_zero gx || f32_ne_zero gy || f32_ne_zero gz) = false := by
            simpa [supplies_gyro] using hs
          exact hg0 hz
      · have hentry : map_find c (server_step s
            (server_op.motion c0 ax ay az gx gy gz now)).motion_data_ = some m := by
          show map_find c (send_motion_data s c0 ax ay az gx gy gz now).motion_data_ = _
          rw [hcache, map_find_assign_other _ _ _ _ (fun hcc => hc hcc.symm)]
          exact h
        exact ⟨m, hentry, fun x => x, fun x => x, fun _ => ⟨rfl, rfl, rfl, rfl⟩,
          fun _ => ⟨rfl, rfl, rfl, rfl⟩⟩
    · rw [if_neg hact] at hcache
      exact hsame _ hcache

/-- C18. Let controller `c` have the cache entry `m` in some state. After any sequence of
operations (`send_motion_data` with any arguments, received datagrams, cleanup ticks, activity
reports, `stop()`, `start()`) the controller still has an entry; `has_accel` is set in it if
it was set in `m`, and so is `has_gyro`; and if no operation of the sequence was a
`send_motion_data` call for `c` with an accelerometer triple that is not all zero, the
accelerometer triple and `has_accel` are those of `m` (likewise for the gyroscope group). A
single `send_motion_data` call for `c` with a triple that is not all zero stores that triple. -/
theorem motion_flags_permanent (s : dsu_server_t) (c : Nat) (m : motion_data_t)
    (ops : List server_op) (h : map_find c s.motion_data_ = some m) :
    (∃ m1 : motion_data_t,
      map_find c (server_run s ops).motion_data_ = some m1 ∧
      (m.has_accel = true → m1.has_accel = true) ∧
      (m.has_gyro = true → m1.has_gyro = true) ∧
      ((∀ op ∈ ops, supplies_accel c op = false) →
        m1.accel_x = m.accel_x ∧ m1.accel_y = m.accel_y ∧ m1.accel_z = m.accel_z ∧
        m1.has_accel = m.has_accel) ∧
      ((∀ op ∈ ops, supplies_gyro c op = false) →
        m1.gyro_x = m.gyro_x ∧ m1.gyro_y = m.gyro_y ∧ m1.gyro_z = m.gyro_z ∧
        m1.has_gyro = m.has_gyro)) ∧
    (∀ ax ay az gx gy gz now : Nat, s.running_ = true → s.clients_ ≠ [] →
      ∃ m2 : motion_data_t,
        map_find c (send_motion_data s c ax ay az gx gy gz now).motion_data_ = some m2 ∧
        ((f32_ne_zero ax || f32_ne_zero ay || f32_ne_zero az) = true →
          m2.accel_x = ax ∧ m2.accel_y = ay ∧ m2.accel_z = az ∧ m2.has_accel = true) ∧
        ((f32_ne_zero gx || f32_ne_zero gy || f32_ne_zero gz) = true →
          m2.gyro_x = gx ∧ m2.gyro_y = gy ∧ m2.gyro_z = gz ∧ m2.has_gyro = true)) := by
  constructor
  · induction ops generalizing s m with
    | nil =>
      exact ⟨m, h, fun x => x, fun x => x, fun _ => ⟨rfl, rfl, rfl, rfl⟩,
        fun _ => ⟨rfl, rfl, rfl, rfl⟩⟩
    | cons op rest ih =>
      obtain ⟨m1, h1, ha1, hg1, hta1, htg1⟩ := server_step_motion_entry s op c m h
      obtain ⟨m2, h2, ha2, hg2, hta2, htg2⟩ := ih (server_step s op) m1 h1
      rw [server_run_cons]
      refine ⟨m2, h2, fun x => ha2 (ha1 x), fun x => hg2 (hg1 x), ?_, ?_⟩
      · intro hno
        obtain ⟨e1, e2, e3, e4⟩ := hta1 (hno op (List.mem_cons_self _ _))
        obtain ⟨f1, f2, f3, f4⟩ := hta2 (fun o ho => hno o (List.mem_cons_of_mem _ ho))
        exact ⟨f1.trans e1, f2.trans e2, f3.trans e3, f4.trans e4⟩
      · intro hno
        obtain ⟨e1, e2, e3, e4⟩ := htg1 (hno op (List.mem_cons_self _ _))
        obtain ⟨f1, f2, f3, f4⟩ := htg2 (fun o ho => hno o (List.mem_cons_of_mem _ ho))
        exact ⟨f1.trans e1, f2.trans e2, f3.trans e3, f4.trans e4⟩
  · intro ax ay az gx gy gz now hrun hcs
    obtain ⟨hentry, -⟩ := send_motion_data_entry s c ax ay az gx gy gz now hrun hcs
    obtain ⟨-, ha1, -, hg1, -⟩ := update_motion_spec
      ((map_find c s.motion_data_).getD (motion_data_t.init now)) ax ay az gx gy gz now
    exact ⟨_, hentry, ha1, hg1⟩

set_option maxRecDepth 100000 in
/-- Witness for C18: after the sample of Scenario B the server is stopped, started again, a
DATA request arrives, an all-zero sample is pushed for controller 0 and a cleanup tick runs;
the entry of controller 0 still has both flags set and the accelerometer triple (1, 2, 3). -/
theorem motion_flags_permanent_witness :
    map_find 0 scenario_B_after.motion_data_
      = some ⟨0x3F800000, 0x40000000, 0x40400000, 0x40800000, 0x40A00000, 0x40C00000, 7000,
          true, true⟩ ∧
    ∃ m1 : motion_data_t,
      map_find 0 (server_run scenario_B_after
        [server_op.stop, server_op.start true true true,
         server_op.receive client_E scenario_B_request 8000,
         server_op.motion 0 0 0 0 0 0 0 9000, server_op.cleanup]).motion_data_ = some m1 ∧
      m1.has_accel = true ∧ m1.has_gyro = true ∧
      m1.accel_x = 0x3F800000 ∧ m1.accel_y = 0x40000000 ∧ m1.accel_z = 0x40400000 := by
  have hm : map_find 0 scenario_B_after.motion_data_
      = some ⟨0x3F800000, 0x40000000, 0x40400000, 0x40800000, 0x40A00000, 0x40C00000, 7000,
          true, true⟩ := by decide
  obtain ⟨m1, h1, ha, hg, hta, -⟩ := (motion_flags_permanent scenario_B_after 0 _
    [server_op.stop, server_op.start true true true,
     server_op.receive client_E scenario_B_request 8000,
     server_op.motion 0 0 0 0 0 0 0 9000, server_op.cleanup] hm).1
  have hno : ∀ op ∈ [server_op.stop, server_op.start true true true,
      server_op.receive client_E scenario_B_request 8000,
      server_op.motion 0 0 0 0 0 0 0 9000, server_op.cleanup], supplies_accel 0 op = false := by
    intro op hop
    simp only [List.mem_cons, List.mem_singleton, List.not_mem_nil, or_false] at hop
    rcases hop with h | h | h | h | h <;> rw [h] <;> rfl
  obtain ⟨e1, e2, e3, -⟩ := hta hno
  exact ⟨hm, m1, h1, ha rfl, hg rfl, e1, e2, e3⟩

/-! ## Stamping twice, the layout of the shared block, the slot byte -/

/-- C23. Stamping is idempotent: for a packet `p` of at least 12 bytes, the stamping procedure
applied to the stamped packet gives the stamped packet again. The CRC32 recomputed over the
stamped packet with its CRC field zeroed is the value stored in the field, and
`send_packet_with_crc` run on the stamped packet sends the same bytes and leaves the same bytes
in the packet memory. -/
theorem stamp_idempotent (p : List Nat) (h : 12 ≤ p.length) :
    stamp (stamp p) = stamp p ∧
    crc32 ((stamp p).take 8 ++ [0, 0, 0, 0] ++ (stamp p).drop 12) (stamp p).length
      = load_u32 (stamp p) 8 ∧
    ∀ (s : dsu_server_t) (e : udp_endpoint),
      send_packet_with_crc s e (stamp p) (stamp p).length
        = ({ s with sent := s.sent ++ [(e, stamp p)] }, stamp p) := by
  have hlen : (stamp p).length = p.length := stamp_length p h
  have hunfold : stamp (stamp p) = (stamp p).take 8
      ++ le_bytes 4 (crc32 ((stamp p).take 8 ++ [0, 0, 0, 0] ++ (stamp p).drop 12)
        (stamp p).length) ++ (stamp p).drop 12 := rfl
  have hidem : stamp (stamp p) = stamp p := by
    rw [hunfold, stamp_take p h, stamp_drop p h, hlen]
    rfl
  refine ⟨hidem, ?_, ?_⟩
  · rw [stamp_take p h, stamp_drop p h, hlen, load_u32_stamp p h]
  · intro s e
    rw [send_packet_with_crc_eq s e (stamp p) (by rw [hlen]; exact h), hidem]

set_option maxRecDepth 100000 in
/-- Witness for C23: the 20 bytes of the Scenario A request taken as a packet. -/
theorem stamp_idempotent_witness :
    12 ≤ scenario_A_request.length ∧
    stamp (stamp scenario_A_request) = stamp scenario_A_request :=
  ⟨by decide, (stamp_idempotent scenario_A_request (by decide)).1⟩

/-- C26, the size that refutes it: the shared block of a response is 15 bytes long, not 12
(4 bytes of message type, 4 one-byte fields, 6 address bytes, 1 battery byte); with 12 bytes
the 32 bytes of an INFO response would not add up. -/
theorem shared_response_not_12_bytes :
    (build_info_packet 0 0).shared.to_bytes.length = 15 ∧
    (build_info_packet 0 0).shared.to_bytes.length ≠ 12 ∧
    sizeof_dsu_shared_response = 15 ∧
    sizeof_dsu_info_response = sizeof_dsu_header + 15 + 1 := by
  decide

theorem drop_stamp (p : List Nat) (h : 12 ≤ p.length) (n : Nat) (hn : 12 ≤ n) :
    (stamp p).drop n = p.drop n := by
  have h1 : (stamp p).drop n = ((stamp p).drop 12).drop (n - 12) := by
    rw [List.drop_drop]
    congr 1
    omega
  have h2 : p.drop n = (p.drop 12).drop (n - 12) := by
    rw [List.drop_drop]
    congr 1
    omega
  rw [h1, h2, stamp_drop p h]

/-- C26 as the code has it. The shared block (`message_type` u32, `slot`, `slot_state`,
`device_model`, `connection_type`, 6-byte `mac_address`, `battery_status`) occupies 15 bytes of
the serialised packet, immediately after the 16-byte header: bytes 16..30 of every INFO
response (32 bytes) and of every DATA response (100 bytes), also after stamping. -/
theorem shared_response_layout (r : dsu_shared_response) (pi : dsu_info_response)
    (pd : dsu_data_packet) :
    r.to_bytes.length = 15 ∧
    pi.header.to_bytes.length = 16 ∧
    pi.to_bytes.length = 32 ∧ pd.to_bytes.length = 100 ∧
    (pi.to_bytes.drop 16).take 15 = pi.shared.to_bytes ∧
    (pd.to_bytes.drop 16).take 15 = pd.shared.to_bytes ∧
    ((stamp pi.to_bytes).drop 16).take 15 = pi.shared.to_bytes ∧
    ((stamp pd.to_bytes).drop 16).take 15 = pd.shared.to_bytes := by
  have hs : ∀ x : dsu_shared_response, x.to_bytes.length = 15 := shared_to_bytes_length
  have hh : ∀ x : dsu_header, x.to_bytes.length = 16 := header_to_bytes_length
  have hi : pi.to_bytes.length = 32 := info_to_bytes_length pi
  have hd : pd.to_bytes.length = 100 := data_to_bytes_length pd
  have hbi : (pi.to_bytes.drop 16).take 15 = pi.shared.to_bytes := by
    unfold dsu_info_response.to_bytes
    rw [List.append_assoc, List.drop_left' (hh _), List.take_left' (hs _)]
  have hbd : (pd.to_bytes.drop 16).take 15 = pd.shared.to_bytes := by
    unfold dsu_data_packet.to_bytes
    rw [List.append_assoc, List.append_assoc, List.drop_left' (hh _), List.take_left' (hs _)]
  refine ⟨hs r, hh _, hi, hd, hbi, hbd, ?_, ?_⟩
  · rw [drop_stamp _ (by rw [hi]; decide) 16 (by decide)]
    exact hbi
  · rw [drop_stamp _ (by rw [hd]; decide) 16 (by decide)]
    exact hbd

/-- C30. Every DATA response that `send_motion_data(c, ...)` hands to the transport has the
slot field `c mod 256` (the byte at offset 20). Controller ids that differ by a multiple of
256 give the same packet image, slot byte included, while their motion-cache entries are
separate: pushing a sample for `c + 256 k` (`k > 0`) on a running server with a session stores
it under `c + 256 k` and leaves the entry of `c` as it is. -/
theorem data_response_slot (s : dsu_server_t) (c : Nat) (ax ay az gx gy gz now : Nat)
    (q : udp_endpoint × List Nat)
    (hq : q ∈ sent_during s (send_motion_data s c ax ay az gx gy gz now)) :
    (dsu_data_packet.of_bytes q.2).shared.slot = c % 256 ∧
    q.2.getD 20 0 % 256 = c % 256 ∧
    (∀ (k : Nat) (m : motion_data_t),
      build_data_packet (c + 256 * k) m = build_data_packet c m) ∧
    (∀ k : Nat, 0 < k → s.running_ = true → s.clients_ ≠ [] →
      map_find c (send_motion_data s (c + 256 * k) ax ay az gx gy gz now).motion_data_
        = map_find c s.motion_data_ ∧
      map_find (c + 256 * k)
        (send_motion_data s (c + 256 * k) ax ay az gx gy gz now).motion_data_
        = some (update_motion ((map_find (c + 256 * k) s.motion_data_).getD
            (motion_data_t.init now)) ax ay az gx gy gz now)) := by
  obtain ⟨-, kv, -, pid, hqe⟩ := sent_during_send_motion_data s c ax ay az gx gy gz now q hq
  obtain ⟨crc, -, hdec⟩ := data_response_decodes c
    (update_motion ((map_find c s.motion_data_).getD (motion_data_t.init now))
      ax ay az gx gy gz now) kv.2.client_id pid
  have hq2 : q.2 = data_response (build_data_packet c
      (update_motion ((map_find c s.motion_data_).getD (motion_data_t.init now))
        ax ay az gx gy gz now)) kv.2.client_id pid := by
    rw [hqe]
  have hslot : (dsu_data_packet.of_bytes q.2).shared.slot = c % 256 := by
    rw [hq2, hdec]
  have hbyte : (dsu_data_packet.of_bytes q.2).shared.slot = q.2.getD 20 0 % 256 := by
    simp [dsu_data_packet.of_bytes, dsu_shared_response.of_bytes, load_le]
  refine ⟨hslot, ?_, ?_, ?_⟩
  · rw [← hbyte, hslot]
  · intro k m
    have hmod : (c + 256 * k) % 2 ^ 8 = c % 2 ^ 8 := by omega
    unfold build_data_packet
    rw [hmod]
  · intro k hk hrun hcs
    obtain ⟨hentry, hother⟩ := send_motion_data_entry s (c + 256 * k) ax ay az gx gy gz now hrun
      hcs
    exact ⟨hother c (by omega), hentry⟩

set_option maxRecDepth 100000 in
/-- Witness for C30: the server of Scenario B is pushed the sample (1, 2, 3 | 4, 5, 6) for
controller 256; the packet it sends to `client_E` has slot 0. -/
theorem data_response_slot_witness :
    ∃ p : List Nat,
      (client_E, p) ∈ sent_during scenario_B_server
        (send_motion_data scenario_B_server 256 0x3F800000 0x40000000 0x40400000 0x40800000
          0x40A00000 0x40C00000 7000) ∧
      (dsu_data_packet.of_bytes p).shared.slot = 0 := by
  have hlen : (sent_during scenario_B_server
      (send_motion_data scenario_B_server 256 0x3F800000 0x40000000 0x40400000 0x40800000
        0x40A00000 0x40C00000 7000)).map Prod.fst = [client_E] := by decide!
  cases hout : sent_during scenario_B_server
      (send_motion_data scenario_B_server 256 0x3F800000 0x40000000 0x40400000 0x40800000
        0x40A00000 0x40C00000 7000) with
  | nil => rw [hout] at hlen; cases hlen
  | cons q rest =>
    rw [hout] at hlen
    have hq1 : q.1 = client_E := by
      simp only [List.map_cons, List.cons.injEq] at hlen
      exact hlen.1
    have hmem : q ∈ sent_during scenario_B_server
        (send_motion_data scenario_B_server 256 0x3F800000 0x40000000 0x40400000 0x40800000
          0x40A00000 0x40C00000 7000) := by
      rw [hout]; exact List.mem_cons_self _ _
    have h := data_response_slot scenario_B_server 256 0x3F800000 0x40000000 0x40400000
      0x40800000 0x40A00000 0x40C00000 7000 q hmem
    refine ⟨q.2, ?_, h.1⟩
    rw [← hq1]
    exact List.mem_cons_self _ _

/-! ## The registry invariant -/

theorem mem_map_assign {K V : Type} [DecidableEq K] [LT K]
    [DecidableRel (fun a b : K => a < b)] (k : K) (v : V) (m : List (K × V)) (kv : K × V)
    (h : kv ∈ map_assign k v m) : kv = (k, v) ∨ kv ∈ m := by
  induction m with
  | nil =>
    left
    exact List.mem_singleton.mp h
  | cons x rest ih =>
    obtain ⟨k1, v1⟩ := x
    unfold map_assign at h
    by_cases hk : k1 = k
    · rw [if_pos hk] at h
      rcases List.mem_cons.mp h with h1 | h1
      · exact Or.inl h1
      · exact Or.inr (List.mem_cons_of_mem _ h1)
    · rw [if_neg hk] at h
      by_cases hlt : k < k1
      · rw [if_pos hlt] at h
        rcases List.mem_cons.mp h with h1 | h1
        · exact Or.inl h1
        · exact Or.inr h1
      · rw [if_neg hlt] at h
        rcases List.mem_cons.mp h with h1 | h1
        · right; rw [h1]; exact List.mem_cons_self _ _
        · rcases ih h1 with h2 | h2
          · exact Or.inl h2
          · exact Or.inr (List.mem_cons_of_mem _ h2)

theorem mem_map_modify {K V : Type} [DecidableEq K] (k : K) (f : V → V) (m : List (K × V))
    (kv : K × V) (h : kv ∈ map_modify k f m) :
    kv ∈ m ∨ ∃ v0 : V, (kv.1, v0) ∈ m ∧ kv.2 = f v0 := by
  induction m with
  | nil => cases h
  | cons x rest ih =>
    obtain ⟨k1, v1⟩ := x
    unfold map_modify at h
    by_cases hk : k1 = k
    · rw [if_pos hk] at h
      rcases List.mem_cons.mp h with h1 | h1
      · right
        refine ⟨v1, ?_, ?_⟩
        · rw [h1]; exact List.mem_cons_self _ _
        · rw [h1]
      · exact Or.inl (List.mem_cons_of_mem _ h1)
    · rw [if_neg hk] at h
      rcases List.mem_cons.mp h with h1 | h1
      · left; rw [h1]; exact List.mem_cons_self _ _
      · rcases ih h1 with h2 | ⟨v0, h2, h3⟩
        · exact Or.inl (List.mem_cons_of_mem _ h2)
        · exact Or.inr ⟨v0, List.mem_cons_of_mem _ h2, h3⟩

/-- A datagram received by a server that is not running changes no session. -/
theorem server_loop_receive_stopped (s : dsu_server_t) (sender : udp_endpoint) (d : List Nat)
    (now : Nat) (h : s.running_ = false) :
    (server_loop_receive s sender d now).clients_ = s.clients_ := by
  have hrecv : server_loop_receive s sender d now
      = handle_receive_sync (receive_from s sender d).1 false (receive_from s sender d).2 now :=
    rfl
  have hrun : (receive_from s sender d).1.running_ = false := h
  rcases handle_receive_sync_cases (receive_from s sender d).1 false (receive_from s sender d).2
    now with h1 | ⟨hr, -⟩ | ⟨hr, -⟩
  · rw [hrecv, h1]; rfl
  · rw [hrun] at hr; cases hr
  · rw [hrun] at hr; cases hr

theorem registry_invariant_init (port : Nat) : registry_invariant (dsu_server_t.init port) :=
  ⟨fun _ => rfl, List.nodup_nil, fun kv hkv => by cases hkv⟩

/-- Every operation keeps the registry invariant. -/
theorem server_step_registry_invariant (s : dsu_server_t) (op : server_op)
    (h : registry_invariant s) : registry_invariant (server_step s op) := by
  obtain ⟨hstop, hkeys, hent⟩ := h
  refine ⟨?_, server_step_keys_nodup s op hkeys, ?_⟩
  · cases op with
    | receive sender d now =>
      intro hr
      have hr0 : s.running_ = false := by
        rw [← (server_loop_receive_frame s sender d now).2.2.1]; exact hr
      show (server_loop_receive s sender d now).clients_ = []
      rw [server_loop_receive_stopped s sender d now hr0]
      exact hstop hr0
    | cleanup =>
      intro hr
      show cleanup_loop s.clients_ = []
      rw [hstop hr]
      rfl
    | motion c ax ay az gx gy gz now =>
      intro hr
      have hf := send_motion_data_frame s c ax ay az gx gy gz now
      show (send_motion_data s c ax ay az gx gy gz now).clients_ = []
      rw [hf.1]
      apply hstop
      rw [← hf.2.1]
      exact hr
    | activity es now =>
      intro hr
      have hspec := update_clients_activity_spec es now s
      have hr0 : s.running_ = false := by
        have : (update_clients_activity s es now).running_ = s.running_ := by rw [hspec.1]
        rw [← this]; exact hr
      have hk := hspec.2.1
      rw [hstop hr0] at hk
      exact List.map_eq_nil_iff.mp hk
    | start a b c =>
      intro hr
      show (start s a b c).1.clients_ = []
      rw [(start_frame s a b c).1]
      apply hstop
      cases hrun : s.running_ with
      | false => rfl
      | true =>
        have hst : (start s a b c).1 = s := by
          unfold start
          rw [hrun]
          rfl
        have hr1 : (start s a b c).1.running_ = false := hr
        rw [hst, hrun] at hr1
        cases hr1
    | stop =>
      intro _
      show (stop s).clients_ = []
      unfold stop
      cases hrun : s.running_ with
      | false => exact hstop hrun
      | true => rfl
  · have hsame : ∀ cl : List (String × client_info_t), cl = s.clients_ →
        ∀ kv ∈ cl, kv.1 = generate_client_key kv.2.endpoint ∧
          0 ≤ kv.2.sendTimeout ∧ kv.2.sendTimeout ≤ 39 := by
      intro cl hcl
      rw [hcl]
      exact hent
    cases op with
    | receive sender d now =>
      show ∀ kv ∈ (server_loop_receive s sender d now).clients_, _
      rcases server_loop_receive_clients s sender d now with h1 | ⟨-, cid, clid, h1⟩ | ⟨-, -, h1⟩
      · exact hsame _ h1
      · rw [h1]
        intro kv hkv
        rcases mem_map_assign _ _ _ _ hkv with h2 | h2
        · rw [h2]
          exact ⟨rfl, le_refl _, (by decide : (0 : Int) ≤ 39)⟩
        · exact hent kv h2
      · rw [h1]
        intro kv hkv
        rcases mem_map_modify _ _ _ _ hkv with h2 | ⟨v0, h2, h3⟩
        · exact hent kv h2
        · obtain ⟨e1, -, -⟩ := hent _ h2
          rw [h3]
          exact ⟨e1, le_refl _, (by decide : (0 : Int) ≤ 39)⟩
    | cleanup =>
      show ∀ kv ∈ cleanup_loop s.clients_, _
      have hrange : ∀ kv ∈ s.clients_,
          -2 ^ 31 ≤ kv.2.sendTimeout ∧ kv.2.sendTimeout < 2 ^ 31 - 1 := by
        intro kv hkv
        obtain ⟨-, h1, h2⟩ := hent kv hkv
        constructor <;> omega
      rw [cleanup_loop_eq_filterMap s.clients_ hrange]
      intro kv hkv
      obtain ⟨kv0, hkv0, hsome⟩ := List.mem_filterMap.mp hkv
      obtain ⟨e1, h1, h2⟩ := hent kv0 hkv0
      by_cases hlt : kv0.2.sendTimeout < 39
      · rw [if_pos hlt] at hsome
        cases hsome
        refine ⟨e1, ?_, ?_⟩
        · show (0 : Int) ≤ kv0.2.sendTimeout + 1
          omega
        · show kv0.2.sendTimeout + 1 ≤ 39
          omega
      · rw [if_neg hlt] at hsome
        cases hsome
    | motion c ax ay az gx gy gz now =>
      exact hsame _ (send_motion_data_frame s c ax ay az gx gy gz now).1
    | activity es now =>
      show ∀ kv ∈ (update_clients_activity s es now).clients_, _
      intro kv hkv
      obtain ⟨-, hk, hfind⟩ := update_clients_activity_spec es now s
      have hnd : ((update_clients_activity s es now).clients_.map Prod.fst).Nodup := by
        rw [hk]; exact hkeys
      have hfound : map_find kv.1 (update_clients_activity s es now).clients_ = some kv.2 := by
        clear hk hfind
        revert hnd hkv
        generalize (update_clients_activity s es now).clients_ = l
        intro hkv hnd
        induction l with
        | nil => cases hkv
        | cons x rest ih =>
          obtain ⟨k1, v1⟩ := x
          rw [List.map_cons, List.nodup_cons] at hnd
          unfold map_find
          rcases List.mem_cons.mp hkv with h1 | h1
          · rw [h1, if_pos rfl]
          · have hne : k1 ≠ kv.1 := by
              intro heq
              apply hnd.1
              rw [heq]
              exact List.mem_map.mpr ⟨kv, h1, rfl⟩
            rw [if_neg hne]
            exact ih h1 hnd.2
      cases hold : map_find kv.1 s.clients_ with
      | none =>
        rw [(hfind kv.1).1 hold] at hfound
        cases hfound
      | some ci =>
        obtain ⟨t, ht⟩ := (hfind kv.1).2 ci hold
        rw [ht] at hfound
        have hci : (kv.1, ci) ∈ s.clients_ := by
          clear ht hfound hfind hk hnd hkv
          revert hold
          generalize s.clients_ = l
          intro hold
          induction l with
          | nil => cases hold
          | cons x rest ih =>
            obtain ⟨k1, v1⟩ := x
            unfold map_find at hold
            by_cases hk1 : k1 = kv.1
            · rw [if_pos hk1] at hold
              cases hold
              rw [hk1]
              exact List.mem_cons_self _ _
            · rw [if_neg hk1] at hold
              exact List.mem_cons_of_mem _ (ih hold)
        obtain ⟨e1, h1, h2⟩ := hent _ hci
        have hkv2 : kv.2 = { ci with last_seen := t } := (Option.some.inj hfound).symm
        rw [hkv2]
        exact ⟨e1, h1, h2⟩
    | start a b c => exact hsame _ (start_frame s a b c).1
    | stop =>
      show ∀ kv ∈ (stop s).clients_, _
      rcases (stop_frame s).2.2.2.2 with h1 | h1
      · exact hsame _ h1
      · rw [h1]
        intro kv hkv
        cases hkv

theorem server_run_registry_invariant (ops : List server_op) (s : dsu_server_t)
    (h : registry_invariant s) : registry_invariant (server_run s ops) := by
  induction ops generalizing s with
  | nil => exact h
  | cons op rest ih =>
    rw [server_run_cons]
    exact ih _ (server_step_registry_invariant s op h)

/-- C28. In every state reached from the constructed server by any sequence of operations
(received datagrams, among them DATA and INFO requests, cleanup ticks, `send_motion_data`,
`update_clients_activity`, `start()`, `stop()`), every registered session has an idle counter
from 0 to 39, no two sessions have the same endpoint, and no two are stored under the same
key. -/
theorem registry_counters_bounded (port : Nat) (ops : List server_op) :
    (∀ kv ∈ (server_run (dsu_server_t.init port) ops).clients_,
      0 ≤ kv.2.sendTimeout ∧ kv.2.sendTimeout ≤ 39) ∧
    ((server_run (dsu_server_t.init port) ops).clients_.map (fun kv => kv.2.endpoint)).Nodup ∧
    ((server_run (dsu_server_t.init port) ops).clients_.map Prod.fst).Nodup := by
  obtain ⟨-, hkeys, hent⟩ := server_run_registry_invariant ops _ (registry_invariant_init port)
  refine ⟨fun kv hkv => (hent kv hkv).2, ?_, hkeys⟩
  have hmap : (server_run (dsu_server_t.init port) ops).clients_.map Prod.fst
      = ((server_run (dsu_server_t.init port) ops).clients_.map (fun kv => kv.2.endpoint)).map
          generate_client_key := by
    rw [List.map_map]
    apply List.map_congr_left
    intro kv hkv
    exact (hent kv hkv).1
  rw [hmap] at hkeys
  exact List.Nodup.of_map _ hkeys

set_option maxRecDepth 100000 in
/-- Witness for C28: a server is started, `client_E` registers, and 39 cleanup ticks run; the
one session has idle counter 39. -/
theorem registry_counters_bounded_witness :
    (server_run (dsu_server_t.init 26760)
      (server_op.start true true true :: server_op.receive client_E scenario_B_request 0
        :: List.replicate 39 server_op.cleanup)).clients_.map (fun kv => kv.2.sendTimeout)
      = [39] ∧
    ∀ kv ∈ (server_run (dsu_server_t.init 26760)
      (server_op.start true true true :: server_op.receive client_E scenario_B_request 0
        :: List.replicate 39 server_op.cleanup)).clients_,
      0 ≤ kv.2.sendTimeout ∧ kv.2.sendTimeout ≤ 39 :=
  ⟨by decide, (registry_counters_bounded 26760
    (server_op.start true true true :: server_op.receive client_E scenario_B_request 0
      :: List.replicate 39 server_op.cleanup)).1⟩

/-- C21. `stop()` is idempotent: after it `is_running()` is false; on a server that is not
running it changes nothing, so a second `stop()` leaves the state of the first. On a running
server it closes the socket, joins the loop thread and empties the registry, so
`get_client_count()` is 0; and since the registry of a server that is not running is empty in
every state reached from the constructed server, `get_client_count()` is 0 after `stop()` in
every such state. -/
theorem stop_idempotent (s : dsu_server_t) :
    is_running (stop s) = false ∧
    stop (stop s) = stop s ∧
    (s.running_ = false → stop s = s) ∧
    (s.running_ = true →
      get_client_count (stop s) = 0 ∧ (stop s).socket_open = false ∧
      (stop s).server_thread_ = false) ∧
    (∀ (port : Nat) (ops : List server_op), s = server_run (dsu_server_t.init port) ops →
      get_client_count (stop s) = 0) := by
  have hnot : s.running_ = false → stop s = s := by
    intro h
    unfold stop
    rw [h]
    rfl
  have hrun : (stop s).running_ = false := by
    unfold stop
    cases h : s.running_ <;> simp [h]
  refine ⟨hrun, ?_, hnot, ?_, ?_⟩
  · unfold stop
    cases h : s.running_ <;> simp [h]
  · intro h
    unfold stop get_client_count
    rw [h]
    exact ⟨rfl, rfl, rfl⟩
  · intro port ops hs
    have hinv : registry_invariant (stop s) := by
      have h1 : stop s = server_step s server_op.stop := rfl
      rw [h1, hs]
      exact server_step_registry_invariant _ _
        (server_run_registry_invariant ops _ (registry_invariant_init port))
    unfold get_client_count
    rw [hinv.1 hrun]
    rfl

set_option maxRecDepth 100000 in
/-- Witness for C21: the server of Scenario B, which is running and has one session. -/
theorem stop_idempotent_witness :
    scenario_B_server.running_ = true ∧ get_client_count scenario_B_server = 1 ∧
    get_client_count (stop scenario_B_server) = 0 ∧
    is_running (stop scenario_B_server) = false ∧
    stop (stop scenario_B_server) = stop scenario_B_server := by
  have h := stop_idempotent scenario_B_server
  exact ⟨by decide, by decide, (h.2.2.2.1 (by decide)).1, h.1, h.2.1⟩

/-- C22 at a bind failure. A constructed server whose `start()` opens the socket but cannot
bind returns -1 and is not running, but its socket stays open (the exception handlers do not
close it), so the state is not the one before the call; every later `start()` returns -1,
whatever the environment allows then, because `socket_.open` throws on the open socket, and
`stop()` does nothing on the server that is not running. A `start()` of the constructed server
in an environment where everything succeeds returns 0. -/
theorem start_after_failed_bind :
    (start (dsu_server_t.init 26760) true true false).2 = -1 ∧
    (start (dsu_server_t.init 26760) true true false).1.running_ = false ∧
    (dsu_server_t.init 26760).socket_open = false ∧
    (start (dsu_server_t.init 26760) true true false).1.socket_open = true ∧
    (start (dsu_server_t.init 26760) true true false).1 ≠ dsu_server_t.init 26760 ∧
    (∀ open_ok options_ok bind_ok : Bool,
      (start (start (dsu_server_t.init 26760) true true false).1 open_ok options_ok bind_ok).2
        = -1) ∧
    stop (start (dsu_server_t.init 26760) true true false).1
      = (start (dsu_server_t.init 26760) true true false).1 ∧
    (start (dsu_server_t.init 26760) true true true).2 = 0 := by
  refine ⟨rfl, rfl, rfl, rfl, ?_, ?_, rfl, rfl⟩
  · intro h
    have h1 : (start (dsu_server_t.init 26760) true true false).1.socket_open
        = (dsu_server_t.init 26760).socket_open := by rw [h]
    exact Bool.noConfusion h1
  · intro a b c
    cases a <;> cases b <;> cases c <;> rfl

/-- When `socket_.open` itself fails on a server that is not running, `start()` returns -1 and
the state is the one before the call; and from a state that is not running and has the socket
closed, `start()` returns 0 and runs whenever open, the option calls and bind succeed. -/
theorem start_open_failure (s : dsu_server_t) (options_ok bind_ok : Bool)
    (h : s.running_ = false) :
    start s false options_ok bind_ok = (s, -1) ∧
    (s.socket_open = false →
      (start s true true true).2 = 0 ∧ (start s true true true).1.running_ = true) := by
  constructor
  · unfold start
    rw [h]
    cases s.socket_open <;> rfl
  · intro hs
    unfold start
    rw [h, hs]
    exact ⟨rfl, rfl⟩

/-! ## Reads beyond the received datagram -/

/-- C24 at a 20-byte and at a 16-byte datagram. For the 20-byte INFO request of Scenario A,
`bytes_transferred` is 20 and the offsets read are 16..19, 8..11 and 20: offset 20 is not
inside the datagram. For its first 16 bytes sent alone, `bytes_transferred` is 16 and offsets
16..19 are read. The byte read at offset 20 is what an earlier datagram left there: after a
24-byte INFO request with slot byte 3, the answer to the 20-byte request carries slot 3. -/
theorem reads_past_datagram :
    (receive_from running_server client_E scenario_A_request).2 = 20 ∧
    handle_receive_sync_reads (receive_from running_server client_E scenario_A_request).1 false
      (receive_from running_server client_E scenario_A_request).2
      = [16, 17, 18, 19, 8, 9, 10, 11, 20] ∧
    (receive_from running_server client_E (scenario_A_request.take 16)).2 = 16 ∧
    handle_receive_sync_reads
      (receive_from running_server client_E (scenario_A_request.take 16)).1 false
      (receive_from running_server client_E (scenario_A_request.take 16)).2
      = [16, 17, 18, 19] ∧
    (sent_during (server_loop_receive running_server client_E info_request_slot3 0)
      (server_loop_receive (server_loop_receive running_server client_E info_request_slot3 0)
        client_E scenario_A_request 5)).map
      (fun q => (dsu_info_response.of_bytes q.2).shared.slot) = [3] := by
  refine ⟨by decide, by decide, by decide, by decide, ?_⟩
  decide!

/-- The offsets read are always inside the receive buffer (at most 20), and inside the
datagram when it has at least 21 bytes. -/
theorem handle_receive_sync_reads_bound (s : dsu_server_t) (ec : Bool) (n : Nat) :
    ∀ off ∈ handle_receive_sync_reads s ec n, off < MAX_PACKET_SIZE ∧ (21 ≤ n → off < n) := by
  intro off hoff
  have hle : off ≤ 20 := by
    unfold handle_receive_sync_reads handle_info_request_reads handle_data_request_reads
      parse_client_id_reads at hoff
    simp only [] at hoff
    split at hoff
    · cases hoff
    · split at hoff
      · cases hoff
      · split at hoff
        · cases hoff
        · split at hoff
          · cases hoff
          · rcases List.mem_append.mp hoff with h | h
            · simp only [List.mem_cons, List.mem_singleton, List.not_mem_nil, or_false] at h
              omega
            · split at h
              · split at h
                · cases h
                · simp only [List.mem_append, List.mem_cons, List.mem_singleton,
                    List.not_mem_nil, or_false] at h
                  omega
              · split at h
                · split at h
                  · cases h
                  · simp only [List.mem_append, List.mem_cons, List.mem_singleton,
                      List.not_mem_nil, or_false] at h
                    omega
                · cases h
  have hmax : MAX_PACKET_SIZE = 100 := rfl
  constructor
  · omega
  · intro hn
    omega

/-- C25 at a 20-byte request. Two running servers, one freshly started and one that has
answered a 24-byte INFO request with slot byte 3 before, receive the same 20-byte INFO request
of Scenario A from the same client: the first answers with slot 0, the second with slot 3, and
the response bytes differ. -/
theorem info_response_depends_on_stale_byte :
    running_server.running_ = true ∧
    (server_loop_receive running_server client_E info_request_slot3 0).running_ = true ∧
    scenario_A_request.length = 20 ∧
    load_u32 scenario_A_request 16 = DSU_MESSAGE_TYPE_INFO ∧
    (sent_during running_server
      (server_loop_receive running_server client_E scenario_A_request 5)).map
      (fun q => (dsu_info_response.of_bytes q.2).shared.slot) = [0] ∧
    (sent_during (server_loop_receive running_server client_E info_request_slot3 0)
      (server_loop_receive (server_loop_receive running_server client_E info_request_slot3 0)
        client_E scenario_A_request 5)).map
      (fun q => (dsu_info_response.of_bytes q.2).shared.slot) = [3] ∧
    sent_during running_server
      (server_loop_receive running_server client_E scenario_A_request 5) ≠
    sent_during (server_loop_receive running_server client_E info_request_slot3 0)
      (server_loop_receive (server_loop_receive running_server client_E info_request_slot3 0)
        client_E scenario_A_request 5) := by
  have h0 : (sent_during running_server
      (server_loop_receive running_server client_E scenario_A_request 5)).map
      (fun q => (dsu_info_response.of_bytes q.2).shared.slot) = [0] := by decide!
  have h3 : (sent_during (server_loop_receive running_server client_E info_request_slot3 0)
      (server_loop_receive (server_loop_receive running_server client_E info_request_slot3 0)
        client_E scenario_A_request 5)).map
      (fun q => (dsu_info_response.of_bytes q.2).shared.slot) = [3] := by decide!
  refine ⟨rfl, by decide, by decide, by decide, h0, h3, ?_⟩
  intro heq
  rw [heq, h3] at h0
  exact absurd h0 (by decide)

/-- An INFO request of at least 21 bytes is answered from its own bytes alone: two running
servers answer the same datagram from the same sender with the same bytes, which are the
stamped INFO packet built from the word at offsets 8..11 and the byte at offset 20 of the
datagram. -/
theorem info_response_stateless_from_21 (s1 s2 : dsu_server_t) (sender : udp_endpoint)
    (d : List Nat) (now1 now2 : Nat)
    (hrun1 : s1.running_ = true) (hrun2 : s2.running_ = true)
    (hbuf1 : s1.recv_buffer_.length = MAX_PACKET_SIZE)
    (hbuf2 : s2.recv_buffer_.length = MAX_PACKET_SIZE)
    (hlen : 21 ≤ d.length) (htype : load_u32 d 16 = DSU_MESSAGE_TYPE_INFO) :
    sent_during s1 (server_loop_receive s1 sender d now1)
      = [(sender, stamp (build_info_packet (load_u32 d 8) (d.getD 20 0 % 256)).to_bytes)] ∧
    sent_during s1 (server_loop_receive s1 sender d now1)
      = sent_during s2 (server_loop_receive s2 sender d now2) := by
  have hmax : MAX_PACKET_SIZE = 100 := rfl
  have hone : ∀ (s : dsu_server_t) (now : Nat), s.running_ = true →
      s.recv_buffer_.length = MAX_PACKET_SIZE →
      sent_during s (server_loop_receive s sender d now)
        = [(sender, stamp (build_info_packet (load_u32 d 8) (d.getD 20 0 % 256)).to_bytes)] := by
    intro s now hrun hbuf
    have hn : 20 ≤ (d.take s.recv_buffer_.length).length := by
      rw [List.length_take]; omega
    obtain ⟨pkt, heq⟩ := handle_info_request_eq
      { s with recv_buffer_ := store_bytes s.recv_buffer_ 0 (d.take s.recv_buffer_.length),
               remote_endpoint_ := sender }
      sender (store_bytes s.recv_buffer_ 0 (d.take s.recv_buffer_.length))
      (d.take s.recv_buffer_.length).length hn
    apply sent_during_append
    rw [server_loop_receive_info s sender d now hrun hbuf (by omega) htype, heq]
    have h8 : parse_client_id (store_bytes s.recv_buffer_ 0 (d.take s.recv_buffer_.length))
        = load_u32 d 8 := by
      unfold parse_client_id load_u32
      exact receive_from_load _ _ _ _ (by omega) (by omega)
    have h20 : (store_bytes s.recv_buffer_ 0 (d.take s.recv_buffer_.length)).getD 20 0
        = d.getD 20 0 := receive_from_getD _ _ _ (by omega) (by omega)
    rw [h8, h20]
  rw [hone s1 now1 hrun1 hbuf1, hone s2 now2 hrun2 hbuf2]
  exact ⟨rfl, rfl⟩

/-! ## Activity reports -/

theorem map_modify_eq_map {K V : Type} [DecidableEq K] (k : K) (f : V → V) (m : List (K × V))
    (h : (m.map Prod.fst).Nodup) :
    map_modify k f m = m.map (fun kv => if kv.1 = k then (kv.1, f kv.2) else kv) := by
  induction m with
  | nil => rfl
  | cons x rest ih =>
    obtain ⟨k1, v1⟩ := x
    rw [List.map_cons, List.nodup_cons] at h
    unfold map_modify
    rw [List.map_cons]
    by_cases hk : k1 = k
    · rw [if_pos hk, if_pos hk]
      congr 1
      symm
      have hid : ∀ kv ∈ rest, (fun kv : K × V => if kv.1 = k then (kv.1, f kv.2) else kv) kv
          = id kv := by
        intro kv hkv
        have hne : kv.1 ≠ k := by
          intro heq
          apply h.1
          rw [hk, ← heq]
          exact List.mem_map.mpr ⟨kv, hkv, rfl⟩
        show (if kv.1 = k then (kv.1, f kv.2) else kv) = kv
        rw [if_neg hne]
      rw [List.map_congr_left hid, List.map_id]
    · rw [if_neg hk, if_neg hk, ih h.2]

/-- What `update_clients_activity` does to a registry with one entry per key: the entries
stored under the key of a listed endpoint get `last_seen = now`; nothing else changes. -/
theorem update_clients_activity_eq_map (es : List udp_endpoint) (now : Nat) (s : dsu_server_t)
    (hkeys : (s.clients_.map Prod.fst).Nodup) :
    update_clients_activity s es now =
      { s with clients_ := s.clients_.map (fun kv =>
          if kv.1 ∈ es.map generate_client_key then (kv.1, { kv.2 with last_seen := now })
          else kv) } := by
  induction es generalizing s with
  | nil =>
    have hid : s.clients_.map (fun kv =>
        if kv.1 ∈ ([] : List udp_endpoint).map generate_client_key then
          (kv.1, { kv.2 with last_seen := now })
        else kv) = s.clients_ := by
      have h1 : ∀ kv ∈ s.clients_, (fun kv : String × client_info_t =>
          if kv.1 ∈ ([] : List udp_endpoint).map generate_client_key then
            (kv.1, { kv.2 with last_seen := now })
          else kv) kv = id kv := by
        intro kv _
        simp
      rw [List.map_congr_left h1, List.map_id]
    rw [hid]
    rfl
  | cons e rest ih =>
    have hstep : update_clients_activity s (e :: rest) now =
        update_clients_activity
          (match map_find (generate_client_key e) s.clients_ with
            | some _ => { s with clients_ := map_modify (generate_client_key e) (fun ci => { ci with last_seen := now }) s.clients_ }
            | none => s) rest now := rfl
    have hone : (match map_find (generate_client_key e) s.clients_ with
            | some _ => { s with clients_ := map_modify (generate_client_key e) (fun ci => { ci with last_seen := now }) s.clients_ }
            | none => s)
        = { s with clients_ := s.clients_.map (fun kv =>
            if kv.1 = generate_client_key e then (kv.1, { kv.2 with last_seen := now })
            else kv) } := by
      cases hf : map_find (generate_client_key e) s.clients_ with
      | none =>
        simp only []
        have hid : ∀ kv ∈ s.clients_, (fun kv : String × client_info_t =>
            if kv.1 = generate_client_key e then (kv.1, { kv.2 with last_seen := now })
            else kv) kv = id kv := by
          intro kv hkv
          have hne : kv.1 ≠ generate_client_key e := by
            intro heq
            apply not_mem_keys_of_map_find_none _ _ hf
            rw [← heq]
            exact List.mem_map.mpr ⟨kv, hkv, rfl⟩
          show (if kv.1 = generate_client_key e then (kv.1, { kv.2 with last_seen := now })
            else kv) = kv
          rw [if_neg hne]
        rw [List.map_congr_left hid, List.map_id]
      | some ci0 =>
        simp only []
        rw [map_modify_eq_map _ _ _ hkeys]
    rw [hstep, hone]
    have hkeys1 : ((s.clients_.map (fun kv =>
        if kv.1 = generate_client_key e then (kv.1, { kv.2 with last_seen := now })
        else kv)).map Prod.fst).Nodup := by
      have hk : (s.clients_.map (fun kv =>
          if kv.1 = generate_client_key e then (kv.1, { kv.2 with last_seen := now })
          else kv)).map Prod.fst = s.clients_.map Prod.fst := by
        rw [List.map_map]
        apply List.map_congr_left
        intro kv _
        show (if kv.1 = generate_client_key e then (kv.1, { kv.2 with last_seen := now })
          else kv).1 = kv.1
        split <;> rfl
      rw [hk]
      exact hkeys
    rw [ih _ hkeys1]
    show { s with clients_ := (s.clients_.map _).map _ } = _
    rw [List.map_map]
    congr 1
    apply List.map_congr_left
    intro kv _
    show (if (if kv.1 = generate_client_key e then (kv.1, { kv.2 with last_seen := now })
        else kv).1 ∈ rest.map generate_client_key then
        ((if kv.1 = generate_client_key e then (kv.1, { kv.2 with last_seen := now })
          else kv).1,
          { (if kv.1 = generate_client_key e then (kv.1, { kv.2 with last_seen := now })
              else kv).2 with last_seen := now })
      else (if kv.1 = generate_client_key e then (kv.1, { kv.2 with last_seen := now })
        else kv))
      = (if kv.1 ∈ (e :: rest).map generate_client_key then
          (kv.1, { kv.2 with last_seen := now })
        else kv)
    by_cases h1 : kv.1 = generate_client_key e
    · by_cases h2 : kv.1 ∈ rest.map generate_client_key
      · rw [if_pos h1, if_pos h2, if_pos (by rw [List.map_cons]; exact List.mem_cons.mpr (Or.inl h1))]
      · rw [if_pos h1, if_neg h2, if_pos (by rw [List.map_cons]; exact List.mem_cons.mpr (Or.inl h1))]
    · by_cases h2 : kv.1 ∈ rest.map generate_client_key
      · rw [if_neg h1, if_pos h2, if_pos (by rw [List.map_cons]; exact List.mem_cons.mpr (Or.inr h2))]
      · rw [if_neg h1, if_neg h2, if_neg (by
          rw [List.map_cons]
          intro h
          rcases List.mem_cons.mp h with h3 | h3
          · exact h1 h3
          · exact h2 h3)]

theorem map_find_activity_run_none (key : String) (ops : List server_op) (s : dsu_server_t)
    (hops : ∀ op ∈ ops, activity_or_cleanup op = true)
    (hfind : map_find key s.clients_ = none) :
    map_find key (server_run s ops).clients_ = none := by
  induction ops generalizing s with
  | nil => exact hfind
  | cons op rest ih =>
    rw [server_run_cons]
    apply ih _ (fun o ho => hops o (List.mem_cons_of_mem _ ho))
    have hop := hops op (List.mem_cons_self _ _)
    cases op with
    | cleanup =>
      apply map_find_eq_none_of_not_mem
      intro hm
      exact not_mem_keys_of_map_find_none _ _ hfind ((cleanup_loop_keys_sublist _).subset hm)
    | activity es now => exact ((update_clients_activity_spec es now s).2.2 key).1 hfind
    | receive _ _ _ => cases hop
    | motion _ _ _ _ _ _ _ _ => cases hop
    | start _ _ _ => cases hop
    | stop => cases hop

/-- The session under `key` across cleanup ticks and activity reports: its idle counter grows
by the number of ticks, whatever the reports name, and it is erased when the counter reaches
40. -/
theorem map_find_activity_run (key : String) (ops : List server_op) (s : dsu_server_t)
    (ci : client_info_t) (hkeys : (s.clients_.map Prod.fst).Nodup)
    (hops : ∀ op ∈ ops, activity_or_cleanup op = true)
    (hfind : map_find key s.clients_ = some ci)
    (hlo : 0 ≤ ci.sendTimeout) (hhi : ci.sendTimeout < 40) :
    (ci.sendTimeout + count_ticks ops < 40 →
      ∃ t : Nat, map_find key (server_run s ops).clients_
        = some { ci with sendTimeout := ci.sendTimeout + count_ticks ops, last_seen := t }) ∧
    (40 ≤ ci.sendTimeout + count_ticks ops →
      map_find key (server_run s ops).clients_ = none) := by
  induction ops generalizing s ci with
  | nil =>
    constructor
    · intro _
      refine ⟨ci.last_seen, ?_⟩
      have h0 : ((count_ticks [] : Nat) : Int) = 0 := rfl
      rw [h0, add_zero]
      exact hfind
    · intro h
      have h0 : ((count_ticks [] : Nat) : Int) = 0 := rfl
      omega
  | cons op rest ih =>
    rw [server_run_cons]
    have hkeys1 := server_step_keys_nodup s op hkeys
    have hrest : ∀ o ∈ rest, activity_or_cleanup o = true :=
      fun o ho => hops o (List.mem_cons_of_mem _ ho)
    have hop := hops op (List.mem_cons_self _ _)
    cases op with
    | cleanup =>
      have hcount : ((count_ticks (server_op.cleanup :: rest) : Nat) : Int)
          = (count_ticks rest : Int) + 1 := by
        show ((count_ticks rest + 1 : Nat) : Int) = _
        push_cast
        rfl
      rw [hcount]
      have hstep : map_find key (server_step s server_op.cleanup).clients_ =
          (if int32_wrap (ci.sendTimeout + 1) ≥ CLIENT_TIMEOUT then none
           else some { ci with sendTimeout := int32_wrap (ci.sendTimeout + 1) }) := by
        show map_find _ (cleanup_loop s.clients_) = _
        rw [map_find_cleanup_loop _ _ hkeys, hfind]
        rfl
      rw [int32_wrap_succ _ hlo hhi] at hstep
      have hct : CLIENT_TIMEOUT = 40 := rfl
      rw [hct] at hstep
      by_cases hge : ci.sendTimeout + 1 ≥ 40
      · rw [if_pos hge] at hstep
        constructor
        · intro h; omega
        · intro _
          exact map_find_activity_run_none key rest _ hrest hstep
      · rw [if_neg hge] at hstep
        obtain ⟨ih1, ih2⟩ := ih (server_step s server_op.cleanup)
          { ci with sendTimeout := ci.sendTimeout + 1 } hkeys1 hrest hstep
          (show (0 : Int) ≤ ci.sendTimeout + 1 by omega)
          (show ci.sendTimeout + 1 < 40 by omega)
        have harith : ci.sendTimeout + 1 + (count_ticks rest : Int)
            = ci.sendTimeout + ((count_ticks rest : Int) + 1) := by ring
        constructor
        · intro h
          obtain ⟨t, ht⟩ := ih1 (show ci.sendTimeout + 1 + (count_ticks rest : Int) < 40 by omega)
          refine ⟨t, ?_⟩
          rw [ht]
          have hci : ({ ci with sendTimeout := ci.sendTimeout + 1 + (count_ticks rest : Int), last_seen := t } : client_info_t) = { ci with sendTimeout := ci.sendTimeout + ((count_ticks rest : Int) + 1), last_seen := t } := by
            rw [harith]
          exact congrArg some hci
        · intro h
          exact ih2 (show 40 ≤ ci.sendTimeout + 1 + (count_ticks rest : Int) by omega)
    | activity es now =>
      have hcount : count_ticks (server_op.activity es now :: rest) = count_ticks rest := rfl
      rw [hcount]
      obtain ⟨t0, ht0⟩ := ((update_clients_activity_spec es now s).2.2 key).2 ci hfind
      obtain ⟨ih1, ih2⟩ := ih (server_step s (server_op.activity es now))
        { ci with last_seen := t0 } hkeys1 hrest ht0 hlo hhi
      constructor
      · intro h
        obtain ⟨t, ht⟩ := ih1 h
        exact ⟨t, ht⟩
      · intro h
        exact ih2 h
    | receive _ _ _ => cases hop
    | motion _ _ _ _ _ _ _ _ => cases hop
    | start _ _ _ => cases hop
    | stop => cases hop

/-- C29. `update_clients_activity` never keeps a session alive. On a registry with one entry
per key it changes only `last_seen`, and only of the entries stored under the key of a listed
endpoint: no entry is added or removed, and key, endpoint, controller id, client id and idle
counter of every entry are as before. So across any sequence of cleanup ticks and activity
reports, whatever endpoints they list, a session with idle counter `c` has counter `c` plus
the number of ticks while that is below 40, and is gone once it reaches 40. -/
theorem activity_keeps_nothing_alive (s : dsu_server_t) (es : List udp_endpoint) (now : Nat)
    (hkeys : (s.clients_.map Prod.fst).Nodup) :
    update_clients_activity s es now =
      { s with clients_ := s.clients_.map (fun kv =>
          if kv.1 ∈ es.map generate_client_key then (kv.1, { kv.2 with last_seen := now })
          else kv) } ∧
    get_client_count (update_clients_activity s es now) = get_client_count s ∧
    (update_clients_activity s es now).clients_.map
        (fun kv => (kv.1, kv.2.endpoint, kv.2.controller_id, kv.2.client_id, kv.2.sendTimeout))
      = s.clients_.map
        (fun kv => (kv.1, kv.2.endpoint, kv.2.controller_id, kv.2.client_id, kv.2.sendTimeout)) ∧
    (∀ (key : String) (ci : client_info_t) (ops : List server_op),
      (∀ op ∈ ops, activity_or_cleanup op = true) →
      map_find key s.clients_ = some ci → 0 ≤ ci.sendTimeout → ci.sendTimeout < 40 →
      (ci.sendTimeout + count_ticks ops < 40 →
        ∃ t : Nat, map_find key (server_run s ops).clients_
          = some { ci with sendTimeout := ci.sendTimeout + count_ticks ops, last_seen := t }) ∧
      (40 ≤ ci.sendTimeout + count_ticks ops →
        map_find key (server_run s ops).clients_ = none)) := by
  have heq := update_clients_activity_eq_map es now s hkeys
  refine ⟨heq, ?_, ?_, ?_⟩
  · rw [heq]
    unfold get_client_count
    exact List.length_map _ _
  · rw [heq]
    show (s.clients_.map _).map _ = _
    rw [List.map_map]
    apply List.map_congr_left
    intro kv _
    show ((if kv.1 ∈ es.map generate_client_key then (kv.1, { kv.2 with last_seen := now })
        else kv).1,
      (if kv.1 ∈ es.map generate_client_key then (kv.1, { kv.2 with last_seen := now })
        else kv).2.endpoint,
      (if kv.1 ∈ es.map generate_client_key then (kv.1, { kv.2 with last_seen := now })
        else kv).2.controller_id,
      (if kv.1 ∈ es.map generate_client_key then (kv.1, { kv.2 with last_seen := now })
        else kv).2.client_id,
      (if kv.1 ∈ es.map generate_client_key then (kv.1, { kv.2 with last_seen := now })
        else kv).2.sendTimeout) = _
    split <;> rfl
  · intro key ci ops hops hfind hlo hhi
    exact map_find_activity_run key ops s ci hkeys hops hfind hlo hhi

set_option maxRecDepth 100000 in
/-- Witness for C29: at the server of Scenario B the session of `client_E` is reported active
before and in the middle of 40 cleanup ticks; it is gone at the end. -/
theorem activity_keeps_nothing_alive_witness :
    (scenario_B_server.clients_.map Prod.fst).Nodup ∧
    get_client_count (update_clients_activity scenario_B_server [client_E] 5) = 1 ∧
    map_find (generate_client_key client_E)
      (server_run scenario_B_server
        (server_op.activity [client_E] 1 :: (List.replicate 20 server_op.cleanup ++
          server_op.activity [client_E] 2 :: List.replicate 20 server_op.cleanup))).clients_
      = none := by
  have h := activity_keeps_nothing_alive scenario_B_server [client_E] 5 (by decide)
  have h1 : get_client_count scenario_B_server = 1 := by decide
  exact ⟨by decide, h.2.1.trans h1,
    (h.2.2.2 (generate_client_key client_E) (client_info_t.init client_E 0 0x21A220EE 0)
      (server_op.activity [client_E] 1 :: (List.replicate 20 server_op.cleanup ++
        server_op.activity [client_E] 2 :: List.replicate 20 server_op.cleanup))
      (by decide) (by decide) (by decide) (by decide)).2 (by decide)⟩
end platf
